import Mathlib

/-!
# Enterprise graphics core: vertex arrays

A shallow embedding of `Enterprise/Graphics/VertexArrays.cpp` (the handle
registry, the vertex layout pass of `CreateVertexArray`, the buffer update
path and the attribute binder of `DrawArray`), followed by theorems about it.

Conventions of the embedding.

* `std::unordered_map<K, V>` is a function `Nat → Option V`.  `operator[]`
  default-constructs a missing entry: `Table.read` is the value it yields and
  `Table.touch` the table it leaves behind.
* `unsigned int` arithmetic is reduced modulo `2 ^ 32`, `uint64_t` and `size_t`
  arithmetic modulo `2 ^ 64`.
* A failing `EP_ASSERT` ends the run: the operation returns `Fault.assertion`.
* Every OpenGL call is appended to a trace of `GLCall` events, and the two
  buffer bindings of the context are part of the state.  `EP_GL(call)` is the
  call itself: errors raised by the backend are not modelled.
-/

namespace Enterprise
namespace Graphics

/-! ## Machine integers -/

/-- Number of values of `unsigned int`. -/
def UINT : Nat := 2 ^ 32

/-- Number of values of `uint64_t` and of `size_t`. -/
def U64 : Nat := 2 ^ 64

/-! ## Tables (`std::unordered_map`) -/

/-- A `std::unordered_map` with integer keys. -/
abbrev Table (α : Type) := Nat → Option α

namespace Table

/-- The empty map. -/
def empty {α : Type} : Table α := fun _ => none

/-- Assignment through `m[k] = v`. -/
def set {α : Type} (m : Table α) (k : Nat) (v : α) : Table α :=
  fun j => if j = k then some v else m j

/-- The call `m.erase(k)`. -/
def erase {α : Type} (m : Table α) (k : Nat) : Table α :=
  fun j => if j = k then none else m j

/-- Value of the expression `m[k]`: the stored value, or the default-constructed
value `d` when the key is absent. -/
def read {α : Type} (m : Table α) (k : Nat) (d : α) : α := (m k).getD d

/-- Table left behind by evaluating `m[k]`: an absent key is inserted with the
default-constructed value `d`. -/
def touch {α : Type} (m : Table α) (k : Nat) (d : α) : Table α :=
  fun j => if j = k then some ((m k).getD d) else m j

/-- The call `m.count(k)`. -/
def count {α : Type} (m : Table α) (k : Nat) : Nat := if (m k).isSome then 1 else 0

/-- Value of `m[a][n]` in a table of tables. -/
def read2 {α : Type} (m : Table (Table α)) (a n : Nat) (d : α) : α :=
  (m.read a Table.empty).read n d

/-- Table left behind by evaluating `m[a][n]`. -/
def touch2 {α : Type} (m : Table (Table α)) (a n : Nat) (d : α) : Table (Table α) :=
  m.set a ((m.read a Table.empty).touch n d)

/-- Assignment through `m[a][n] = v`. -/
def set2 {α : Type} (m : Table (Table α)) (a n : Nat) (v : α) : Table (Table α) :=
  m.set a ((m.read a Table.empty).set n v)

end Table

/-! ## Data model -/

/-- Hashed attribute name (`HashName`). -/
abbrev HashName := Nat

/-- Handle of a vertex array (`Graphics::ArrayRef`). -/
abbrev ArrayRef := Nat

/-- An OpenGL enumerator value. -/
abbrev GLenum := Nat

/-- The OpenGL constant `GL_FLOAT`. -/
def GL_FLOAT : GLenum := 0x1406

/-- The OpenGL constant `GL_INT`. -/
def GL_INT : GLenum := 0x1404

/-- The OpenGL constant `GL_UNSIGNED_INT`. -/
def GL_UNSIGNED_INT : GLenum := 0x1405

/-- The enumerators of `Graphics::ShaderDataType` handled by
`getAttributeTypeInfo`. -/
inductive ShaderDataType where
  | Float | Float2 | Float3 | Float4
  | Int | Int2 | Int3 | Int4
  | UInt | UInt2 | UInt3 | UInt4
  deriving DecidableEq, Repr, Inhabited

/-- The three out-parameters of `getAttributeTypeInfo`. -/
structure AttributeTypeInfo where
  /-- Out-parameter `outGLType`. -/
  glType : GLenum
  /-- Out-parameter `outTypeSize`: bytes of one component. -/
  typeSize : Nat
  /-- Out-parameter `outAttributeArgs`: number of components. -/
  attributeArgs : Nat
  deriving DecidableEq, Repr

/-- Helper of the source: extracts the OpenGL type, the component byte size
(`sizeof(float)`, `sizeof(int)`, `sizeof(unsigned int)`, all 4) and the
component count from a `ShaderDataType`. -/
def getAttributeTypeInfo : ShaderDataType → AttributeTypeInfo
  | .Float => ⟨GL_FLOAT, 4, 1⟩
  | .Float2 => ⟨GL_FLOAT, 4, 2⟩
  | .Float3 => ⟨GL_FLOAT, 4, 3⟩
  | .Float4 => ⟨GL_FLOAT, 4, 4⟩
  | .Int => ⟨GL_INT, 4, 1⟩
  | .Int2 => ⟨GL_INT, 4, 2⟩
  | .Int3 => ⟨GL_INT, 4, 3⟩
  | .Int4 => ⟨GL_INT, 4, 4⟩
  | .UInt => ⟨GL_UNSIGNED_INT, 4, 1⟩
  | .UInt2 => ⟨GL_UNSIGNED_INT, 4, 2⟩
  | .UInt3 => ⟨GL_UNSIGNED_INT, 4, 3⟩
  | .UInt4 => ⟨GL_UNSIGNED_INT, 4, 4⟩

/-- Buffer binding points used by the source. -/
inductive Target where
  | GL_ARRAY_BUFFER
  | GL_ELEMENT_ARRAY_BUFFER
  deriving DecidableEq, Repr

/-- One call into the OpenGL backend, with the arguments that matter. -/
inductive GLCall where
  | glGenBuffers (name : Nat)
  | glBindBuffer (target : Target) (name : Nat)
  | glBufferData (target : Target) (size : Nat) (dynamic : Bool)
  | glDeleteBuffers (name : Nat)
  | glBufferSubData (target : Target) (offset size : Nat)
  | glEnableVertexAttribArray (index : Nat)
  | glDisableVertexAttribArray (index : Nat)
  | glVertexAttribPointer (index : Nat) (size : Nat) (type : GLenum) (stride offset : Nat)
  | glVertexAttribIPointer (index : Nat) (size : Nat) (type : GLenum) (stride offset : Nat)
  | glDrawElements (count : Nat)
  deriving DecidableEq, Repr

/-- How an operation can end without returning. -/
inductive Fault where
  /-- An `EP_ASSERT` failed. -/
  | assertion
  /-- The operation read `layout.begin()` of an empty initializer list. -/
  | readPastEnd
  deriving DecidableEq, Repr

/-- The file-level and class-level variables of `VertexArrays.cpp`, and the two
buffer bindings of the OpenGL context. -/
structure State where
  /-- Counter `nextArrayRef` (an `ArrayRef`), used in handle generation. -/
  nextArrayRef : Nat
  /-- Variable `Graphics::_activeArray` (an `ArrayRef`), the array recorded as bound. -/
  _activeArray : Nat
  /-- Variable `Graphics::_enabledAttributes`, bitmask of enabled slots. -/
  _enabledAttributes : Nat
  /-- OpenGL names of the vertex buffers. -/
  vbos : Table Nat
  /-- Number of vertices a vertex buffer can hold. -/
  vboSizes : Table Nat
  /-- OpenGL names of the index buffers. -/
  ibos : Table Nat
  /-- Number of triangles an index buffer can represent. -/
  iboSizesInTriangles : Table Nat
  /-- Names of the attributes of an array, in push order. -/
  vertexAttributeNames : Table (List HashName)
  /-- Declared data type of each attribute. -/
  vertexAttributeDataTypes : Table (Table ShaderDataType)
  /-- Byte offset of each attribute in a vertex. -/
  attributeVBOOffsets : Table (Table Nat)
  /-- OpenGL type of each attribute. -/
  attributeGLTypes : Table (Table GLenum)
  /-- Component count of each attribute. -/
  attributeParameterCounts : Table (Table Nat)
  /-- Stride of a vertex of each array. -/
  vertexStrides : Table Nat
  /-- Buffer bound to `GL_ARRAY_BUFFER` in the context. -/
  boundArrayBuffer : Nat
  /-- Buffer bound to `GL_ELEMENT_ARRAY_BUFFER` in the context. -/
  boundElementArrayBuffer : Nat

/-- State at start-up: `nextArrayRef = 1`, `_activeArray = 0`, empty tables,
nothing bound, no slot enabled. -/
def State.init : State :=
  { nextArrayRef := 1, _activeArray := 0, _enabledAttributes := 0,
    vbos := Table.empty, vboSizes := Table.empty, ibos := Table.empty,
    iboSizesInTriangles := Table.empty, vertexAttributeNames := Table.empty,
    vertexAttributeDataTypes := Table.empty, attributeVBOOffsets := Table.empty,
    attributeGLTypes := Table.empty, attributeParameterCounts := Table.empty,
    vertexStrides := Table.empty, boundArrayBuffer := 0, boundElementArrayBuffer := 0 }

/-! ## CreateVertexArray -/

/-- Padding statement of the source,
`stride += (sizeOfType - stride % sizeOfType) % sizeOfType`, on `unsigned int`.
The subtraction cannot wrap because `stride % sizeOfType < sizeOfType`. -/
def addPadding (stride sizeOfType : Nat) : Nat :=
  (stride + (sizeOfType - stride % sizeOfType) % sizeOfType) % UINT

/-- Body of the loop `for (auto attr : layout)` of `CreateVertexArray`,
for the array key `r = nextArrayRef`. -/
def layoutStep (r : ArrayRef) (s : State) (attr : HashName × ShaderDataType) : State :=
  let info := getAttributeTypeInfo attr.2
  let stride := s.vertexStrides.read r 0
  { s with
    vertexAttributeNames :=
      s.vertexAttributeNames.set r (s.vertexAttributeNames.read r [] ++ [attr.1])
    vertexAttributeDataTypes := s.vertexAttributeDataTypes.set2 r attr.1 attr.2
    attributeGLTypes := s.attributeGLTypes.set2 r attr.1 info.glType
    attributeParameterCounts := s.attributeParameterCounts.set2 r attr.1 info.attributeArgs
    attributeVBOOffsets := s.attributeVBOOffsets.set2 r attr.1 stride
    vertexStrides :=
      s.vertexStrides.set r
        ((addPadding stride info.typeSize + info.typeSize * info.attributeArgs) % UINT) }

/-- The whole loop over the layout. -/
def layoutLoop (r : ArrayRef) (s : State) (layout : List (HashName × ShaderDataType)) : State :=
  layout.foldl (layoutStep r) s

/-- State of `CreateVertexArray` when it enters the loop over the layout: both
capacities stored under the key `nextArrayRef` (`size_t` values converted to
`unsigned int`), the stride of that key reset to 0. -/
def layoutStart (s : State) (maxVertices maxTriangles : Nat) : State :=
  { s with
    vboSizes := s.vboSizes.set s.nextArrayRef (maxVertices % UINT)
    iboSizesInTriangles := s.iboSizesInTriangles.set s.nextArrayRef (maxTriangles % UINT)
    vertexStrides := s.vertexStrides.set s.nextArrayRef 0 }

/-- The function `Graphics::CreateVertexArray`.

* `w` is the width in bits of `Graphics::ArrayRef`, whose declaration
  (`Graphics.h`) is not part of the sources; handle arithmetic is modulo `2 ^ w`.
* `vbo` and `ibo` are the names the two `glGenBuffers` calls return.
* `maxVertices` and `maxTriangles` are `size_t` values; they are stored in
  `unsigned int` tables. -/
def CreateVertexArray (w : Nat) (s : State) (dynamicVertices dynamicIndices : Bool)
    (maxVertices maxTriangles : Nat) (layout : List (HashName × ShaderDataType))
    (vbo ibo : Nat) : Except Fault (Nat × State × List GLCall) :=
  if maxVertices = 0 then .error .assertion
  else if maxTriangles = 0 then .error .assertion
  else
    let r := s.nextArrayRef
    let s3 := layoutLoop r (layoutStart s maxVertices maxTriangles) layout
    match layout with
    | [] => .error .readPastEnd
    | first :: _ =>
      let info := getAttributeTypeInfo first.2
      let stride := addPadding (s3.vertexStrides.read r 0) info.typeSize
      let next := (r + 1) % 2 ^ w
      .ok ((next + (2 ^ w - 1)) % 2 ^ w,
        { s3 with
          vertexStrides := s3.vertexStrides.set r stride
          vbos := s3.vbos.set r vbo
          ibos := s3.ibos.set r ibo
          boundArrayBuffer := vbo
          boundElementArrayBuffer := ibo
          _activeArray := r
          nextArrayRef := next },
        [.glGenBuffers vbo,
         .glBindBuffer .GL_ARRAY_BUFFER vbo,
         .glBufferData .GL_ARRAY_BUFFER ((stride * maxVertices) % U64) dynamicVertices,
         .glGenBuffers ibo,
         .glBindBuffer .GL_ELEMENT_ARRAY_BUFFER ibo,
         .glBufferData .GL_ELEMENT_ARRAY_BUFFER ((4 * 3 * maxTriangles) % U64) dynamicIndices])

/-- Where a call of `Graphics::CreateVertexArray` stops: the fault, if one ends
the call, the state of the globals at that point and the backend calls issued up
to there.  The statements are those of `CreateVertexArray` above; a fault keeps
what the statements in front of it have written. -/
def CreateVertexArrayStopped (w : Nat) (s : State) (dynamicVertices dynamicIndices : Bool)
    (maxVertices maxTriangles : Nat) (layout : List (HashName × ShaderDataType))
    (vbo ibo : Nat) : Option Fault × State × List GLCall :=
  if maxVertices = 0 then (some .assertion, s, [])
  else if maxTriangles = 0 then (some .assertion, s, [])
  else
    let r := s.nextArrayRef
    let s3 := layoutLoop r (layoutStart s maxVertices maxTriangles) layout
    match layout with
    | [] => (some .readPastEnd, s3, [])
    | first :: _ =>
      let info := getAttributeTypeInfo first.2
      let stride := addPadding (s3.vertexStrides.read r 0) info.typeSize
      let next := (r + 1) % 2 ^ w
      (none,
        { s3 with
          vertexStrides := s3.vertexStrides.set r stride
          vbos := s3.vbos.set r vbo
          ibos := s3.ibos.set r ibo
          boundArrayBuffer := vbo
          boundElementArrayBuffer := ibo
          _activeArray := r
          nextArrayRef := next },
        [.glGenBuffers vbo,
         .glBindBuffer .GL_ARRAY_BUFFER vbo,
         .glBufferData .GL_ARRAY_BUFFER ((stride * maxVertices) % U64) dynamicVertices,
         .glGenBuffers ibo,
         .glBindBuffer .GL_ELEMENT_ARRAY_BUFFER ibo,
         .glBufferData .GL_ELEMENT_ARRAY_BUFFER ((4 * 3 * maxTriangles) % U64) dynamicIndices])

/-! ## The OpenGL context -/

/-- Effect of `glDeleteBuffers` on a binding point of the context: deleting the
buffer that is bound there resets the binding to 0; the name 0 is ignored. -/
def unbindDeleted (bound name : Nat) : Nat :=
  if name ≠ 0 ∧ bound = name then 0 else bound

/-- The block that opens `SetVertexData`, `SetIndexData` and `DrawArray`:
`if (array != _activeArray)` bind both buffers of `array` and record it. -/
def bindArray (s : State) (array : ArrayRef) : State × List GLCall :=
  if array ≠ s._activeArray then
    let vbo := s.vbos.read array 0
    let ibo := s.ibos.read array 0
    ({ s with
        vbos := s.vbos.touch array 0
        ibos := s.ibos.touch array 0
        boundArrayBuffer := vbo
        boundElementArrayBuffer := ibo
        _activeArray := array },
      [.glBindBuffer .GL_ARRAY_BUFFER vbo, .glBindBuffer .GL_ELEMENT_ARRAY_BUFFER ibo])
  else (s, [])

/-! ## DeleteVertexArray -/

/-- The function `Graphics::DeleteVertexArray`.  It has no assertion. -/
def DeleteVertexArray (s : State) (array : ArrayRef) : Except Fault (State × List GLCall) :=
  let vbo := s.vbos.read array 0
  let ibo := s.ibos.read array 0
  .ok ({ s with
      vbos := (s.vbos.touch array 0).erase array
      vboSizes := s.vboSizes.erase array
      ibos := (s.ibos.touch array 0).erase array
      iboSizesInTriangles := s.iboSizesInTriangles.erase array
      vertexAttributeNames := s.vertexAttributeNames.erase array
      vertexAttributeDataTypes := s.vertexAttributeDataTypes.erase array
      attributeVBOOffsets := s.attributeVBOOffsets.erase array
      attributeGLTypes := s.attributeGLTypes.erase array
      attributeParameterCounts := s.attributeParameterCounts.erase array
      vertexStrides := s.vertexStrides.erase array
      boundArrayBuffer := unbindDeleted (unbindDeleted s.boundArrayBuffer vbo) ibo
      boundElementArrayBuffer := unbindDeleted (unbindDeleted s.boundElementArrayBuffer vbo) ibo },
    [.glDeleteBuffers vbo, .glDeleteBuffers ibo])

/-! ## SetVertexData and SetIndexData -/

/-- The function `Graphics::SetVertexData`; `src` is the address passed
(0 is the null pointer), `first` and `count` are `unsigned int`. -/
def SetVertexData (s : State) (array : ArrayRef) (src first count : Nat) :
    Except Fault (State × List GLCall) :=
  if src = 0 then .error .assertion
  else if count = 0 then .error .assertion
  else if ¬ ((first + count) % UINT ≤ s.vboSizes.read array 0) then .error .assertion
  else
    let s1 := { s with vboSizes := s.vboSizes.touch array 0 }
    let b := bindArray s1 array
    let stride := b.1.vertexStrides.read array 0
    .ok ({ b.1 with vertexStrides := b.1.vertexStrides.touch array 0 },
      b.2 ++ [.glBufferSubData .GL_ARRAY_BUFFER ((stride * first) % UINT)
        ((stride * count) % UINT)])

/-- The function `Graphics::SetIndexData`.  The bound of the assertion is
computed in `unsigned int`, the offset and size of the upload in `size_t`. -/
def SetIndexData (s : State) (array : ArrayRef) (src first count : Nat) :
    Except Fault (State × List GLCall) :=
  if src = 0 then .error .assertion
  else if count = 0 then .error .assertion
  else if ¬ ((first + count) % UINT ≤ (s.iboSizesInTriangles.read array 0 * 3) % UINT) then
    .error .assertion
  else
    let s1 := { s with iboSizesInTriangles := s.iboSizesInTriangles.touch array 0 }
    let b := bindArray s1 array
    .ok (b.1,
      b.2 ++ [.glBufferSubData .GL_ELEMENT_ARRAY_BUFFER ((4 * 3 * first) % U64)
        ((4 * count) % U64)])

/-! ## DrawArray -/

/-- Modelled from the spec: the `BIT` helper used by `DrawArray` is defined in a
header that is not part of the sources.  The spec describes
`_enabledAttributes` as "a bitmask of currently enabled vertex-attribute
slots", so `BIT(x)` is the 64-bit mask whose only set bit is bit `x`. -/
def BIT (x : Nat) : Nat := 2 ^ x % U64

/-- The entries the lookups of one loop iteration of `DrawArray` insert when they
are missing: `attributeGLTypes[array][name]`, `attributeParameterCounts[array][name]`,
`vertexStrides[array]` and `attributeVBOOffsets[array][name]`. -/
def touchAttribute (s : State) (array : ArrayRef) (name : HashName) : State :=
  { s with
    attributeGLTypes := s.attributeGLTypes.touch2 array name 0
    attributeParameterCounts := s.attributeParameterCounts.touch2 array name 0
    vertexStrides := s.vertexStrides.touch array 0
    attributeVBOOffsets := s.attributeVBOOffsets.touch2 array name 0 }

/-- The loop `for (HashName name : vertexAttributeNames[array])` of `DrawArray`.
`shader` is the attribute map `_shaderAttributeIndices[_activeProgram]` of the
active program; `newStatus` is `newAttributeEnableStatus`.  Returns the state
(the lookups insert missing entries), the final `newAttributeEnableStatus` and
the calls issued. -/
def attributeLoop (shader : Table Nat) (array : ArrayRef) :
    List HashName → State → Nat → State × Nat × List GLCall
  | [], s, newStatus => (s, newStatus, [])
  | name :: rest, s, newStatus =>
    if shader.count name ≠ 0 then
      let index := shader.read name 0
      let enable : List GLCall :=
        if s._enabledAttributes &&& BIT index = 0 then [.glEnableVertexAttribArray index] else []
      let glType := s.attributeGLTypes.read2 array name 0
      let params := s.attributeParameterCounts.read2 array name 0
      let stride := s.vertexStrides.read array 0
      let offset := s.attributeVBOOffsets.read2 array name 0
      let pointer : GLCall :=
        if glType = GL_FLOAT then .glVertexAttribPointer index params GL_FLOAT stride offset
        else .glVertexAttribIPointer index params glType stride offset
      let r := attributeLoop shader array rest (touchAttribute s array name)
        (newStatus ||| BIT index)
      (r.1, r.2.1, enable ++ pointer :: r.2.2)
    else attributeLoop shader array rest s newStatus

/-- The loop `while (toTurnOff)` of `DrawArray`, with a bound on the number of
iterations.  `toTurnOff & -toTurnOff` and `~BIT(..)` are `uint64_t`
operations; `log2` is applied to a power of two, where it is exact. -/
def disableLoop : Nat → Nat → List GLCall
  | 0, _ => []
  | fuel + 1, toTurnOff =>
    if toTurnOff = 0 then []
    else
      let leastSignificantSetPosition := Nat.log2 (toTurnOff &&& ((U64 - toTurnOff) % U64))
      .glDisableVertexAttribArray (leastSignificantSetPosition + 1) ::
        disableLoop fuel (toTurnOff &&& (U64 - 1 - BIT leastSignificantSetPosition))

/-- Evaluating `vertexAttributeNames[array]` at the head of the attribute loop
inserts an empty name list for an unknown key. -/
def touchNames (s : State) (array : ArrayRef) : State :=
  { s with vertexAttributeNames := s.vertexAttributeNames.touch array [] }

/-- The function `Graphics::DrawArray(ArrayRef, unsigned int)`; `shader` is the
attribute map of the active program.  It has no assertion.  The debug-only
program validation issues no call that touches vertex-array state and is left
out.  A 64-bit mask has at most 64 set bits, so the disable loop gets 64
iterations. -/
def DrawArray (s : State) (array : ArrayRef) (triangleCount : Nat) (shader : Table Nat) :
    Except Fault (State × List GLCall) :=
  let b := bindArray s array
  let names := b.1.vertexAttributeNames.read array []
  let r := attributeLoop shader array names (touchNames b.1 array) 0
  let toTurnOff := ((r.2.1 ^^^ r.1._enabledAttributes) &&& r.1._enabledAttributes) % U64
  .ok ({ r.1 with _enabledAttributes := r.2.1 },
    b.2 ++ r.2.2 ++ disableLoop 64 toTurnOff ++ [.glDrawElements ((triangleCount * 3) % UINT)])

/-- The function `Graphics::DrawArray(ArrayRef)`: draws with
`iboSizesInTriangles[array]` triangles. -/
def DrawArrayDefault (s : State) (array : ArrayRef) (shader : Table Nat) :
    Except Fault (State × List GLCall) :=
  DrawArray { s with iboSizesInTriangles := s.iboSizesInTriangles.touch array 0 } array
    (s.iboSizesInTriangles.read array 0) shader

/-! ## Sequences of calls -/

/-- One call of the public interface, with its arguments. -/
inductive Call where
  | CreateVertexArray (dynamicVertices dynamicIndices : Bool) (maxVertices maxTriangles : Nat)
      (layout : List (HashName × ShaderDataType)) (vbo ibo : Nat)
  | DeleteVertexArray (array : ArrayRef)
  | SetVertexData (array : ArrayRef) (src first count : Nat)
  | SetIndexData (array : ArrayRef) (src first count : Nat)
  | DrawArrayDefault (array : ArrayRef) (shader : Table Nat)
  | DrawArray (array : ArrayRef) (triangleCount : Nat) (shader : Table Nat)

/-- Executes one call; the middle component is the handle returned, if any. -/
def step (w : Nat) (s : State) : Call → Except Fault (State × Option Nat × List GLCall)
  | .CreateVertexArray dv di mv mt layout vbo ibo =>
    match CreateVertexArray w s dv di mv mt layout vbo ibo with
    | .ok (h, s1, tr) => .ok (s1, some h, tr)
    | .error f => .error f
  | .DeleteVertexArray a =>
    match DeleteVertexArray s a with
    | .ok (s1, tr) => .ok (s1, none, tr)
    | .error f => .error f
  | .SetVertexData a src first count =>
    match SetVertexData s a src first count with
    | .ok (s1, tr) => .ok (s1, none, tr)
    | .error f => .error f
  | .SetIndexData a src first count =>
    match SetIndexData s a src first count with
    | .ok (s1, tr) => .ok (s1, none, tr)
    | .error f => .error f
  | .DrawArrayDefault a shader =>
    match DrawArrayDefault s a shader with
    | .ok (s1, tr) => .ok (s1, none, tr)
    | .error f => .error f
  | .DrawArray a n shader =>
    match DrawArray s a n shader with
    | .ok (s1, tr) => .ok (s1, none, tr)
    | .error f => .error f

/-- What a sequence of calls has done when it ends or when a call faults. -/
structure Run where
  /-- State after the last call that returned. -/
  state : State
  /-- Handles returned by the `CreateVertexArray` calls, oldest first. -/
  handles : List Nat
  /-- All OpenGL calls issued, oldest first. -/
  trace : List GLCall
  /-- The fault that ended the run, if one did. -/
  fault : Option Fault

/-- Executes calls in order; a fault ends the run. -/
def run (w : Nat) : State → List Call → Run
  | s, [] => ⟨s, [], [], none⟩
  | s, c :: cs =>
    match step w s c with
    | .error f => ⟨s, [], [], some f⟩
    | .ok (s1, h, tr) =>
      let r := run w s1 cs
      ⟨r.state, h.toList ++ r.handles, tr ++ r.trace, r.fault⟩

/-! ## Reading traces and tables -/

/-- Slot indices passed to `glEnableVertexAttribArray`, in call order. -/
def enableCalls (tr : List GLCall) : List Nat :=
  tr.filterMap fun c => match c with
    | .glEnableVertexAttribArray i => some i
    | _ => none

/-- Slot indices passed to `glDisableVertexAttribArray`, in call order. -/
def disableCalls (tr : List GLCall) : List Nat :=
  tr.filterMap fun c => match c with
    | .glDisableVertexAttribArray i => some i
    | _ => none

/-- The attribute-pointer configurations (`glVertexAttribPointer` and
`glVertexAttribIPointer`) of a trace, in call order. -/
def pointerCalls (tr : List GLCall) : List GLCall :=
  tr.filter fun c => match c with
    | .glVertexAttribPointer .. => true
    | .glVertexAttribIPointer .. => true
    | _ => false

/-- Table `t1` is table `t` with key `k` removed: no entry for `k`, every other
key unchanged. -/
def Table.IsEraseOf {α : Type} (t1 t : Table α) (k : Nat) : Prop :=
  t1 k = none ∧ ∀ j, j ≠ k → t1 j = t j

/-- The pointer configuration `DrawArray` issues for the attribute `name` of
`array` at shader slot `index`, from the values recorded in the tables of `s`:
`glVertexAttribPointer` for a `GL_FLOAT` attribute, `glVertexAttribIPointer`
otherwise. -/
def pointerCallFor (s : State) (array : ArrayRef) (index : Nat) (name : HashName) : GLCall :=
  if s.attributeGLTypes.read2 array name 0 = GL_FLOAT then
    .glVertexAttribPointer index (s.attributeParameterCounts.read2 array name 0) GL_FLOAT
      (s.vertexStrides.read array 0) (s.attributeVBOOffsets.read2 array name 0)
  else
    .glVertexAttribIPointer index (s.attributeParameterCounts.read2 array name 0)
      (s.attributeGLTypes.read2 array name 0)
      (s.vertexStrides.read array 0) (s.attributeVBOOffsets.read2 array name 0)

/-- All calls one iteration of the attribute loop issues for `name`, from the
values recorded in `s`. -/
def attributeCalls (shader : Table Nat) (array : ArrayRef) (s : State) (name : HashName) :
    List GLCall :=
  if shader.count name ≠ 0 then
    (if s._enabledAttributes &&& BIT (shader.read name 0) = 0 then
      [.glEnableVertexAttribArray (shader.read name 0)] else []) ++
      [pointerCallFor s array (shader.read name 0) name]
  else []

/-- The attribute names of a list that the shader exposes. -/
def exposedNames (shader : Table Nat) (names : List HashName) : List HashName :=
  names.filter fun n => (shader n).isSome

/-- The shader slots of the exposed names of a list, in list order. -/
def matchedSlots (shader : Table Nat) (names : List HashName) : List Nat :=
  names.filterMap shader

/-- The mask `newAttributeEnableStatus` after the attribute loop. -/
def wantedMask (shader : Table Nat) (names : List HashName) (start : Nat) : Nat :=
  names.foldl (fun acc n => if shader.count n ≠ 0 then acc ||| BIT (shader.read n 0) else acc)
    start

/-- The set bits of a 64-bit mask, as a set of slot indices. -/
def setBits (t : Nat) : Finset Nat := (Finset.range 64).filter (fun i => t.testBit i = true)

/-- Bytes of one attribute: `sizeOfType * paramCount`. -/
def attributeBytes (ty : ShaderDataType) : Nat :=
  (getAttributeTypeInfo ty).typeSize * (getAttributeTypeInfo ty).attributeArgs

/-- Total bytes of the attributes of a layout. -/
def layoutBytes (layout : List (HashName × ShaderDataType)) : Nat :=
  (layout.map fun a => attributeBytes a.2).sum

/-- The offsets recorded under key `r` for the attributes of `layout` are
non-decreasing in declaration order. -/
def OffsetsNonDecreasing (s : State) (r : ArrayRef)
    (layout : List (HashName × ShaderDataType)) : Prop :=
  layout.Pairwise fun a b =>
    s.attributeVBOOffsets.read2 r a.1 0 ≤ s.attributeVBOOffsets.read2 r b.1 0

/-- A layout of `2 ^ 28 + 1` attributes of type `Float4` with the names
`0, 1, ..`: its first `2 ^ 28` attributes fill `2 ^ 32` bytes. -/
def wrapLayout : List (HashName × ShaderDataType) :=
  (List.range' 0 (268435455 + 1 + 1)).map fun i => (i, ShaderDataType.Float4)

/-- The handles a run has returned are fresh: each is strictly greater than
every handle returned before it, and none is 0. -/
def HandlesFresh (hs : List Nat) : Prop :=
  hs.Pairwise (fun a b => a < b) ∧ ∀ h ∈ hs, h ≠ 0

/-- A `CreateVertexArray` call that returns: capacities 1 and 1, one `Float`
attribute, the backend handing out the buffer names 10 and 11. -/
def createCall : Call := .CreateVertexArray false false 1 1 [(1, .Float)] 10 11

/-- The call sequence "create an array, delete it", `n` times over; `k` is the
handle the first creation returns (handles are 32-bit values here). -/
def churnCalls : Nat → Nat → List Call
  | _, 0 => []
  | k, n + 1 => createCall :: .DeleteVertexArray (k % 2 ^ 32) :: churnCalls (k + 1) n

/-- The capacity lookups `vboSizes[h]` and `iboSizesInTriangles[h]` yield 0, as
they do for a handle whose entries have been erased. -/
def NoCapacity (s : State) (h : ArrayRef) : Prop :=
  s.vboSizes.read h 0 = 0 ∧ s.iboSizesInTriangles.read h 0 = 0

/-! ## Graphics::Init: the quad-batch index buffer -/

/-- The assignment `buffer[position] = value` on an array of `unsigned int`,
seen as a function of the position. -/
def writeIndex (buffer : Nat → Nat) (position value : Nat) : Nat → Nat :=
  fun p => if p = position then value else buffer p

/-- Body of the loop of `Graphics::Init` that fills `quadbatchindices`, for the
value `i` of the loop counter.  The counter is an `unsigned int`: positions and
values are computed modulo `2 ^ 32`. -/
def quadStep (buffer : Nat → Nat) (i : Nat) : Nat → Nat :=
  let b0 := writeIndex buffer ((i * 6) % UINT) ((4 * i) % UINT)
  let b1 := writeIndex b0 ((i * 6 + 1) % UINT) ((4 * i + 1) % UINT)
  let b2 := writeIndex b1 ((i * 6 + 2) % UINT) ((4 * i + 2) % UINT)
  let b3 := writeIndex b2 ((i * 6 + 3) % UINT) ((4 * i + 2) % UINT)
  let b4 := writeIndex b3 ((i * 6 + 4) % UINT) ((4 * i + 3) % UINT)
  writeIndex b4 ((i * 6 + 5) % UINT) ((4 * i) % UINT)

/-- The array `quadbatchindices` after the loop
`for (unsigned int i = 0; i < Constants::QuadBatch_MaxQuads; i++)` of
`Graphics::Init`.  `maxQuads` is the constant `Constants::QuadBatch_MaxQuads`,
which is declared outside the sources; `fresh` is the content of the array as
`new unsigned int[maxQuads * 6]` returns it.  The counter runs through
`0, .., maxQuads - 1`. -/
def quadbatchindices (maxQuads : Nat) (fresh : Nat → Nat) : Nat → Nat :=
  (List.range maxQuads).foldl quadStep fresh

/-- The buffer binds of a trace: target and buffer name of every
`glBindBuffer` call, in call order. -/
def bindCalls (tr : List GLCall) : List (Target × Nat) :=
  tr.filterMap fun c => match c with
    | .glBindBuffer target name => some (target, name)
    | _ => none

/-- The index counts passed to `glDrawElements`, in call order. -/
def drawCalls (tr : List GLCall) : List Nat :=
  tr.filterMap fun c => match c with
    | .glDrawElements count => some count
    | _ => none

/-! ## Textures (`Textures.cpp`) -/

/-- Parameter names passed to `glTexParameteri` by `LoadTexture`. -/
inductive TexParameter where
  | GL_TEXTURE_MIN_FILTER | GL_TEXTURE_MAG_FILTER | GL_TEXTURE_WRAP_S | GL_TEXTURE_WRAP_T
  deriving DecidableEq, Repr

/-- Parameter values passed to `glTexParameteri` by `LoadTexture`. -/
inductive TexValue where
  | GL_LINEAR | GL_CLAMP_TO_EDGE
  deriving DecidableEq, Repr

/-- Calls the texture functions make to the image decoder and to OpenGL. -/
inductive TextureEvent where
  | stbi_load (path : String)
  | glGenTextures (texture : Nat)
  | glBindTexture (texture : Nat)
  | glTexParameteri (pname : TexParameter) (param : TexValue)
  | glTexImage2D (width height : Nat)
  | stbi_image_free
  | glDeleteTextures (texture : Nat)
  deriving DecidableEq, Repr

/-- The file-level state of `Textures.cpp` in a build without `EP_CONFIG_DIST`:
the table `isTexRefInUse`. -/
structure TextureState where
  isTexRefInUse : Table Bool

/-- State at start-up: the table is empty. -/
def TextureState.init : TextureState := ⟨Table.empty⟩

/-- The function `Graphics::LoadTexture` in a build without `EP_CONFIG_DIST`,
where `EP_ASSERT_CODE` executes its statement.  `width` and `height` are what
the decoder reports, `texture` is the name `glGenTextures` returns.  The
function has no assertion and always returns `texture`. -/
def LoadTexture (s : TextureState) (path : String) (width height texture : Nat) :
    Nat × TextureState × List TextureEvent :=
  (texture,
    { isTexRefInUse := s.isTexRefInUse.set texture true },
    [.stbi_load path,
     .glGenTextures texture,
     .glBindTexture texture,
     .glTexParameteri .GL_TEXTURE_MIN_FILTER .GL_LINEAR,
     .glTexParameteri .GL_TEXTURE_MAG_FILTER .GL_LINEAR,
     .glTexParameteri .GL_TEXTURE_WRAP_S .GL_CLAMP_TO_EDGE,
     .glTexParameteri .GL_TEXTURE_WRAP_T .GL_CLAMP_TO_EDGE,
     .glTexImage2D width height,
     .glBindTexture 0,
     .stbi_image_free])

/-- The function `Graphics::DeleteTexture` in a build without `EP_CONFIG_DIST`:
`EP_ASSERT(texture)`, `EP_ASSERT(isTexRefInUse.count(texture))`, then the erase
and `glDeleteTextures`. -/
def DeleteTexture (s : TextureState) (texture : Nat) :
    Except Fault (TextureState × List TextureEvent) :=
  if texture = 0 then .error .assertion
  else if s.isTexRefInUse.count texture = 0 then .error .assertion
  else .ok ({ isTexRefInUse := s.isTexRefInUse.erase texture }, [.glDeleteTextures texture])

/-- One call of `LoadTexture` (with what the decoder and `glGenTextures`
return) or of `DeleteTexture`. -/
inductive TextureCall where
  | LoadTexture (path : String) (width height texture : Nat)
  | DeleteTexture (texture : Nat)
  deriving DecidableEq, Repr

/-- Executes texture calls in order; a failing assertion ends the run. -/
def textureRun : TextureState → List TextureCall → Except Fault TextureState
  | s, [] => .ok s
  | s, .LoadTexture path width height texture :: cs =>
    textureRun (LoadTexture s path width height texture).2.1 cs
  | s, .DeleteTexture texture :: cs =>
    match DeleteTexture s texture with
    | .ok (s1, _) => textureRun s1 cs
    | .error f => .error f

/-- Handle `t` was returned by a `LoadTexture` of `calls` that is not followed
by a `DeleteTexture t`. -/
def ReturnedAndNotDeleted (calls : List TextureCall) (t : Nat) : Prop :=
  ∃ pre post path width height,
    calls = pre ++ TextureCall.LoadTexture path width height t :: post ∧
    TextureCall.DeleteTexture t ∉ post

/-! ## The layout algorithm as the specification words it -/

/-- The next multiple of `size` at or after `offset`, over the natural numbers. -/
def nextMultiple (offset size : Nat) : Nat :=
  (offset + size - 1) / size * size

/-- Offsets of the specified algorithm: walk the attributes in declared order;
before placing an attribute, advance the running offset to the next multiple
of its component byte size; place it there and move past its bytes. -/
def specOffsets (offset : Nat) : List (HashName × ShaderDataType) → List Nat
  | [] => []
  | a :: rest =>
    let place := nextMultiple offset (getAttributeTypeInfo a.2).typeSize
    place :: specOffsets (place + attributeBytes a.2) rest

/-- Running offset of the specified algorithm after the last attribute. -/
def specEnd (offset : Nat) : List (HashName × ShaderDataType) → Nat
  | [] => offset
  | a :: rest =>
    specEnd (nextMultiple offset (getAttributeTypeInfo a.2).typeSize + attributeBytes a.2) rest

/-- Stride of the specified algorithm: the total, padded up to a multiple of
the component byte size of the first attribute. -/
def specStride (layout : List (HashName × ShaderDataType)) : Nat :=
  match layout with
  | [] => 0
  | first :: _ => nextMultiple (specEnd 0 layout) (getAttributeTypeInfo first.2).typeSize

/-- The offsets recorded under key `r` for the attributes of `layout`, in
declaration order (the table is keyed by attribute name). -/
def recordedOffsets (s : State) (r : ArrayRef) (layout : List (HashName × ShaderDataType)) :
    List Nat :=
  layout.map fun a => s.attributeVBOOffsets.read2 r a.1 0

/-! ## Reachable states and live handles -/

/-- The live handles after a call that returned: a handle is live from the
`CreateVertexArray` that returns it until a `DeleteVertexArray` of it. -/
def liveAfter (live : List Nat) : Call → Option Nat → List Nat
  | .CreateVertexArray _ _ _ _ _ _ _, some h => h :: live
  | .DeleteVertexArray a, _ => live.filter fun x => decide (x ≠ a)
  | _, _ => live

/-- States reachable from the start-up state by calls that pass their
assertions, with the list of live handles.  `allowed` restricts the calls made
in a state (the backend or the caller is assumed to respect it). -/
inductive Reachable (w : Nat) (allowed : State → List Nat → Call → Prop) :
    State → List Nat → Prop where
  | init : Reachable w allowed State.init []
  | call {s : State} {live : List Nat} {c : Call} {s1 : State} {r : Option Nat}
      {tr : List GLCall} :
      Reachable w allowed s live → allowed s live c → step w s c = .ok (s1, r, tr) →
      Reachable w allowed s1 (liveAfter live c r)

/-- No restriction on the calls. -/
def AnyCall (_ : State) (_ : List Nat) (_ : Call) : Prop := True

/-- The guarantee of `glGenBuffers`: the names it returns are not names of
existing buffers, so they differ from every buffer name recorded for a live
array. -/
def FreshNames (s : State) (live : List Nat) : Call → Prop
  | .CreateVertexArray _ _ _ _ _ vbo ibo =>
    ∀ a ∈ live, vbo ≠ s.vbos.read a 0 ∧ vbo ≠ s.ibos.read a 0 ∧
      ibo ≠ s.vbos.read a 0 ∧ ibo ≠ s.ibos.read a 0
  | _ => True

/-- What the bind block does to the handle counter, the record of the active
array, the buffer names and the bindings of the context. -/
def Rebound (s s1 : State) (a : Nat) : Prop :=
  s1.nextArrayRef = s.nextArrayRef ∧ s1._activeArray = a ∧
  (∀ x, s1.vbos.read x 0 = s.vbos.read x 0) ∧ (∀ x, s1.ibos.read x 0 = s.ibos.read x 0) ∧
  ((a = s._activeArray ∧ s1.boundArrayBuffer = s.boundArrayBuffer ∧
      s1.boundElementArrayBuffer = s.boundElementArrayBuffer) ∨
    (a ≠ s._activeArray ∧ s1.boundArrayBuffer = s.vbos.read a 0 ∧
      s1.boundElementArrayBuffer = s.ibos.read a 0))

/-- What one returning call does to the handle counter, the record of the
active array, the buffer names and the bindings of the context. -/
def StepEffect (w : Nat) (s s1 : State) (r : Option Nat) : Call → Prop
  | .CreateVertexArray _ _ _ _ _ vbo ibo =>
    r = some (s.nextArrayRef % 2 ^ w) ∧ s1.nextArrayRef = (s.nextArrayRef + 1) % 2 ^ w ∧
      s1._activeArray = s.nextArrayRef ∧
      s1.boundArrayBuffer = vbo ∧ s1.boundElementArrayBuffer = ibo ∧
      s1.vbos = s.vbos.set s.nextArrayRef vbo ∧ s1.ibos = s.ibos.set s.nextArrayRef ibo
  | .DeleteVertexArray a =>
    r = none ∧ s1.nextArrayRef = s.nextArrayRef ∧ s1._activeArray = s._activeArray ∧
      s1.boundArrayBuffer
        = unbindDeleted (unbindDeleted s.boundArrayBuffer (s.vbos.read a 0)) (s.ibos.read a 0) ∧
      s1.boundElementArrayBuffer
        = unbindDeleted (unbindDeleted s.boundElementArrayBuffer (s.vbos.read a 0))
            (s.ibos.read a 0) ∧
      s1.vbos = (s.vbos.touch a 0).erase a ∧ s1.ibos = (s.ibos.touch a 0).erase a
  | .SetVertexData a _ _ _ => r = none ∧ Rebound s s1 a
  | .SetIndexData a _ _ _ => r = none ∧ Rebound s s1 a
  | .DrawArrayDefault a _ => r = none ∧ Rebound s s1 a
  | .DrawArray a _ _ => r = none ∧ Rebound s s1 a

/-- The facts about a reachable state from which bind elision is sound: the
counter fits the handle type; when the array recorded as active is live, its
buffers are the bound ones; live arrays share no buffer name; no name is
recorded for an array that is not live. -/
def BindInv (w : Nat) (s : State) (live : List Nat) : Prop :=
  s.nextArrayRef < 2 ^ w ∧
  (∀ h ∈ live, s._activeArray = h →
    s.boundArrayBuffer = s.vbos.read h 0 ∧ s.boundElementArrayBuffer = s.ibos.read h 0) ∧
  (∀ a ∈ live, ∀ b ∈ live, a ≠ b →
    s.vbos.read a 0 ≠ s.vbos.read b 0 ∧ s.vbos.read a 0 ≠ s.ibos.read b 0 ∧
    s.ibos.read a 0 ≠ s.vbos.read b 0 ∧ s.ibos.read a 0 ≠ s.ibos.read b 0) ∧
  (∀ a, a ∉ live → s.vbos.read a 0 = 0 ∧ s.ibos.read a 0 = 0)

/-! # Theorems -/

/-! ## Tables -/

theorem Table.read_set_self {α : Type} (m : Table α) (k : Nat) (v d : α) :
    (m.set k v).read k d = v := by
  simp [Table.read, Table.set]

theorem Table.read_set_ne {α : Type} (m : Table α) (k j : Nat) (v d : α) (h : j ≠ k) :
    (m.set k v).read j d = m.read j d := by
  simp [Table.read, Table.set, h]

theorem Table.read_touch {α : Type} (m : Table α) (k j : Nat) (d : α) :
    (m.touch k d).read j d = m.read j d := by
  unfold Table.read Table.touch
  by_cases h : j = k
  · subst h; simp
  · simp [h]

theorem Table.erase_touch {α : Type} (m : Table α) (k : Nat) (d : α) :
    (m.touch k d).erase k = m.erase k := by
  funext j
  unfold Table.erase Table.touch
  by_cases h : j = k <;> simp [h]

theorem Table.isEraseOf_erase {α : Type} (m : Table α) (k : Nat) :
    Table.IsEraseOf (m.erase k) m k := by
  constructor
  · simp [Table.erase]
  · intro j hj
    simp [Table.erase, hj]

/-! ## DeleteVertexArray -/

/-- C7: `DeleteVertexArray(X)` returns, and each of the ten metadata tables it
leaves is the table before the call with key `X` removed: no entry for `X`
remains and the entry of every handle `Y ≠ X` is unchanged. -/
theorem DeleteVertexArray_erases_exactly_key (s : State) (X : ArrayRef) :
    ∃ s1 tr, DeleteVertexArray s X = .ok (s1, tr) ∧
      Table.IsEraseOf s1.vbos s.vbos X ∧
      Table.IsEraseOf s1.ibos s.ibos X ∧
      Table.IsEraseOf s1.vboSizes s.vboSizes X ∧
      Table.IsEraseOf s1.iboSizesInTriangles s.iboSizesInTriangles X ∧
      Table.IsEraseOf s1.vertexAttributeNames s.vertexAttributeNames X ∧
      Table.IsEraseOf s1.vertexAttributeDataTypes s.vertexAttributeDataTypes X ∧
      Table.IsEraseOf s1.attributeVBOOffsets s.attributeVBOOffsets X ∧
      Table.IsEraseOf s1.attributeGLTypes s.attributeGLTypes X ∧
      Table.IsEraseOf s1.attributeParameterCounts s.attributeParameterCounts X ∧
      Table.IsEraseOf s1.vertexStrides s.vertexStrides X := by
  refine ⟨_, _, rfl, ?_, ?_, ?_, ?_, ?_, ?_, ?_, ?_, ?_, ?_⟩
  · show Table.IsEraseOf ((s.vbos.touch X 0).erase X) s.vbos X
    rw [Table.erase_touch]; exact Table.isEraseOf_erase _ _
  · show Table.IsEraseOf ((s.ibos.touch X 0).erase X) s.ibos X
    rw [Table.erase_touch]; exact Table.isEraseOf_erase _ _
  all_goals exact Table.isEraseOf_erase _ _

/-! ## The buffer update path at the edge of the capacity -/

/-- C2: with `maxVertices = N = 2 ^ 32 - 1` the call
`SetVertexData(h, data, first = N - 1, count = 2)` passes its three assertions
and uploads: `first + count` wraps to 0 in `unsigned int`, which is not above
the stored capacity `N`, although `first + count = N + 1` exceeds it.  The byte
offset of the upload, `stride * first` in `unsigned int`, wraps as well, to
4294967288: the 8 bytes land on the vertices 1073741822 and 1073741823, not on
the vertices asked for. -/
theorem SetVertexData_accepts_wrapped_sum :
    ∃ h s1 tr1 s2,
      CreateVertexArray 32 State.init false false 4294967295 1 [(1, .Float)] 10 11
        = .ok (h, s1, tr1) ∧
      s1.vboSizes.read h 0 = 4294967295 ∧
      s1.vertexStrides.read h 0 = 4 ∧
      SetVertexData s1 h 1 4294967294 2
        = .ok (s2, [.glBufferSubData .GL_ARRAY_BUFFER 4294967288 8]) :=
  ⟨_, _, _, _, rfl, rfl, rfl, rfl⟩

/-- C3: on an array created with triangle capacity `T = 1` (12 bytes reserved
for the index buffer) the call `SetIndexData(h, src, first = 2, count = 1)`
passes its three assertions (`2 + 1 <= 1 * 3`) and uploads 4 bytes at byte
offset 24, outside the 12 reserved bytes. -/
theorem SetIndexData_uploads_outside_reserved :
    ∃ h s1 tr1 s2,
      CreateVertexArray 32 State.init false false 3 1 [(1, .Float)] 10 11
        = .ok (h, s1, tr1) ∧
      GLCall.glBufferData .GL_ELEMENT_ARRAY_BUFFER 12 false ∈ tr1 ∧
      SetIndexData s1 h 1 2 1
        = .ok (s2, [.glBufferSubData .GL_ELEMENT_ARRAY_BUFFER 24 4]) ∧
      ¬ (24 + 4 ≤ 12) :=
  ⟨_, _, _, _, rfl, by decide, rfl, by decide⟩

/-- The capacity assertion of `SetVertexData` does reject
`first = N - 1, count = 2` for every `N >= 1` whose low 32 bits are not all
ones: the wrap of `first + count` is the only way past it. -/
theorem SetVertexData_rejects_unless_wrap (s : State) (h : ArrayRef) (N src : Nat)
    (hN : 1 ≤ N) (hcap : s.vboSizes.read h 0 = N % UINT) (hw : N % UINT ≠ UINT - 1) :
    SetVertexData s h src ((N - 1) % UINT) 2 = .error .assertion := by
  unfold SetVertexData
  by_cases h1 : src = 0
  · rw [if_pos h1]
  · rw [if_neg h1, if_neg (by decide), hcap, if_pos]
    unfold UINT at *
    omega

/-- An accepted `SetIndexData` that starts at `first = 0` stays inside the
`12 * T` bytes reserved for `T` triangles (`3 * T` below `2 ^ 32`). -/
theorem SetIndexData_from_zero_inside (s : State) (h : ArrayRef) (T src count : Nat)
    (s1 : State) (tr : List GLCall)
    (hcap : s.iboSizesInTriangles.read h 0 = T) (hT : 3 * T < UINT) (hc : count < UINT)
    (hok : SetIndexData s h src 0 count = .ok (s1, tr)) :
    4 * count ≤ 12 * T := by
  unfold SetIndexData at hok
  split_ifs at hok with h1 h2 h3
  rw [hcap] at h3
  unfold UINT at *
  omega

/-! ## CreateVertexArray on an empty layout -/

/-- C9: with non-zero capacities and an empty layout `CreateVertexArray`
passes both of its assertions and no assertion stops it: after a loop of zero
iterations it reads `layout.begin()->second` of the empty list.  The result is
that out-of-bounds read, not an assertion failure, and at that point the
stride recorded for the new key is 0. -/
theorem CreateVertexArray_empty_layout_not_asserted (w : Nat) (s : State)
    (dynamicVertices dynamicIndices : Bool) (n m vbo ibo : Nat) :
    CreateVertexArray w s dynamicVertices dynamicIndices (n + 1) (m + 1) [] vbo ibo
        = .error .readPastEnd ∧
      CreateVertexArray w s dynamicVertices dynamicIndices (n + 1) (m + 1) [] vbo ibo
        ≠ .error .assertion ∧
      (layoutLoop s.nextArrayRef (layoutStart s (n + 1) (m + 1)) []).vertexStrides.read
        s.nextArrayRef 0 = 0 := by
  have h : CreateVertexArray w s dynamicVertices dynamicIndices (n + 1) (m + 1) [] vbo ibo
      = .error .readPastEnd := by
    simp [CreateVertexArray]
  rw [h]
  refine ⟨rfl, by simp, ?_⟩
  show (layoutStart s (n + 1) (m + 1)).vertexStrides.read s.nextArrayRef 0 = 0
  unfold layoutStart
  simp only [Table.read_set_self]

/-! ## The attribute loop of DrawArray -/

theorem Table.read2_touch2 {α : Type} (m : Table (Table α)) (a n j : Nat) (d : α) :
    (m.touch2 a n d).read2 a j d = m.read2 a j d := by
  unfold Table.read2 Table.touch2
  rw [Table.read_set_self, Table.read_touch]

theorem attributeCalls_touched (shader : Table Nat) (array : ArrayRef) (s : State)
    (name : HashName) :
    attributeCalls shader array (touchAttribute s array name) = attributeCalls shader array s := by
  funext j
  simp only [attributeCalls, pointerCallFor, touchAttribute, Table.read2_touch2,
    Table.read_touch]

theorem attributeLoop_cons_pos (shader : Table Nat) (array : ArrayRef) (name : HashName)
    (rest : List HashName) (s : State) (newStatus : Nat) (hc : shader.count name ≠ 0) :
    attributeLoop shader array (name :: rest) s newStatus =
      ((attributeLoop shader array rest (touchAttribute s array name)
          (newStatus ||| BIT (shader.read name 0))).1,
       (attributeLoop shader array rest (touchAttribute s array name)
          (newStatus ||| BIT (shader.read name 0))).2.1,
       attributeCalls shader array s name ++
        (attributeLoop shader array rest (touchAttribute s array name)
          (newStatus ||| BIT (shader.read name 0))).2.2) := by
  show (if shader.count name ≠ 0 then _ else _) = _
  rw [if_pos hc]
  simp only [attributeCalls, pointerCallFor, if_pos hc, List.append_assoc, List.singleton_append]

theorem attributeLoop_cons_neg (shader : Table Nat) (array : ArrayRef) (name : HashName)
    (rest : List HashName) (s : State) (newStatus : Nat) (hc : ¬ shader.count name ≠ 0) :
    attributeLoop shader array (name :: rest) s newStatus =
      attributeLoop shader array rest s newStatus := by
  show (if shader.count name ≠ 0 then _ else _) = _
  rw [if_neg hc]

theorem attributeLoop_trace (shader : Table Nat) (array : ArrayRef) (names : List HashName) :
    ∀ (s : State) (newStatus : Nat),
      (attributeLoop shader array names s newStatus).2.2
        = names.flatMap (attributeCalls shader array s) := by
  induction names with
  | nil => intro s newStatus; rfl
  | cons name rest ih =>
    intro s newStatus
    by_cases hc : shader.count name ≠ 0
    · rw [attributeLoop_cons_pos _ _ _ _ _ _ hc, List.flatMap_cons]
      show _ ++ (attributeLoop _ _ _ _ _).2.2 = _
      rw [ih, attributeCalls_touched]
    · rw [attributeLoop_cons_neg _ _ _ _ _ _ hc, List.flatMap_cons, ih]
      simp [attributeCalls, hc]

theorem attributeLoop_mask (shader : Table Nat) (array : ArrayRef) (names : List HashName) :
    ∀ (s : State) (newStatus : Nat),
      (attributeLoop shader array names s newStatus).2.1 = wantedMask shader names newStatus := by
  induction names with
  | nil => intro s newStatus; rfl
  | cons name rest ih =>
    intro s newStatus
    by_cases hc : shader.count name ≠ 0
    · rw [attributeLoop_cons_pos _ _ _ _ _ _ hc]
      show (attributeLoop _ _ _ _ _).2.1 = _
      rw [ih]
      simp only [wantedMask, List.foldl_cons, if_pos hc]
    · rw [attributeLoop_cons_neg _ _ _ _ _ _ hc, ih]
      simp only [wantedMask, List.foldl_cons, if_neg hc]

/-- The attribute loop only inserts default entries in four tables: everything
else in the state is as before. -/
theorem attributeLoop_frame (shader : Table Nat) (array : ArrayRef) (names : List HashName) :
    ∀ (s : State) (newStatus : Nat),
      (attributeLoop shader array names s newStatus).1.nextArrayRef = s.nextArrayRef ∧
      (attributeLoop shader array names s newStatus).1._activeArray = s._activeArray ∧
      (attributeLoop shader array names s newStatus).1._enabledAttributes
        = s._enabledAttributes ∧
      (attributeLoop shader array names s newStatus).1.vbos = s.vbos ∧
      (attributeLoop shader array names s newStatus).1.vboSizes = s.vboSizes ∧
      (attributeLoop shader array names s newStatus).1.ibos = s.ibos ∧
      (attributeLoop shader array names s newStatus).1.iboSizesInTriangles
        = s.iboSizesInTriangles ∧
      (attributeLoop shader array names s newStatus).1.vertexAttributeNames
        = s.vertexAttributeNames ∧
      (attributeLoop shader array names s newStatus).1.boundArrayBuffer = s.boundArrayBuffer ∧
      (attributeLoop shader array names s newStatus).1.boundElementArrayBuffer
        = s.boundElementArrayBuffer := by
  induction names with
  | nil => intro s newStatus; simp [attributeLoop]
  | cons name rest ih =>
    intro s newStatus
    by_cases hc : shader.count name ≠ 0
    · rw [attributeLoop_cons_pos _ _ _ _ _ _ hc]
      exact ih (touchAttribute s array name) _
    · rw [attributeLoop_cons_neg _ _ _ _ _ _ hc]
      exact ih _ _

/-! ## The trace of DrawArray -/

theorem attributeCalls_congr (shader : Table Nat) (array : ArrayRef) (s1 s : State)
    (h1 : s1._enabledAttributes = s._enabledAttributes)
    (h2 : s1.attributeGLTypes = s.attributeGLTypes)
    (h3 : s1.attributeParameterCounts = s.attributeParameterCounts)
    (h4 : s1.vertexStrides = s.vertexStrides)
    (h5 : s1.attributeVBOOffsets = s.attributeVBOOffsets) :
    attributeCalls shader array s1 = attributeCalls shader array s := by
  funext j
  simp only [attributeCalls, pointerCallFor, h1, h2, h3, h4, h5]

/-- The bind block leaves the attribute tables, the size tables, the handle
counter and the enabled mask alone. -/
theorem bindArray_frame (s : State) (array : ArrayRef) :
    (bindArray s array).1.nextArrayRef = s.nextArrayRef ∧
    (bindArray s array).1._enabledAttributes = s._enabledAttributes ∧
    (bindArray s array).1.vboSizes = s.vboSizes ∧
    (bindArray s array).1.iboSizesInTriangles = s.iboSizesInTriangles ∧
    (bindArray s array).1.vertexAttributeNames = s.vertexAttributeNames ∧
    (bindArray s array).1.attributeGLTypes = s.attributeGLTypes ∧
    (bindArray s array).1.attributeParameterCounts = s.attributeParameterCounts ∧
    (bindArray s array).1.vertexStrides = s.vertexStrides ∧
    (bindArray s array).1.attributeVBOOffsets = s.attributeVBOOffsets := by
  unfold bindArray
  by_cases h : array ≠ s._activeArray
  · simp [if_pos h]
  · simp [if_neg h]

/-- The mask `toTurnOff` of a draw: the slots enabled before it that it does
not want, as a `uint64_t`. -/
theorem DrawArray_trace (s : State) (array : ArrayRef) (triangleCount : Nat)
    (shader : Table Nat) :
    ∃ s1, DrawArray s array triangleCount shader
        = .ok (s1,
            (bindArray s array).2 ++
            (s.vertexAttributeNames.read array []).flatMap (attributeCalls shader array s) ++
            disableLoop 64
              (((wantedMask shader (s.vertexAttributeNames.read array []) 0
                  ^^^ s._enabledAttributes) &&& s._enabledAttributes) % U64) ++
            [.glDrawElements ((triangleCount * 3) % UINT)]) ∧
      s1._enabledAttributes = wantedMask shader (s.vertexAttributeNames.read array []) 0 ∧
      s1.nextArrayRef = s.nextArrayRef ∧
      s1.vboSizes = s.vboSizes ∧
      s1.iboSizesInTriangles = s.iboSizesInTriangles ∧
      ∀ a, s1.vertexAttributeNames.read a [] = s.vertexAttributeNames.read a [] := by
  obtain ⟨b1, b2, b3, b4, b5, b6, b7, b8, b9⟩ := bindArray_frame s array
  have hn : (bindArray s array).1.vertexAttributeNames.read array []
      = s.vertexAttributeNames.read array [] := by rw [b5]
  have htr : (attributeLoop shader array
        ((bindArray s array).1.vertexAttributeNames.read array [])
        (touchNames (bindArray s array).1 array) 0).2.2
      = (s.vertexAttributeNames.read array []).flatMap (attributeCalls shader array s) := by
    rw [attributeLoop_trace, hn]
    congr 1
    exact attributeCalls_congr _ _ _ _ b2 b6 b7 b8 b9
  have hm : (attributeLoop shader array
        ((bindArray s array).1.vertexAttributeNames.read array [])
        (touchNames (bindArray s array).1 array) 0).2.1
      = wantedMask shader (s.vertexAttributeNames.read array []) 0 := by
    rw [attributeLoop_mask, hn]
  have hf := attributeLoop_frame shader array
        ((bindArray s array).1.vertexAttributeNames.read array [])
        (touchNames (bindArray s array).1 array) 0
  have he : (attributeLoop shader array
        ((bindArray s array).1.vertexAttributeNames.read array [])
        (touchNames (bindArray s array).1 array) 0).1._enabledAttributes
      = s._enabledAttributes := hf.2.2.1.trans b2
  refine ⟨{ (attributeLoop shader array
        ((bindArray s array).1.vertexAttributeNames.read array [])
        (touchNames (bindArray s array).1 array) 0).1 with
      _enabledAttributes := (attributeLoop shader array
        ((bindArray s array).1.vertexAttributeNames.read array [])
        (touchNames (bindArray s array).1 array) 0).2.1 }, ?_, hm, ?_, ?_, ?_, ?_⟩
  · unfold DrawArray
    simp only []
    rw [htr, he, hm]
  · exact hf.1.trans b1
  · exact hf.2.2.2.2.1.trans b3
  · exact hf.2.2.2.2.2.2.1.trans b4
  · intro a
    show (attributeLoop _ _ _ _ _).1.vertexAttributeNames.read a [] = _
    rw [hf.2.2.2.2.2.2.2.1]
    show ((bindArray s array).1.vertexAttributeNames.touch array []).read a [] = _
    rw [Table.read_touch, b5]

/-! ## Which calls a draw issues -/

theorem Table.count_ne_zero_iff {α : Type} (m : Table α) (k : Nat) :
    m.count k ≠ 0 ↔ (m k).isSome = true := by
  unfold Table.count
  by_cases h : (m k).isSome = true <;> simp [h]

theorem pointerCalls_append (a b : List GLCall) :
    pointerCalls (a ++ b) = pointerCalls a ++ pointerCalls b := by
  simp [pointerCalls]

theorem enableCalls_append (a b : List GLCall) :
    enableCalls (a ++ b) = enableCalls a ++ enableCalls b := by
  simp [enableCalls]

theorem disableCalls_append (a b : List GLCall) :
    disableCalls (a ++ b) = disableCalls a ++ disableCalls b := by
  simp [disableCalls]

theorem bindArray_calls (s : State) (array : ArrayRef) :
    pointerCalls (bindArray s array).2 = [] ∧ enableCalls (bindArray s array).2 = [] ∧
      disableCalls (bindArray s array).2 = [] := by
  unfold bindArray
  by_cases h : array ≠ s._activeArray
  · simp [if_pos h, pointerCalls, enableCalls, disableCalls]
  · simp [if_neg h, pointerCalls, enableCalls, disableCalls]

theorem disableLoop_calls (fuel : Nat) :
    ∀ t, pointerCalls (disableLoop fuel t) = [] ∧ enableCalls (disableLoop fuel t) = [] := by
  induction fuel with
  | zero => intro t; simp [disableLoop, pointerCalls, enableCalls]
  | succ fuel ih =>
    intro t
    by_cases ht : t = 0
    · simp [disableLoop, ht, pointerCalls, enableCalls]
    · have h := ih (t &&& (U64 - 1 - BIT (Nat.log2 (t &&& ((U64 - t) % U64)))))
      simp only [disableLoop, if_neg ht]
      constructor
      · simpa [pointerCalls] using h.1
      · simpa [enableCalls] using h.2

theorem attributeCalls_pointerCalls (shader : Table Nat) (array : ArrayRef) (s : State)
    (names : List HashName) :
    pointerCalls (names.flatMap (attributeCalls shader array s))
      = (exposedNames shader names).map
          (fun name => pointerCallFor s array (shader.read name 0) name) := by
  induction names with
  | nil => rfl
  | cons name rest ih =>
    rw [List.flatMap_cons, pointerCalls_append, ih]
    by_cases hc : shader.count name ≠ 0
    · have hs : (shader name).isSome = true := (Table.count_ne_zero_iff _ _).1 hc
      have hp : pointerCalls (attributeCalls shader array s name)
          = [pointerCallFor s array (shader.read name 0) name] := by
        unfold attributeCalls
        rw [if_pos hc, pointerCalls_append]
        by_cases he : s._enabledAttributes &&& BIT (shader.read name 0) = 0
        · rw [if_pos he]
          unfold pointerCallFor
          by_cases hg : s.attributeGLTypes.read2 array name 0 = GL_FLOAT <;>
            simp [pointerCalls, hg]
        · rw [if_neg he]
          unfold pointerCallFor
          by_cases hg : s.attributeGLTypes.read2 array name 0 = GL_FLOAT <;>
            simp [pointerCalls, hg]
      rw [hp]
      simp [exposedNames, hs]
    · have hs : ¬ (shader name).isSome = true := fun h => hc ((Table.count_ne_zero_iff _ _).2 h)
      simp [attributeCalls, hc, exposedNames, hs, pointerCalls]

theorem attributeCalls_enableCalls (shader : Table Nat) (array : ArrayRef) (s : State)
    (names : List HashName) :
    enableCalls (names.flatMap (attributeCalls shader array s))
      = ((exposedNames shader names).map (fun name => shader.read name 0)).filter
          (fun i => decide (s._enabledAttributes &&& BIT i = 0)) := by
  induction names with
  | nil => rfl
  | cons name rest ih =>
    rw [List.flatMap_cons, enableCalls_append, ih]
    by_cases hc : shader.count name ≠ 0
    · have hs : (shader name).isSome = true := (Table.count_ne_zero_iff _ _).1 hc
      have hp : enableCalls (attributeCalls shader array s name)
          = [shader.read name 0].filter
              (fun i => decide (s._enabledAttributes &&& BIT i = 0)) := by
        unfold attributeCalls
        rw [if_pos hc, enableCalls_append]
        have hq : enableCalls [pointerCallFor s array (shader.read name 0) name] = [] := by
          unfold pointerCallFor
          by_cases hg : s.attributeGLTypes.read2 array name 0 = GL_FLOAT <;>
            simp [enableCalls, hg]
        rw [hq]
        by_cases he : s._enabledAttributes &&& BIT (shader.read name 0) = 0
        · simp [he, enableCalls]
        · simp [he, enableCalls]
      rw [hp]
      have hx : exposedNames shader (name :: rest) = name :: exposedNames shader rest := by
        simp [exposedNames, hs]
      rw [hx, List.map_cons, ← List.filter_append]
      rfl
    · have hs : ¬ (shader name).isSome = true := fun h => hc ((Table.count_ne_zero_iff _ _).2 h)
      simp [attributeCalls, hc, exposedNames, hs, enableCalls]

theorem attributeCalls_disableCalls (shader : Table Nat) (array : ArrayRef) (s : State)
    (names : List HashName) :
    disableCalls (names.flatMap (attributeCalls shader array s)) = [] := by
  induction names with
  | nil => rfl
  | cons name rest ih =>
    rw [List.flatMap_cons, disableCalls_append, ih]
    unfold attributeCalls pointerCallFor
    by_cases hc : shader.count name ≠ 0
    · by_cases he : s._enabledAttributes &&& BIT (shader.read name 0) = 0 <;>
        by_cases hg : s.attributeGLTypes.read2 array name 0 = GL_FLOAT <;>
          simp [hc, he, hg, disableCalls]
    · simp [hc, disableCalls]

/-! ## The disable loop: lowest set bit of a mask -/

theorem two_mul_and_two_mul (x y : Nat) : (2 * x) &&& (2 * y) = 2 * (x &&& y) := by
  apply Nat.eq_of_testBit_eq
  intro i
  cases i with
  | zero => simp [Nat.testBit_zero]
  | succ i =>
    rw [Nat.testBit_and, Nat.testBit_succ, Nat.testBit_succ, Nat.testBit_succ]
    have h1 : 2 * x / 2 = x := by omega
    have h2 : 2 * y / 2 = y := by omega
    have h3 : 2 * (x &&& y) / 2 = x &&& y := by omega
    rw [h1, h2, h3, Nat.testBit_and]

theorem lowest_set_bit (n : Nat) :
    ∀ t, 0 < t → t < 2 ^ n →
      ∃ k, k < n ∧ t &&& (2 ^ n - t) = 2 ^ k ∧ t.testBit k = true ∧
        ∀ j, j < k → t.testBit j = false := by
  induction n with
  | zero => intro t h0 h1; simp at h1; omega
  | succ n ih =>
    intro t h0 h1
    rcases Nat.even_or_odd' t with ⟨a, rfl | rfl⟩
    · -- t = 2a
      have ha0 : 0 < a := by omega
      have ha1 : a < 2 ^ n := by rw [pow_succ] at h1; omega
      obtain ⟨k, hk, hand, hbit, hlow⟩ := ih a ha0 ha1
      refine ⟨k + 1, by omega, ?_, ?_, ?_⟩
      · have : 2 ^ (n + 1) - 2 * a = 2 * (2 ^ n - a) := by rw [pow_succ]; omega
        rw [this, two_mul_and_two_mul, hand, pow_succ]; ring
      · rw [Nat.testBit_succ]; simpa using hbit
      · intro j hj
        cases j with
        | zero => simp [Nat.testBit_zero]
        | succ j =>
          rw [Nat.testBit_succ]
          have := hlow j (by omega)
          simpa using this
    · -- t = 2a+1
      refine ⟨0, by omega, ?_, ?_, ?_⟩
      · apply Nat.eq_of_testBit_eq
        intro i
        have hsub : 2 ^ (n + 1) - (2 * a + 1) = 2 ^ (n + 1) - (2 * a + 1) := rfl
        rw [Nat.testBit_and, Nat.testBit_two_pow_sub_succ (by omega : 2 * a < 2 ^ (n + 1))]
        cases i with
        | zero =>
          simp [Nat.testBit_zero]
          omega
        | succ i =>
          rw [Nat.testBit_succ, Nat.testBit_succ]
          have h1 : (2 * a + 1) / 2 = a := by omega
          have h2 : (2 * a) / 2 = a := by omega
          rw [h1, h2]
          have h3 : Nat.testBit (2 ^ 0) (i + 1) = false := by
            rw [Nat.testBit_two_pow]; simp
          rw [h3]
          cases a.testBit i <;> simp
      · simp [Nat.testBit_zero]
        omega
      · intro j hj; omega

theorem BIT_of_lt {k : Nat} (hk : k < 64) : BIT k = 2 ^ k := by
  unfold BIT U64
  exact Nat.mod_eq_of_lt (Nat.pow_lt_pow_right (by decide) hk)

/-- One iteration of the disable loop on a non-zero 64-bit mask: the index it
computes is the lowest set bit `k` of the mask, and the mask it continues with
is the old one with bit `k` cleared. -/
theorem disableLoop_iteration (t : Nat) (h0 : t ≠ 0) (ht : t < 2 ^ 64) :
    ∃ k, k < 64 ∧ Nat.log2 (t &&& ((U64 - t) % U64)) = k ∧ t.testBit k = true ∧
      (∀ j, j < k → t.testBit j = false) ∧
      ∀ i, (t &&& (U64 - 1 - BIT k)).testBit i = (t.testBit i && decide (i ≠ k)) := by
  obtain ⟨k, hk, hand, hbit, hlow⟩ := lowest_set_bit 64 t (Nat.pos_of_ne_zero h0) ht
  refine ⟨k, hk, ?_, hbit, hlow, ?_⟩
  · have hmod : (U64 - t) % U64 = 2 ^ 64 - t := by
      unfold U64
      exact Nat.mod_eq_of_lt (by omega)
    rw [hmod, hand, Nat.log2_two_pow]
  · intro i
    have hpow : 2 ^ k < 2 ^ 64 := Nat.pow_lt_pow_right (by decide) hk
    have hsub : U64 - 1 - BIT k = 2 ^ 64 - (2 ^ k + 1) := by
      rw [BIT_of_lt hk]; unfold U64; omega
    rw [Nat.testBit_and, hsub, Nat.testBit_two_pow_sub_succ hpow, Nat.testBit_two_pow]
    by_cases hik : i = k
    · subst hik; simp
    · have hki : ¬ k = i := fun h => hik h.symm
      by_cases hi : i < 64
      · simp [hik, hki, hi]
      · have : t.testBit i = false :=
          Nat.testBit_lt_two_pow (lt_of_lt_of_le ht (Nat.pow_le_pow_right (by decide) (by omega)))
        simp [this]

theorem setBits_cleared (t k : Nat) (t1 : Nat)
    (h : ∀ i, t1.testBit i = (t.testBit i && decide (i ≠ k))) :
    setBits t1 = (setBits t).erase k := by
  ext i
  simp only [setBits, Finset.mem_filter, Finset.mem_range, Finset.mem_erase, h]
  by_cases hik : i = k <;> simp [hik]

/-- The disable loop ends within its 64 iterations on every 64-bit mask, and
passes `i + 1` to `glDisableVertexAttribArray` once for each set bit `i`. -/
theorem disableLoop_spec (fuel : Nat) :
    ∀ t, t < 2 ^ 64 → (setBits t).card ≤ fuel →
      (disableCalls (disableLoop fuel t)).Nodup ∧
      (disableCalls (disableLoop fuel t)).toFinset = (setBits t).image (fun i => i + 1) := by
  induction fuel with
  | zero =>
    intro t _ hc
    have he : setBits t = ∅ := Finset.card_eq_zero.1 (Nat.le_zero.1 hc)
    simp [disableLoop, disableCalls, he]
  | succ fuel ih =>
    intro t ht hc
    by_cases h0 : t = 0
    · subst h0
      simp [disableLoop, disableCalls, setBits]
    · obtain ⟨k, hk, hlog, hbit, _, hclr⟩ := disableLoop_iteration t h0 ht
      have hmem : k ∈ setBits t := by
        simp [setBits, hk, hbit]
      have hset := setBits_cleared t k _ hclr
      have hlt : t &&& (U64 - 1 - BIT k) < 2 ^ 64 := lt_of_le_of_lt Nat.and_le_left ht
      have hcard : (setBits (t &&& (U64 - 1 - BIT k))).card ≤ fuel := by
        rw [hset, Finset.card_erase_of_mem hmem]; omega
      obtain ⟨hnd, hfin⟩ := ih _ hlt hcard
      have hunf : disableCalls (disableLoop (fuel + 1) t)
          = (k + 1) :: disableCalls (disableLoop fuel (t &&& (U64 - 1 - BIT k))) := by
        simp only [disableLoop, if_neg h0, hlog]
        simp [disableCalls]
      rw [hunf]
      constructor
      · refine List.nodup_cons.2 ⟨?_, hnd⟩
        intro hin
        have := List.mem_toFinset.2 hin
        rw [hfin, hset] at this
        simp at this
      · rw [List.toFinset_cons, hfin, hset]
        conv_rhs => rw [← Finset.insert_erase hmem, Finset.image_insert]

/-! ## DrawArray: exposed attributes -/

/-- C6: `DrawArray` returns and issues exactly one pointer configuration for
each attribute of the array whose name the active shader exposes, in
declaration order, at the shader's slot and with the recorded component count,
type, stride and offset; its enable calls are for slots of exposed attributes
only (those not yet enabled); its last call is the indexed draw.  In particular
an array with attributes `a, b, c` under a shader exposing `a` and `c` but not
`b` gets exactly two pointer configurations. -/
theorem DrawArray_configures_exactly_exposed (s : State) (array : ArrayRef)
    (triangleCount : Nat) (shader : Table Nat) :
    ∃ s1 tr, DrawArray s array triangleCount shader = .ok (s1, tr) ∧
      pointerCalls tr
        = (exposedNames shader (s.vertexAttributeNames.read array [])).map
            (fun name => pointerCallFor s array (shader.read name 0) name) ∧
      enableCalls tr
        = ((exposedNames shader (s.vertexAttributeNames.read array [])).map
            (fun name => shader.read name 0)).filter
            (fun i => decide (s._enabledAttributes &&& BIT i = 0)) ∧
      tr.getLast? = some (.glDrawElements ((triangleCount * 3) % UINT)) ∧
      ∀ a b c, s.vertexAttributeNames.read array [] = [a, b, c] →
        (shader a).isSome = true → shader b = none → (shader c).isSome = true →
        (pointerCalls tr).length = 2 ∧ (enableCalls tr).length ≤ 2 := by
  obtain ⟨s1, htr, -⟩ := DrawArray_trace s array triangleCount shader
  have hp : pointerCalls
      ((bindArray s array).2 ++
        (s.vertexAttributeNames.read array []).flatMap (attributeCalls shader array s) ++
        disableLoop 64
          (((wantedMask shader (s.vertexAttributeNames.read array []) 0
              ^^^ s._enabledAttributes) &&& s._enabledAttributes) % U64) ++
        [.glDrawElements ((triangleCount * 3) % UINT)])
      = (exposedNames shader (s.vertexAttributeNames.read array [])).map
          (fun name => pointerCallFor s array (shader.read name 0) name) := by
    rw [pointerCalls_append, pointerCalls_append, pointerCalls_append,
      (bindArray_calls s array).1, (disableLoop_calls 64 _).1, attributeCalls_pointerCalls]
    simp [pointerCalls]
  have he : enableCalls
      ((bindArray s array).2 ++
        (s.vertexAttributeNames.read array []).flatMap (attributeCalls shader array s) ++
        disableLoop 64
          (((wantedMask shader (s.vertexAttributeNames.read array []) 0
              ^^^ s._enabledAttributes) &&& s._enabledAttributes) % U64) ++
        [.glDrawElements ((triangleCount * 3) % UINT)])
      = ((exposedNames shader (s.vertexAttributeNames.read array [])).map
          (fun name => shader.read name 0)).filter
          (fun i => decide (s._enabledAttributes &&& BIT i = 0)) := by
    rw [enableCalls_append, enableCalls_append, enableCalls_append,
      (bindArray_calls s array).2.1, (disableLoop_calls 64 _).2, attributeCalls_enableCalls]
    simp [enableCalls]
  refine ⟨s1, _, htr, hp, he, by simp, ?_⟩
  intro a b c hn ha hb hc
  rw [hp, he, hn]
  have hx : exposedNames shader [a, b, c] = [a, c] := by
    simp [exposedNames, ha, hb, hc]
  rw [hx]
  refine ⟨by simp, ?_⟩
  exact le_trans (List.length_filter_le _ _) (by simp)

/-- C6 at a concrete draw: an array created with the attributes 1, 2, 3 and
drawn under a shader that exposes 1 at slot 0 and 3 at slot 1 gets two pointer
configurations and two enable calls, none for attribute 2, and the draw. -/
theorem DrawArray_skips_unexposed_attribute :
    ∃ s1 tr,
      DrawArray
          (run 32 State.init
            [.CreateVertexArray false false 4 2 [(1, .Float3), (2, .Float2), (3, .Int)]
              10 11]).state
          1 2 ((Table.empty.set 1 0).set 3 1) = .ok (s1, tr) ∧
      pointerCalls tr = [.glVertexAttribPointer 0 3 GL_FLOAT 24 0,
        .glVertexAttribIPointer 1 1 GL_INT 24 20] ∧
      enableCalls tr = [0, 1] ∧
      tr.getLast? = some (.glDrawElements 6) := by
  obtain ⟨s1, tr, h1, h2, h3, h4, -⟩ :=
    DrawArray_configures_exactly_exposed
      (run 32 State.init
        [.CreateVertexArray false false 4 2 [(1, .Float3), (2, .Float2), (3, .Int)]
          10 11]).state
      1 2 ((Table.empty.set 1 0).set 3 1)
  exact ⟨s1, tr, h1, h2.trans (by decide), h3.trans (by decide), h4⟩

/-! ## Masks as sets of slots -/

theorem testBit_BIT (i j : Nat) : (BIT i).testBit j = (decide (j < 64) && decide (i = j)) := by
  unfold BIT U64
  rw [Nat.testBit_mod_two_pow, Nat.testBit_two_pow]

theorem matchedSlots_cons_some (shader : Table Nat) (n : HashName) (rest : List HashName)
    (h : shader.count n ≠ 0) :
    matchedSlots shader (n :: rest) = shader.read n 0 :: matchedSlots shader rest := by
  have hs := (Table.count_ne_zero_iff _ _).1 h
  obtain ⟨i, hi⟩ := Option.isSome_iff_exists.1 hs
  simp [matchedSlots, List.filterMap_cons, hi, Table.read]

theorem matchedSlots_cons_none (shader : Table Nat) (n : HashName) (rest : List HashName)
    (h : ¬ shader.count n ≠ 0) :
    matchedSlots shader (n :: rest) = matchedSlots shader rest := by
  have hs : shader n = none := by
    by_contra hne
    exact h ((Table.count_ne_zero_iff _ _).2 (Option.isSome_iff_ne_none.2 hne))
  simp [matchedSlots, List.filterMap_cons, hs]

theorem exposedNames_map_read (shader : Table Nat) (names : List HashName) :
    (exposedNames shader names).map (fun name => shader.read name 0)
      = matchedSlots shader names := by
  induction names with
  | nil => rfl
  | cons n rest ih =>
    by_cases hc : shader.count n ≠ 0
    · have hs := (Table.count_ne_zero_iff _ _).1 hc
      rw [matchedSlots_cons_some _ _ _ hc, ← ih]
      simp [exposedNames, hs]
    · have hs : ¬ (shader n).isSome = true := fun h => hc ((Table.count_ne_zero_iff _ _).2 h)
      rw [matchedSlots_cons_none _ _ _ hc, ← ih]
      simp [exposedNames, hs]

/-- Bit `j` of the mask built by the attribute loop is set exactly when it was
set at the start or `j` is the slot, below 64, of an exposed attribute. -/
theorem testBit_wantedMask (shader : Table Nat) (names : List HashName) :
    ∀ (start j : Nat),
      (wantedMask shader names start).testBit j
        = (start.testBit j || (decide (j < 64) && decide (j ∈ matchedSlots shader names))) := by
  induction names with
  | nil => intro start j; simp [wantedMask, matchedSlots]
  | cons n rest ih =>
    intro start j
    by_cases hc : shader.count n ≠ 0
    · have hstep : wantedMask shader (n :: rest) start
          = wantedMask shader rest (start ||| BIT (shader.read n 0)) := by
        simp only [wantedMask, List.foldl_cons, if_pos hc]
      rw [hstep, ih, matchedSlots_cons_some _ _ _ hc, Nat.testBit_or, testBit_BIT]
      by_cases h1 : shader.read n 0 = j
      · subst h1
        by_cases h64 : shader.read n 0 < 64 <;>
          cases start.testBit (shader.read n 0) <;> simp [h64]
      · have h2 : ¬ j = shader.read n 0 := fun h => h1 h.symm
        simp [h1, h2]
    · have hstep : wantedMask shader (n :: rest) start = wantedMask shader rest start := by
        simp only [wantedMask, List.foldl_cons, if_neg hc]
      rw [hstep, ih, matchedSlots_cons_none _ _ _ hc]

theorem and_BIT_eq_zero_iff (e i : Nat) (hi : i < 64) :
    e &&& BIT i = 0 ↔ e.testBit i = false := by
  constructor
  · intro h
    have := congrArg (fun x => x.testBit i) h
    simp only [Nat.testBit_and, testBit_BIT, Nat.zero_testBit] at this
    simpa [hi] using this
  · intro h
    apply Nat.eq_of_testBit_eq
    intro j
    rw [Nat.testBit_and, testBit_BIT, Nat.zero_testBit]
    by_cases hij : i = j
    · subst hij; simp [h]
    · simp [hij]

/-! ## Two consecutive draws -/

theorem mem_matchedSlots (shader : Table Nat) (names : List HashName) (i : Nat) :
    i ∈ matchedSlots shader names ↔ ∃ n, n ∈ names ∧ shader n = some i := by
  simp [matchedSlots, List.mem_filterMap]

theorem setBits_card_le (t : Nat) : (setBits t).card ≤ 64 := by
  unfold setBits
  exact le_trans (Finset.card_filter_le _ _) (by simp)

/-- The disable loop of a draw issues as many calls as its mask has set bits. -/
theorem disableLoop_length (t : Nat) (ht : t < 2 ^ 64) :
    (disableCalls (disableLoop 64 t)).length = (setBits t).card := by
  obtain ⟨hnd, hfin⟩ := disableLoop_spec 64 t ht (setBits_card_le t)
  rw [← List.toFinset_card_of_nodup hnd, hfin,
    Finset.card_image_of_injective _ (fun a b h => Nat.succ_injective h)]

/-- The calls of a draw, projected on enable and disable calls. -/
theorem DrawArray_toggles (s : State) (array : ArrayRef) (triangleCount : Nat)
    (shader : Table Nat) :
    ∃ s1 tr, DrawArray s array triangleCount shader = .ok (s1, tr) ∧
      s1._enabledAttributes = wantedMask shader (s.vertexAttributeNames.read array []) 0 ∧
      (∀ a, s1.vertexAttributeNames.read a [] = s.vertexAttributeNames.read a []) ∧
      enableCalls tr
        = (matchedSlots shader (s.vertexAttributeNames.read array [])).filter
            (fun i => decide (s._enabledAttributes &&& BIT i = 0)) ∧
      disableCalls tr
        = disableCalls (disableLoop 64
            (((wantedMask shader (s.vertexAttributeNames.read array []) 0
                ^^^ s._enabledAttributes) &&& s._enabledAttributes) % U64)) := by
  obtain ⟨s1, htr, hen, -, -, -, hnames⟩ := DrawArray_trace s array triangleCount shader
  refine ⟨s1, _, htr, hen, hnames, ?_, ?_⟩
  · rw [enableCalls_append, enableCalls_append, enableCalls_append,
      (bindArray_calls s array).2.1, (disableLoop_calls 64 _).2, attributeCalls_enableCalls,
      exposedNames_map_read]
    simp [enableCalls]
  · rw [disableCalls_append, disableCalls_append, disableCalls_append,
      (bindArray_calls s array).2.2, attributeCalls_disableCalls]
    simp [disableCalls]

/-- C5: for two consecutive draws on arrays with pairwise distinct attribute
names, under shader maps that send distinct names to distinct slots below 64,
the number of enable calls plus the number of disable calls of the second draw
is the size of the symmetric difference of the two sets of matched slots.
Distinct names and distinct slots are needed for the second draw only. -/
theorem consecutive_draws_toggle_symmDiff (s : State) (a1 a2 : ArrayRef) (n1 n2 : Nat)
    (sh1 sh2 : Table Nat) (s1 s2 : State) (tr1 tr2 : List GLCall)
    (hd1 : DrawArray s a1 n1 sh1 = .ok (s1, tr1))
    (hd2 : DrawArray s1 a2 n2 sh2 = .ok (s2, tr2))
    (hn2 : (s.vertexAttributeNames.read a2 []).Nodup)
    (hb1 : ∀ n i, sh1 n = some i → i < 64)
    (hi2 : ∀ n m i, sh2 n = some i → sh2 m = some i → n = m)
    (hb2 : ∀ n i, sh2 n = some i → i < 64) :
    (enableCalls tr2).length + (disableCalls tr2).length
      = (symmDiff (matchedSlots sh1 (s.vertexAttributeNames.read a1 [])).toFinset
          (matchedSlots sh2 (s.vertexAttributeNames.read a2 [])).toFinset).card := by
  obtain ⟨s1', tr1', hd1', hen1, hnames1, -, -⟩ := DrawArray_toggles s a1 n1 sh1
  rw [hd1] at hd1'
  obtain ⟨rfl, rfl⟩ : s1 = s1' ∧ tr1 = tr1' := by
    injection hd1' with h; exact ⟨congrArg Prod.fst h, congrArg Prod.snd h⟩
  obtain ⟨s2', tr2', hd2', -, -, hen2, hdis2⟩ := DrawArray_toggles s1 a2 n2 sh2
  rw [hd2] at hd2'
  obtain ⟨rfl, rfl⟩ : s2 = s2' ∧ tr2 = tr2' := by
    injection hd2' with h; exact ⟨congrArg Prod.fst h, congrArg Prod.snd h⟩
  rw [hnames1 a2, hen1] at hen2 hdis2
  -- abbreviations
  generalize hN1 : s.vertexAttributeNames.read a1 [] = names1 at *
  generalize hN2 : s.vertexAttributeNames.read a2 [] = names2 at *
  have hlt1 : ∀ i, i ∈ matchedSlots sh1 names1 → i < 64 := by
    intro i hi
    obtain ⟨n, -, hn⟩ := (mem_matchedSlots _ _ _).1 hi
    exact hb1 n i hn
  have hlt2 : ∀ i, i ∈ matchedSlots sh2 names2 → i < 64 := by
    intro i hi
    obtain ⟨n, -, hn⟩ := (mem_matchedSlots _ _ _).1 hi
    exact hb2 n i hn
  have hbit1 : ∀ j, j < 64 →
      ((wantedMask sh1 names1 0).testBit j = true ↔ j ∈ matchedSlots sh1 names1) := by
    intro j hj; rw [testBit_wantedMask]; simp [hj]
  have hbit2 : ∀ j, j < 64 →
      ((wantedMask sh2 names2 0).testBit j = true ↔ j ∈ matchedSlots sh2 names2) := by
    intro j hj; rw [testBit_wantedMask]; simp [hj]
  -- the disable calls
  have hdisCard : (disableCalls tr2).length
      = ((matchedSlots sh1 names1).toFinset \ (matchedSlots sh2 names2).toFinset).card := by
    rw [hdis2, disableLoop_length _ (show _ % U64 < 2 ^ 64 from Nat.mod_lt _ (by decide))]
    congr 1
    ext j
    simp only [setBits, Finset.mem_filter, Finset.mem_range, Finset.mem_sdiff,
      List.mem_toFinset]
    constructor
    · rintro ⟨hj, hb⟩
      unfold U64 at hb
      rw [Nat.testBit_mod_two_pow, Nat.testBit_and, Nat.testBit_xor] at hb
      simp only [Bool.and_eq_true, decide_eq_true_eq] at hb
      obtain ⟨-, hx, h1⟩ := hb
      refine ⟨(hbit1 j hj).1 h1, fun h2 => ?_⟩
      rw [(hbit2 j hj).2 h2, h1] at hx
      simp at hx
    · rintro ⟨h1, h2⟩
      have hj := hlt1 j h1
      refine ⟨hj, ?_⟩
      unfold U64
      rw [Nat.testBit_mod_two_pow, Nat.testBit_and, Nat.testBit_xor]
      have e1 := (hbit1 j hj).2 h1
      have e2 : (wantedMask sh2 names2 0).testBit j = false := by
        cases hh : (wantedMask sh2 names2 0).testBit j
        · rfl
        · exact absurd ((hbit2 j hj).1 hh) h2
      simp [e1, e2, hj]
  -- the enable calls
  have hnd2 : (matchedSlots sh2 names2).Nodup :=
    List.Nodup.filterMap (fun a a' b hb hb' => hi2 a a' b hb hb') hn2
  have henCard : (enableCalls tr2).length
      = ((matchedSlots sh2 names2).toFinset \ (matchedSlots sh1 names1).toFinset).card := by
    rw [hen2, ← List.toFinset_card_of_nodup (hnd2.filter _)]
    congr 1
    ext i
    simp only [List.mem_toFinset, List.mem_filter, Finset.mem_sdiff, decide_eq_true_eq]
    constructor
    · rintro ⟨hm, hz⟩
      have hi := hlt2 i hm
      refine ⟨hm, fun h1 => ?_⟩
      have := (and_BIT_eq_zero_iff _ i hi).1 hz
      rw [(hbit1 i hi).2 h1] at this
      exact Bool.noConfusion this
    · rintro ⟨hm, h1⟩
      have hi := hlt2 i hm
      refine ⟨hm, (and_BIT_eq_zero_iff _ i hi).2 ?_⟩
      cases hh : (wantedMask sh1 names1 0).testBit i
      · rfl
      · exact absurd ((hbit1 i hi).1 hh) h1
  rw [henCard, hdisCard, symmDiff_def, Finset.sup_eq_union,
    Finset.card_union_of_disjoint disjoint_sdiff_sdiff]
  omega

/-! ## The layout pass of CreateVertexArray -/

theorem typeSize_eq (ty : ShaderDataType) : (getAttributeTypeInfo ty).typeSize = 4 := by
  cases ty <;> rfl

theorem attributeBytes_eq (ty : ShaderDataType) :
    attributeBytes ty = 4 * (getAttributeTypeInfo ty).attributeArgs := by
  unfold attributeBytes; rw [typeSize_eq]

theorem Table.read2_set2_self {α : Type} (m : Table (Table α)) (a n : Nat) (v d : α) :
    (m.set2 a n v).read2 a n d = v := by
  unfold Table.read2 Table.set2
  rw [Table.read_set_self, Table.read_set_self]

theorem Table.read2_set2_ne {α : Type} (m : Table (Table α)) (a n j : Nat) (v d : α)
    (h : j ≠ n) : (m.set2 a n v).read2 a j d = m.read2 a j d := by
  unfold Table.read2 Table.set2
  rw [Table.read_set_self, Table.read_set_ne _ _ _ _ _ h]

theorem layoutStep_stride (r : ArrayRef) (s : State) (a : HashName × ShaderDataType) :
    (layoutStep r s a).vertexStrides.read r 0
      = (addPadding (s.vertexStrides.read r 0) 4 + attributeBytes a.2) % UINT := by
  unfold layoutStep
  simp only [Table.read_set_self, typeSize_eq, attributeBytes]

theorem layoutStep_offset_self (r : ArrayRef) (s : State) (a : HashName × ShaderDataType) :
    (layoutStep r s a).attributeVBOOffsets.read2 r a.1 0 = s.vertexStrides.read r 0 := by
  unfold layoutStep
  simp only [Table.read2_set2_self]

theorem layoutStep_offset_ne (r : ArrayRef) (s : State) (a : HashName × ShaderDataType)
    (n : HashName) (h : n ≠ a.1) :
    (layoutStep r s a).attributeVBOOffsets.read2 r n 0 = s.attributeVBOOffsets.read2 r n 0 := by
  unfold layoutStep
  simp only [Table.read2_set2_ne _ _ _ _ _ _ h]

theorem layoutLoop_cons (r : ArrayRef) (s : State) (a : HashName × ShaderDataType)
    (rest : List (HashName × ShaderDataType)) :
    layoutLoop r s (a :: rest) = layoutLoop r (layoutStep r s a) rest := rfl

theorem layoutLoop_append (r : ArrayRef) (s : State)
    (l1 l2 : List (HashName × ShaderDataType)) :
    layoutLoop r s (l1 ++ l2) = layoutLoop r (layoutLoop r s l1) l2 := by
  unfold layoutLoop; rw [List.foldl_append]

/-- An attribute name that does not occur in the layout keeps its offset. -/
theorem layoutLoop_offset_notin (r : ArrayRef) (n : HashName) :
    ∀ (layout : List (HashName × ShaderDataType)) (s : State),
      n ∉ layout.map Prod.fst →
      (layoutLoop r s layout).attributeVBOOffsets.read2 r n 0
        = s.attributeVBOOffsets.read2 r n 0 := by
  intro layout
  induction layout with
  | nil => intro s _; rfl
  | cons a rest ih =>
    intro s hn
    simp only [List.map_cons, List.mem_cons, not_or] at hn
    rw [layoutLoop_cons, ih _ hn.2, layoutStep_offset_ne _ _ _ _ hn.1]

theorem addPadding_of_dvd (st : Nat) (h4 : 4 ∣ st) (hlt : st < UINT) : addPadding st 4 = st := by
  unfold addPadding
  unfold UINT at *
  have : st % 4 = 0 := by omega
  rw [this]
  simp
  omega

theorem addPadding_dvd (st : Nat) : 4 ∣ addPadding st 4 := by
  unfold addPadding UINT
  omega

/-- The layout pass while the running stride stays below `2 ^ 32`: the stride
grows by the bytes of each attribute, every offset recorded is a multiple of 4
at or above the starting stride, and offsets are non-decreasing in declaration
order. -/
theorem layoutLoop_offsets (r : ArrayRef) :
    ∀ (layout : List (HashName × ShaderDataType)) (s : State),
      (layout.map Prod.fst).Nodup →
      s.vertexStrides.read r 0 + layoutBytes layout < UINT →
      4 ∣ s.vertexStrides.read r 0 →
      (layoutLoop r s layout).vertexStrides.read r 0
          = s.vertexStrides.read r 0 + layoutBytes layout ∧
        (∀ a ∈ layout,
          s.vertexStrides.read r 0
              ≤ (layoutLoop r s layout).attributeVBOOffsets.read2 r a.1 0 ∧
            4 ∣ (layoutLoop r s layout).attributeVBOOffsets.read2 r a.1 0) ∧
        OffsetsNonDecreasing (layoutLoop r s layout) r layout := by
  intro layout
  induction layout with
  | nil =>
    intro s _ _ _
    simp [layoutLoop, layoutBytes, OffsetsNonDecreasing]
  | cons a rest ih =>
    intro s hnd hsum h4
    have hb : layoutBytes (a :: rest) = attributeBytes a.2 + layoutBytes rest := by
      simp [layoutBytes]
    rw [hb] at hsum
    rw [List.map_cons, List.nodup_cons] at hnd
    have hst : (layoutStep r s a).vertexStrides.read r 0
        = s.vertexStrides.read r 0 + attributeBytes a.2 := by
      rw [layoutStep_stride, addPadding_of_dvd _ h4 (by omega)]
      exact Nat.mod_eq_of_lt (by omega)
    have h4' : 4 ∣ (layoutStep r s a).vertexStrides.read r 0 := by
      rw [hst, attributeBytes_eq]; omega
    obtain ⟨i1, i2, i3⟩ := ih (layoutStep r s a) hnd.2 (by rw [hst]; omega) h4'
    have hoff : (layoutLoop r (layoutStep r s a) rest).attributeVBOOffsets.read2 r a.1 0
        = s.vertexStrides.read r 0 := by
      rw [layoutLoop_offset_notin _ _ _ _ hnd.1, layoutStep_offset_self]
    rw [layoutLoop_cons]
    refine ⟨by rw [i1, hst, hb]; omega, ?_, ?_⟩
    · intro b hbm
      rcases List.mem_cons.1 hbm with rfl | hbr
      · rw [hoff]; exact ⟨le_refl _, h4⟩
      · obtain ⟨j1, j2⟩ := i2 b hbr
        exact ⟨by rw [hst] at j1; omega, j2⟩
    · unfold OffsetsNonDecreasing
      rw [List.pairwise_cons]
      refine ⟨fun b hbr => ?_, i3⟩
      rw [hoff]
      have := (i2 b hbr).1
      rw [hst] at this
      omega

theorem layoutLoop_frame (r : ArrayRef) :
    ∀ (layout : List (HashName × ShaderDataType)) (s : State),
      (layoutLoop r s layout).nextArrayRef = s.nextArrayRef ∧
      (layoutLoop r s layout).vboSizes = s.vboSizes ∧
      (layoutLoop r s layout).iboSizesInTriangles = s.iboSizesInTriangles ∧
      (layoutLoop r s layout)._enabledAttributes = s._enabledAttributes := by
  intro layout
  induction layout with
  | nil => intro s; exact ⟨rfl, rfl, rfl, rfl⟩
  | cons a rest ih =>
    intro s
    rw [layoutLoop_cons]
    exact ih (layoutStep r s a)

/-- What a returning `CreateVertexArray` has done. -/
theorem CreateVertexArray_inv {w : Nat} {s : State} {dv di : Bool} {mv mt : Nat}
    {layout : List (HashName × ShaderDataType)} {vbo ibo : Nat} {h : Nat} {s1 : State}
    {tr : List GLCall}
    (hc : CreateVertexArray w s dv di mv mt layout vbo ibo = .ok (h, s1, tr)) :
    mv ≠ 0 ∧ mt ≠ 0 ∧ layout ≠ [] ∧
      h = ((s.nextArrayRef + 1) % 2 ^ w + (2 ^ w - 1)) % 2 ^ w ∧
      s1.nextArrayRef = (s.nextArrayRef + 1) % 2 ^ w ∧
      s1._activeArray = s.nextArrayRef ∧
      s1._enabledAttributes = s._enabledAttributes ∧
      s1.vboSizes = s.vboSizes.set s.nextArrayRef (mv % UINT) ∧
      s1.iboSizesInTriangles = s.iboSizesInTriangles.set s.nextArrayRef (mt % UINT) ∧
      s1.attributeVBOOffsets
        = (layoutLoop s.nextArrayRef (layoutStart s mv mt) layout).attributeVBOOffsets ∧
      s1.vertexStrides.read s.nextArrayRef 0
        = addPadding
            ((layoutLoop s.nextArrayRef (layoutStart s mv mt) layout).vertexStrides.read
              s.nextArrayRef 0) 4 := by
  unfold CreateVertexArray at hc
  by_cases h1 : mv = 0
  · rw [if_pos h1] at hc; cases hc
  · rw [if_neg h1] at hc
    by_cases h2 : mt = 0
    · rw [if_pos h2] at hc; cases hc
    · rw [if_neg h2] at hc
      cases layout with
      | nil => cases hc
      | cons first rest =>
        obtain ⟨f1, f2, f3, f4⟩ :=
          layoutLoop_frame s.nextArrayRef (first :: rest) (layoutStart s mv mt)
        simp only [Except.ok.injEq, Prod.mk.injEq] at hc
        obtain ⟨rfl, rfl, -⟩ := hc
        refine ⟨h1, h2, by simp, rfl, rfl, rfl, f4, f2, f3, rfl, ?_⟩
        simp only [Table.read_set_self, typeSize_eq]

theorem handle_arith (r M : Nat) (hM : 0 < M) : ((r + 1) % M + (M - 1)) % M = r % M := by
  rw [Nat.add_mod, Nat.mod_mod, ← Nat.add_mod]
  have : r + 1 + (M - 1) = r + M := by omega
  rw [this, Nat.add_mod_right]

theorem CreateVertexArray_ok (w : Nat) (s : State) (dv di : Bool) (mv mt : Nat)
    (layout : List (HashName × ShaderDataType)) (vbo ibo : Nat)
    (h1 : mv ≠ 0) (h2 : mt ≠ 0) (h3 : layout ≠ []) :
    ∃ h s1 tr, CreateVertexArray w s dv di mv mt layout vbo ibo = .ok (h, s1, tr) := by
  unfold CreateVertexArray
  rw [if_neg h1, if_neg h2]
  cases layout with
  | nil => exact absurd rfl h3
  | cons first rest => exact ⟨_, _, _, rfl⟩

/-- C1 (amended): for every layout with pairwise distinct attribute names whose
attributes total fewer than `2 ^ 32` bytes, a returning `CreateVertexArray`
(the layout is then non-empty) has recorded, under the key of the new array,
offsets that are non-decreasing in declaration order, each a multiple of the
component byte size of its attribute, and a vertex stride that is a multiple
of the component byte size of the first attribute. -/
theorem CreateVertexArray_layout_aligned (w : Nat) (s : State) (dv di : Bool) (mv mt : Nat)
    (layout : List (HashName × ShaderDataType)) (vbo ibo : Nat) (h : Nat) (s1 : State)
    (tr : List GLCall)
    (hc : CreateVertexArray w s dv di mv mt layout vbo ibo = .ok (h, s1, tr))
    (hnd : (layout.map Prod.fst).Nodup)
    (hsum : layoutBytes layout < UINT) :
    layout ≠ [] ∧ h = s.nextArrayRef % 2 ^ w ∧
      OffsetsNonDecreasing s1 s.nextArrayRef layout ∧
      (∀ a ∈ layout, (getAttributeTypeInfo a.2).typeSize
          ∣ s1.attributeVBOOffsets.read2 s.nextArrayRef a.1 0) ∧
      (∀ first ∈ layout.head?, (getAttributeTypeInfo first.2).typeSize
          ∣ s1.vertexStrides.read s.nextArrayRef 0) := by
  obtain ⟨-, -, hne, hh, -, -, -, -, -, hoff, hstr⟩ := CreateVertexArray_inv hc
  have h0 : (layoutStart s mv mt).vertexStrides.read s.nextArrayRef 0 = 0 := by
    unfold layoutStart; simp only [Table.read_set_self]
  obtain ⟨-, l2, l3⟩ := layoutLoop_offsets s.nextArrayRef layout (layoutStart s mv mt) hnd
    (by rw [h0]; omega) (by rw [h0]; exact Nat.dvd_zero 4)
  refine ⟨hne, ?_, ?_, ?_, ?_⟩
  · rw [hh, handle_arith _ _ (Nat.pos_pow_of_pos w (by decide))]
  · unfold OffsetsNonDecreasing at l3 ⊢
    rw [hoff]; exact l3
  · intro a ha
    rw [typeSize_eq, hoff]
    exact (l2 a ha).2
  · intro first _
    rw [typeSize_eq, hstr]
    exact addPadding_dvd _

/-- C1 at a concrete layout: `[(1, Float3), (2, Float2)]` on the start-up state. -/
theorem CreateVertexArray_layout_aligned_witness :
    ∃ h s1 tr,
      CreateVertexArray 32 State.init false false 4 2 [(1, .Float3), (2, .Float2)] 10 11
        = .ok (h, s1, tr) ∧
      ([(1, ShaderDataType.Float3), (2, ShaderDataType.Float2)].map Prod.fst).Nodup ∧
      layoutBytes [(1, .Float3), (2, .Float2)] < UINT ∧
      OffsetsNonDecreasing s1 1 [(1, .Float3), (2, .Float2)] ∧
      (∀ a ∈ [(1, ShaderDataType.Float3), (2, ShaderDataType.Float2)],
        (getAttributeTypeInfo a.2).typeSize ∣ s1.attributeVBOOffsets.read2 1 a.1 0) ∧
      (∀ first ∈ [(1, ShaderDataType.Float3), (2, ShaderDataType.Float2)].head?,
        (getAttributeTypeInfo first.2).typeSize ∣ s1.vertexStrides.read 1 0) ∧
      s1.attributeVBOOffsets.read2 1 1 0 = 0 ∧ s1.attributeVBOOffsets.read2 1 2 0 = 12 ∧
      s1.vertexStrides.read 1 0 = 20 :=
  ⟨_, _, _, rfl, by decide, by decide,
    (CreateVertexArray_layout_aligned 32 State.init false false 4 2
      [(1, .Float3), (2, .Float2)] 10 11 _ _ _ rfl (by decide) (by decide)).2.2.1,
    (CreateVertexArray_layout_aligned 32 State.init false false 4 2
      [(1, .Float3), (2, .Float2)] 10 11 _ _ _ rfl (by decide) (by decide)).2.2.2.1,
    (CreateVertexArray_layout_aligned 32 State.init false false 4 2
      [(1, .Float3), (2, .Float2)] 10 11 _ _ _ rfl (by decide) (by decide)).2.2.2.2,
    rfl, rfl, rfl⟩

/-! ## The layout pass when the 32-bit stride wraps -/

/-- The offset recorded for an attribute that is not declared again later is
the running stride in front of it. -/
theorem layoutLoop_offset_at (r : ArrayRef) (s : State)
    (pre : List (HashName × ShaderDataType)) (a : HashName × ShaderDataType)
    (post : List (HashName × ShaderDataType)) (h : a.1 ∉ post.map Prod.fst) :
    (layoutLoop r s (pre ++ a :: post)).attributeVBOOffsets.read2 r a.1 0
      = (layoutLoop r s pre).vertexStrides.read r 0 := by
  rw [layoutLoop_append, layoutLoop_cons, layoutLoop_offset_notin _ _ _ _ h,
    layoutStep_offset_self]

theorem layoutLoop_stride_float4 (r : ArrayRef) :
    ∀ (l : List (HashName × ShaderDataType)) (s : State),
      (∀ a ∈ l, a.2 = ShaderDataType.Float4) →
      4 ∣ s.vertexStrides.read r 0 → s.vertexStrides.read r 0 < UINT →
      (layoutLoop r s l).vertexStrides.read r 0
        = (s.vertexStrides.read r 0 + 16 * l.length) % UINT := by
  intro l
  induction l with
  | nil =>
    intro s _ _ hlt
    simp only [layoutLoop, List.foldl_nil, List.length_nil, Nat.mul_zero, Nat.add_zero]
    exact (Nat.mod_eq_of_lt hlt).symm
  | cons a rest ih =>
    intro s hall h4 hlt
    have ha : a.2 = ShaderDataType.Float4 := hall a (List.mem_cons_self _ _)
    have hst : (layoutStep r s a).vertexStrides.read r 0
        = (s.vertexStrides.read r 0 + 16) % UINT := by
      rw [layoutStep_stride, addPadding_of_dvd _ h4 hlt, ha]; rfl
    have h4' : 4 ∣ (layoutStep r s a).vertexStrides.read r 0 := by
      rw [hst]; unfold UINT; omega
    have hlt' : (layoutStep r s a).vertexStrides.read r 0 < UINT := by
      rw [hst]; exact Nat.mod_lt _ (by decide)
    rw [layoutLoop_cons, ih _ (fun b hb => hall b (List.mem_cons_of_mem _ hb)) h4' hlt', hst,
      List.length_cons]
    unfold UINT
    omega

/-- Offsets of the last two attributes of a layout of `n + 2` attributes of
type `Float4` named `0, 1, ..`, laid out from stride 0. -/
theorem float4_layout_offsets (n : Nat) (s : State) (hs : s.vertexStrides.read 1 0 = 0) :
    (layoutLoop 1 s
        ((List.range' 0 (n + 1 + 1)).map fun i => (i, ShaderDataType.Float4))
      ).attributeVBOOffsets.read2 1 n 0 = (16 * n) % UINT ∧
    (layoutLoop 1 s
        ((List.range' 0 (n + 1 + 1)).map fun i => (i, ShaderDataType.Float4))
      ).attributeVBOOffsets.read2 1 (n + 1) 0 = (16 * (n + 1)) % UINT := by
  have hall : ∀ m, ∀ a ∈ (List.range' 0 m).map (fun i => (i, ShaderDataType.Float4)),
      a.2 = ShaderDataType.Float4 := by
    intro m a ha
    obtain ⟨i, -, rfl⟩ := List.mem_map.1 ha
    rfl
  have hstride : ∀ m, (layoutLoop 1 s
      ((List.range' 0 m).map fun i => (i, ShaderDataType.Float4))).vertexStrides.read 1 0
        = (16 * m) % UINT := by
    intro m
    rw [layoutLoop_stride_float4 1 _ s (hall m) (by rw [hs]; exact Nat.dvd_zero 4)
      (by rw [hs]; decide), hs, List.length_map, List.length_range', Nat.zero_add]
  have e1 : (List.range' 0 (n + 1 + 1)).map (fun i => (i, ShaderDataType.Float4))
      = (List.range' 0 n).map (fun i => (i, ShaderDataType.Float4))
        ++ (n, ShaderDataType.Float4) :: [(n + 1, ShaderDataType.Float4)] := by
    rw [List.range'_1_concat, List.range'_1_concat]
    simp
  have e2 : (List.range' 0 (n + 1 + 1)).map (fun i => (i, ShaderDataType.Float4))
      = (List.range' 0 (n + 1)).map (fun i => (i, ShaderDataType.Float4))
        ++ (n + 1, ShaderDataType.Float4) :: [] := by
    rw [List.range'_1_concat 0 (n + 1)]
    simp
  constructor
  · rw [e1, layoutLoop_offset_at 1 s _ (n, ShaderDataType.Float4)
      [(n + 1, ShaderDataType.Float4)] (by simp), hstride]
  · rw [e2, layoutLoop_offset_at 1 s _ (n + 1, ShaderDataType.Float4) [] (by simp), hstride]

/-- C1 as stated fails when the 32-bit stride wraps: in the layout of
`2 ^ 28 + 1` attributes of type `Float4` with distinct names, the offset
recorded for attribute number `2 ^ 28` (0, after the wrap) is below the one
recorded for the attribute declared just before it (`2 ^ 32 - 16`). -/
theorem CreateVertexArray_offsets_wrap :
    ∃ h s1 tr,
      CreateVertexArray 32 State.init false false 1 1 wrapLayout 10 11 = .ok (h, s1, tr) ∧
      wrapLayout ≠ [] ∧ (wrapLayout.map Prod.fst).Nodup ∧
      s1.attributeVBOOffsets.read2 h 268435455 0 = 4294967280 ∧
      s1.attributeVBOOffsets.read2 h (268435455 + 1) 0 = 0 ∧
      ¬ OffsetsNonDecreasing s1 h wrapLayout := by
  have hne : wrapLayout ≠ [] := by
    unfold wrapLayout
    rw [List.range'_1_concat]
    simp
  have hnd : (wrapLayout.map Prod.fst).Nodup := by
    unfold wrapLayout
    rw [List.map_map]
    exact (List.nodup_range' 0 _).map (fun a b h => h)
  obtain ⟨h, s1, tr, hc⟩ :=
    CreateVertexArray_ok 32 State.init false false 1 1 wrapLayout 10 11 (by decide) (by decide) hne
  obtain ⟨-, -, -, hh, -, -, -, -, -, hoff, -⟩ := CreateVertexArray_inv hc
  have hh1 : h = 1 := by rw [hh]; decide
  subst hh1
  have hkey : State.init.nextArrayRef = 1 := rfl
  rw [hkey] at hoff
  obtain ⟨f1, f2⟩ := float4_layout_offsets 268435455 (layoutStart State.init 1 1) rfl
  have o1 : s1.attributeVBOOffsets.read2 1 268435455 0 = 4294967280 := by
    rw [hoff]
    exact f1.trans (by decide)
  have o2 : s1.attributeVBOOffsets.read2 1 (268435455 + 1) 0 = 0 := by
    rw [hoff]
    exact f2.trans (by decide)
  refine ⟨1, s1, tr, hc, hne, hnd, o1, o2, ?_⟩
  intro hp
  have hsub : [((268435455, ShaderDataType.Float4) : HashName × ShaderDataType),
      (268435455 + 1, ShaderDataType.Float4)].Sublist wrapLayout := by
    unfold wrapLayout
    rw [List.range'_1_concat, List.range'_1_concat, List.map_append, List.map_append]
    simp only [List.map_cons, List.map_nil, List.append_assoc, List.singleton_append,
      Nat.zero_add]
    exact List.sublist_append_right _ _
  have h2 := List.Pairwise.sublist hsub hp
  rw [List.pairwise_cons] at h2
  have h12 := h2.1 (268435455 + 1, ShaderDataType.Float4) (by simp)
  simp only at h12
  rw [o1, o2] at h12
  omega

/-! ## The slot passed to the disable call -/

theorem eq_zero_of_setBits_empty (t : Nat) (ht : t < 2 ^ 64) (he : setBits t = ∅) : t = 0 := by
  apply Nat.eq_of_testBit_eq
  intro i
  rw [Nat.zero_testBit]
  by_cases hi : i < 64
  · cases hb : t.testBit i
    · rfl
    · have hm : i ∈ setBits t := by simp [setBits, hi, hb]
      rw [he] at hm
      simp at hm
  · exact Nat.testBit_lt_two_pow
      (lt_of_lt_of_le ht (Nat.pow_le_pow_right (by decide) (by omega)))

/-- The bound on the iterations of the disable loop is never reached on a
64-bit mask: one more iteration changes nothing once the bound is at least
the number of set bits, which is at most 64. -/
theorem disableLoop_enough_fuel (fuel : Nat) :
    ∀ t, t < 2 ^ 64 → (setBits t).card ≤ fuel →
      disableLoop (fuel + 1) t = disableLoop fuel t := by
  induction fuel with
  | zero =>
    intro t ht hc
    have h0 : t = 0 :=
      eq_zero_of_setBits_empty t ht (Finset.card_eq_zero.1 (Nat.le_zero.1 hc))
    subst h0
    simp [disableLoop]
  | succ fuel ih =>
    intro t ht hc
    by_cases h0 : t = 0
    · subst h0
      simp [disableLoop]
    · obtain ⟨k, hk, hlog, hbit, -, hclr⟩ := disableLoop_iteration t h0 ht
      have hmem : k ∈ setBits t := by simp [setBits, hk, hbit]
      have hset := setBits_cleared t k _ hclr
      have hlt : t &&& (U64 - 1 - BIT k) < 2 ^ 64 := lt_of_le_of_lt Nat.and_le_left ht
      have hcard : (setBits (t &&& (U64 - 1 - BIT k))).card ≤ fuel := by
        rw [hset, Finset.card_erase_of_mem hmem]; omega
      have hrec := ih _ hlt hcard
      show disableLoop (fuel + 1 + 1) t = disableLoop (fuel + 1) t
      rw [disableLoop, disableLoop]
      simp only [if_neg h0, hlog]
      rw [hrec]

theorem setBits_toTurnOff (W E : Nat) :
    setBits (((W ^^^ E) &&& E) % U64) = setBits E \ setBits W := by
  ext j
  simp only [setBits, Finset.mem_filter, Finset.mem_range, Finset.mem_sdiff]
  unfold U64
  rw [Nat.testBit_mod_two_pow, Nat.testBit_and, Nat.testBit_xor]
  by_cases hj : j < 64 <;> cases W.testBit j <;> cases E.testBit j <;> simp [hj]

/-- What the disable loop of every draw does: it passes `i + 1` to
`glDisableVertexAttribArray`, once, for each slot `i` below 64 whose bit is
set in `_enabledAttributes` before the draw and not set in the mask of wanted
slots. -/
theorem DrawArray_disable_indices (s : State) (array : ArrayRef) (triangleCount : Nat)
    (shader : Table Nat) :
    ∃ s1 tr, DrawArray s array triangleCount shader = .ok (s1, tr) ∧
      (disableCalls tr).Nodup ∧
      (disableCalls tr).toFinset
        = (setBits s._enabledAttributes
            \ setBits (wantedMask shader (s.vertexAttributeNames.read array []) 0)).image
            (fun i => i + 1) := by
  obtain ⟨s1, tr, hd, -, -, -, hdis⟩ := DrawArray_toggles s array triangleCount shader
  obtain ⟨hnd, hfin⟩ := disableLoop_spec 64
    (((wantedMask shader (s.vertexAttributeNames.read array []) 0
        ^^^ s._enabledAttributes) &&& s._enabledAttributes) % U64)
    (show _ % U64 < 2 ^ 64 from Nat.mod_lt _ (by decide)) (setBits_card_le _)
  refine ⟨s1, tr, hd, ?_, ?_⟩
  · rw [hdis]; exact hnd
  · rw [hdis, hfin, setBits_toTurnOff]

theorem log2_one : Nat.log2 1 = 0 := by simp [Nat.log2]

theorem disableLoop_one : disableLoop 64 1 = [.glDisableVertexAttribArray 1] := by
  show disableLoop (63 + 1) 1 = _
  rw [disableLoop]
  have h1 : (1 &&& ((U64 - 1) % U64)) = 1 := by decide
  have h2 : (1 &&& (U64 - 1 - BIT 0)) = 0 := by decide
  simp only [h1, log2_one, h2]
  show _ :: disableLoop (62 + 1) 0 = _
  rw [disableLoop]
  simp

/-- C4: a draw under a shader that exposes `pos` at slot 0 enables slot 0 and
records the mask 1; the next draw of the same array, under a shader that
exposes nothing, wants no slot, so the enabled slots minus the wanted slots are
`{0}`.  That draw passes 1, not 0, to `glDisableVertexAttribArray`: the loop
adds 1 to the position of the bit it found. -/
theorem DrawArray_disables_next_slot :
    ∃ h s0 tr0 s1 tr1 s2 tr2,
      CreateVertexArray 32 State.init false false 4 2 [(1, .Float2)] 10 11
        = .ok (h, s0, tr0) ∧
      DrawArray s0 h 2 (Table.empty.set 1 0) = .ok (s1, tr1) ∧
      enableCalls tr1 = [0] ∧ s1._enabledAttributes = 1 ∧
      DrawArray s1 h 2 Table.empty = .ok (s2, tr2) ∧
      wantedMask Table.empty (s1.vertexAttributeNames.read h []) 0 = 0 ∧
      disableCalls tr2 = [1] ∧ 0 ∉ disableCalls tr2 := by
  refine ⟨_, _, _, _, _, _, _, rfl, rfl, by decide, by decide, rfl, by decide, ?_⟩
  have h : disableCalls
      ([] ++ [] ++ disableLoop 64 1 ++ [GLCall.glDrawElements 6]) = [1] := by
    rw [disableLoop_one]; decide
  refine ⟨h, fun hm => ?_⟩
  have hm1 : 0 ∈ disableCalls
      ([] ++ [] ++ disableLoop 64 1 ++ [GLCall.glDrawElements 6]) := hm
  rw [h] at hm1
  simp at hm1

/-- C5 at concrete draws: an array with the attributes 1, 2, 3 drawn under a
shader with slots `{0, 1}` and then under one with slots `{0, 5}`. -/
theorem consecutive_draws_toggle_symmDiff_witness :
    ∃ h s0 tr0 s1 tr1 s2 tr2,
      CreateVertexArray 32 State.init false false 4 2
        [(1, .Float3), (2, .Float2), (3, .Int)] 10 11 = .ok (h, s0, tr0) ∧
      DrawArray s0 h 2 ((Table.empty.set 1 0).set 3 1) = .ok (s1, tr1) ∧
      DrawArray s1 h 2 ((Table.empty.set 1 0).set 2 5) = .ok (s2, tr2) ∧
      (s0.vertexAttributeNames.read h []).Nodup ∧
      (enableCalls tr2).length + (disableCalls tr2).length
        = (symmDiff
            (matchedSlots ((Table.empty.set 1 0).set 3 1)
              (s0.vertexAttributeNames.read h [])).toFinset
            (matchedSlots ((Table.empty.set 1 0).set 2 5)
              (s0.vertexAttributeNames.read h [])).toFinset).card :=
  ⟨_, _, _, _, _, _, _, rfl, rfl, rfl, by decide,
    consecutive_draws_toggle_symmDiff _ 1 1 2 2
      ((Table.empty.set 1 0).set 3 1) ((Table.empty.set 1 0).set 2 5) _ _ _ _
      rfl rfl (by decide)
      (by
        intro n i h
        simp only [Table.set, Table.empty] at h
        split_ifs at h <;> cases h <;> decide)
      (by
        intro n m i h1 h2
        simp only [Table.set, Table.empty] at h1 h2
        split_ifs at h1 h2 <;>
          first
          | omega
          | (simp only [Option.some.injEq] at h1 h2; omega))
      (by
        intro n i h
        simp only [Table.set, Table.empty] at h
        split_ifs at h <;> cases h <;> decide)⟩

/-! ## What each operation leaves alone -/

theorem Table.read_erase_self {α : Type} (m : Table α) (k : Nat) (d : α) :
    (m.erase k).read k d = d := by
  simp [Table.read, Table.erase]

theorem Table.read_erase_ne {α : Type} (m : Table α) (k j : Nat) (d : α) (h : j ≠ k) :
    (m.erase k).read j d = m.read j d := by
  simp [Table.read, Table.erase, h]

theorem SetVertexData_frame {s : State} {array : ArrayRef} {src first count : Nat}
    {s1 : State} {tr : List GLCall}
    (hs : SetVertexData s array src first count = .ok (s1, tr)) :
    s1.nextArrayRef = s.nextArrayRef ∧
      (∀ a, s1.vboSizes.read a 0 = s.vboSizes.read a 0) ∧
      s1.iboSizesInTriangles = s.iboSizesInTriangles := by
  unfold SetVertexData at hs
  split_ifs at hs
  simp only [Except.ok.injEq, Prod.mk.injEq] at hs
  obtain ⟨rfl, -⟩ := hs
  obtain ⟨b1, -, b3, b4, -⟩ :=
    bindArray_frame { s with vboSizes := s.vboSizes.touch array 0 } array
  refine ⟨b1, fun a => ?_, b4⟩
  show (bindArray _ array).1.vboSizes.read a 0 = _
  rw [b3]
  exact Table.read_touch _ _ _ _

theorem SetIndexData_frame {s : State} {array : ArrayRef} {src first count : Nat}
    {s1 : State} {tr : List GLCall}
    (hs : SetIndexData s array src first count = .ok (s1, tr)) :
    s1.nextArrayRef = s.nextArrayRef ∧
      s1.vboSizes = s.vboSizes ∧
      (∀ a, s1.iboSizesInTriangles.read a 0 = s.iboSizesInTriangles.read a 0) := by
  unfold SetIndexData at hs
  split_ifs at hs
  simp only [Except.ok.injEq, Prod.mk.injEq] at hs
  obtain ⟨rfl, -⟩ := hs
  obtain ⟨b1, -, b3, b4, -⟩ :=
    bindArray_frame { s with iboSizesInTriangles := s.iboSizesInTriangles.touch array 0 } array
  refine ⟨b1, b3, fun a => ?_⟩
  rw [b4]
  exact Table.read_touch _ _ _ _

theorem DrawArray_frame {s : State} {array : ArrayRef} {n : Nat} {shader : Table Nat}
    {s1 : State} {tr : List GLCall} (hs : DrawArray s array n shader = .ok (s1, tr)) :
    s1.nextArrayRef = s.nextArrayRef ∧ s1.vboSizes = s.vboSizes ∧
      s1.iboSizesInTriangles = s.iboSizesInTriangles := by
  obtain ⟨s2, h2, -, f1, f2, f3, -⟩ := DrawArray_trace s array n shader
  rw [hs] at h2
  simp only [Except.ok.injEq, Prod.mk.injEq] at h2
  obtain ⟨rfl, -⟩ := h2
  exact ⟨f1, f2, f3⟩

theorem DrawArrayDefault_frame {s : State} {array : ArrayRef} {shader : Table Nat}
    {s1 : State} {tr : List GLCall} (hs : DrawArrayDefault s array shader = .ok (s1, tr)) :
    s1.nextArrayRef = s.nextArrayRef ∧ s1.vboSizes = s.vboSizes ∧
      (∀ a, s1.iboSizesInTriangles.read a 0 = s.iboSizesInTriangles.read a 0) := by
  unfold DrawArrayDefault at hs
  obtain ⟨f1, f2, f3⟩ := DrawArray_frame hs
  refine ⟨f1, f2, fun a => ?_⟩
  rw [f3]
  exact Table.read_touch _ _ _ _

theorem DeleteVertexArray_frame {s : State} {array : ArrayRef} {s1 : State} {tr : List GLCall}
    (hs : DeleteVertexArray s array = .ok (s1, tr)) :
    s1.nextArrayRef = s.nextArrayRef ∧
      s1.vboSizes = s.vboSizes.erase array ∧
      s1.iboSizesInTriangles = s.iboSizesInTriangles.erase array := by
  unfold DeleteVertexArray at hs
  simp only [Except.ok.injEq, Prod.mk.injEq] at hs
  obtain ⟨rfl, -⟩ := hs
  exact ⟨rfl, rfl, rfl⟩

/-- One call either returns no handle and leaves the counter alone, or is a
`CreateVertexArray` that returns the counter (reduced to the handle type),
increments it and stores the two capacities under the old counter value. -/
theorem step_cases {w : Nat} {s : State} {c : Call} {s1 : State} {h : Option Nat}
    {tr : List GLCall} (hs : step w s c = .ok (s1, h, tr)) :
    (h = none ∧ s1.nextArrayRef = s.nextArrayRef ∧
        ∀ a, NoCapacity s a → NoCapacity s1 a) ∨
      (h = some (s.nextArrayRef % 2 ^ w) ∧ s1.nextArrayRef = (s.nextArrayRef + 1) % 2 ^ w ∧
        ∀ a, a ≠ s.nextArrayRef → NoCapacity s a → NoCapacity s1 a) := by
  cases c with
  | CreateVertexArray dv di mv mt layout vbo ibo =>
    right
    simp only [step] at hs
    cases hc : CreateVertexArray w s dv di mv mt layout vbo ibo with
    | error f => rw [hc] at hs; cases hs
    | ok r =>
      obtain ⟨h0, s0, tr0⟩ := r
      rw [hc] at hs
      simp only [Except.ok.injEq, Prod.mk.injEq] at hs
      obtain ⟨rfl, rfl, rfl⟩ := hs
      obtain ⟨-, -, -, hh, hn, -, -, hv, hi, -, -⟩ := CreateVertexArray_inv hc
      refine ⟨by rw [hh, handle_arith _ _ (Nat.pos_pow_of_pos w (by decide))], hn, ?_⟩
      intro a ha ⟨d1, d2⟩
      exact ⟨by rw [hv, Table.read_set_ne _ _ _ _ _ ha]; exact d1,
        by rw [hi, Table.read_set_ne _ _ _ _ _ ha]; exact d2⟩
  | DeleteVertexArray a0 =>
    left
    simp only [step] at hs
    cases hc : DeleteVertexArray s a0 with
    | error f => rw [hc] at hs; cases hs
    | ok r =>
      obtain ⟨s0, tr0⟩ := r
      rw [hc] at hs
      simp only [Except.ok.injEq, Prod.mk.injEq] at hs
      obtain ⟨rfl, rfl, rfl⟩ := hs
      obtain ⟨f1, f2, f3⟩ := DeleteVertexArray_frame hc
      refine ⟨rfl, f1, ?_⟩
      intro a ⟨d1, d2⟩
      rw [NoCapacity, f2, f3]
      by_cases ha : a = a0
      · subst ha
        exact ⟨Table.read_erase_self _ _ _, Table.read_erase_self _ _ _⟩
      · exact ⟨by rw [Table.read_erase_ne _ _ _ _ ha]; exact d1,
          by rw [Table.read_erase_ne _ _ _ _ ha]; exact d2⟩
  | SetVertexData a0 src first count =>
    left
    simp only [step] at hs
    cases hc : SetVertexData s a0 src first count with
    | error f => rw [hc] at hs; cases hs
    | ok r =>
      obtain ⟨s0, tr0⟩ := r
      rw [hc] at hs
      simp only [Except.ok.injEq, Prod.mk.injEq] at hs
      obtain ⟨rfl, rfl, rfl⟩ := hs
      obtain ⟨f1, f2, f3⟩ := SetVertexData_frame hc
      refine ⟨rfl, f1, ?_⟩
      intro a ⟨d1, d2⟩
      exact ⟨by rw [f2]; exact d1, by rw [f3]; exact d2⟩
  | SetIndexData a0 src first count =>
    left
    simp only [step] at hs
    cases hc : SetIndexData s a0 src first count with
    | error f => rw [hc] at hs; cases hs
    | ok r =>
      obtain ⟨s0, tr0⟩ := r
      rw [hc] at hs
      simp only [Except.ok.injEq, Prod.mk.injEq] at hs
      obtain ⟨rfl, rfl, rfl⟩ := hs
      obtain ⟨f1, f2, f3⟩ := SetIndexData_frame hc
      refine ⟨rfl, f1, ?_⟩
      intro a ⟨d1, d2⟩
      exact ⟨by rw [f2]; exact d1, by rw [f3]; exact d2⟩
  | DrawArrayDefault a0 shader =>
    left
    simp only [step] at hs
    cases hc : DrawArrayDefault s a0 shader with
    | error f => rw [hc] at hs; cases hs
    | ok r =>
      obtain ⟨s0, tr0⟩ := r
      rw [hc] at hs
      simp only [Except.ok.injEq, Prod.mk.injEq] at hs
      obtain ⟨rfl, rfl, rfl⟩ := hs
      obtain ⟨f1, f2, f3⟩ := DrawArrayDefault_frame hc
      refine ⟨rfl, f1, ?_⟩
      intro a ⟨d1, d2⟩
      exact ⟨by rw [f2]; exact d1, by rw [f3]; exact d2⟩
  | DrawArray a0 n shader =>
    left
    simp only [step] at hs
    cases hc : DrawArray s a0 n shader with
    | error f => rw [hc] at hs; cases hs
    | ok r =>
      obtain ⟨s0, tr0⟩ := r
      rw [hc] at hs
      simp only [Except.ok.injEq, Prod.mk.injEq] at hs
      obtain ⟨rfl, rfl, rfl⟩ := hs
      obtain ⟨f1, f2, f3⟩ := DrawArray_frame hc
      refine ⟨rfl, f1, ?_⟩
      intro a ⟨d1, d2⟩
      exact ⟨by rw [f2]; exact d1, by rw [f3]; exact d2⟩

/-! ## Handles returned along a run -/

theorem run_cons_error {w : Nat} {s : State} {c : Call} {f : Fault} (cs : List Call)
    (hs : step w s c = .error f) : run w s (c :: cs) = ⟨s, [], [], some f⟩ := by
  simp only [run, hs]

theorem run_cons_ok {w : Nat} {s : State} {c : Call} {s1 : State} {h : Option Nat}
    {tr : List GLCall} (cs : List Call) (hs : step w s c = .ok (s1, h, tr)) :
    run w s (c :: cs)
      = ⟨(run w s1 cs).state, h.toList ++ (run w s1 cs).handles,
          tr ++ (run w s1 cs).trace, (run w s1 cs).fault⟩ := by
  simp only [run, hs]

/-- While the counter does not reach `2 ^ w`, the handles returned along a run
are the consecutive values of the counter. -/
theorem run_handles_range (w : Nat) :
    ∀ (cs : List Call) (s : State),
      s.nextArrayRef + (run w s cs).handles.length ≤ 2 ^ w →
      (run w s cs).handles = List.range' s.nextArrayRef (run w s cs).handles.length := by
  intro cs
  induction cs with
  | nil => intro s _; rfl
  | cons c cs ih =>
    intro s hlen
    cases hst : step w s c with
    | error f => rw [run_cons_error cs hst]; rfl
    | ok r =>
      obtain ⟨s1, h, tr⟩ := r
      rw [run_cons_ok cs hst] at hlen ⊢
      simp only [List.length_append] at hlen ⊢
      rcases step_cases hst with ⟨rfl, hn, -⟩ | ⟨rfl, hn, -⟩
      · simp only [Option.toList, List.length_nil, Nat.zero_add, List.nil_append] at hlen ⊢
        rw [← hn]
        exact ih s1 (by rw [hn]; exact hlen)
      · simp only [Option.toList, List.length_singleton, List.singleton_append] at hlen ⊢
        have hk : s.nextArrayRef < 2 ^ w := by omega
        rw [Nat.mod_eq_of_lt hk, Nat.add_comm 1, List.range'_succ]
        congr 1
        by_cases hk1 : s.nextArrayRef + 1 < 2 ^ w
        · rw [Nat.mod_eq_of_lt hk1] at hn
          rw [← hn]
          exact ih s1 (by rw [hn]; omega)
        · have h0 : (run w s1 cs).handles.length = 0 := by omega
          rw [List.length_eq_zero.1 h0]
          rfl

/-- C8 (amended): in every sequence of calls from the start-up state, as long
as fewer than `2 ^ w` handles have been returned (`w` the width of `ArrayRef`:
the counter has not wrapped), each `CreateVertexArray` that returns gives a
non-zero handle strictly greater than every handle returned before it, whether
or not earlier handles were deleted. -/
theorem handles_fresh_until_wrap (w : Nat) (cs : List Call)
    (hlen : (run w State.init cs).handles.length < 2 ^ w) :
    HandlesFresh (run w State.init cs).handles := by
  have hr := run_handles_range w cs State.init (by
    show (1 : Nat) + (run w State.init cs).handles.length ≤ 2 ^ w
    omega)
  have h1 : State.init.nextArrayRef = 1 := rfl
  rw [h1] at hr
  rw [hr]
  constructor
  · exact List.pairwise_lt_range' 1 _
  · intro h hm
    have hm1 : (1 : Nat) ≤ h ∧ h < 1 + (run w State.init cs).handles.length :=
      List.mem_range'_1.1 hm
    intro h0
    have h00 : (h : Nat) = 0 := h0
    omega

/-- C8 at a concrete run: create, delete the array, create again. -/
theorem handles_fresh_until_wrap_witness :
    (run 32 State.init
        [createCall, .DeleteVertexArray 1, createCall]).handles.length < 2 ^ 32 ∧
      (run 32 State.init [createCall, .DeleteVertexArray 1, createCall]).handles = [1, 2] ∧
      HandlesFresh (run 32 State.init [createCall, .DeleteVertexArray 1, createCall]).handles :=
  ⟨by decide, by decide,
    handles_fresh_until_wrap 32 [createCall, .DeleteVertexArray 1, createCall] (by decide)⟩

theorem range'_map_mod_congr (M : Nat) :
    ∀ (n a b : Nat), a % M = b % M →
      (List.range' a n).map (fun x => x % M) = (List.range' b n).map (fun x => x % M) := by
  intro n
  induction n with
  | zero => intro a b _; rfl
  | succ n ih =>
    intro a b hab
    rw [List.range'_succ, List.range'_succ, List.map_cons, List.map_cons, hab]
    congr 1
    exact ih (a + 1) (b + 1) (by rw [Nat.add_mod, hab, ← Nat.add_mod])

theorem step_createCall (w : Nat) (s : State) :
    ∃ s1 tr, step w s createCall = .ok (s1, some (s.nextArrayRef % 2 ^ w), tr) ∧
      s1.nextArrayRef = (s.nextArrayRef + 1) % 2 ^ w := by
  obtain ⟨h, s1, tr, hc⟩ :=
    CreateVertexArray_ok w s false false 1 1 [(1, .Float)] 10 11 (by decide) (by decide)
      (by simp)
  obtain ⟨-, -, -, hh, hn, -⟩ := CreateVertexArray_inv hc
  refine ⟨s1, tr, ?_, hn⟩
  rw [handle_arith _ _ (Nat.pos_pow_of_pos w (by decide))] at hh
  subst hh
  simp only [step, createCall, hc]

theorem step_delete (w : Nat) (s : State) (a : ArrayRef) :
    ∃ s1 tr, step w s (.DeleteVertexArray a) = .ok (s1, none, tr) ∧
      s1.nextArrayRef = s.nextArrayRef :=
  ⟨_, _, rfl, rfl⟩

/-- Creating and deleting an array `n` times over returns the successive
counter values modulo `2 ^ 32`. -/
theorem run_churn :
    ∀ (n k : Nat) (s : State),
      (run 32 s (churnCalls k n)).handles
        = (List.range' s.nextArrayRef n).map (fun x => x % 2 ^ 32) := by
  intro n
  induction n with
  | zero => intro k s; rfl
  | succ n ih =>
    intro k s
    obtain ⟨s1, tr1, hst1, hn1⟩ := step_createCall 32 s
    obtain ⟨s2, tr2, hst2, hn2⟩ := step_delete 32 s1 (k % 2 ^ 32)
    show (run 32 s (createCall :: .DeleteVertexArray (k % 2 ^ 32) :: churnCalls (k + 1) n)).handles
      = _
    rw [run_cons_ok _ hst1, List.range'_succ, List.map_cons]
    show _ :: (run 32 s1 (.DeleteVertexArray (k % 2 ^ 32) :: churnCalls (k + 1) n)).handles = _
    rw [run_cons_ok _ hst2]
    show _ :: (run 32 s2 (churnCalls (k + 1) n)).handles = _
    rw [ih (k + 1) s2, hn2, hn1]
    congr 1
    exact range'_map_mod_congr _ n _ _ (Nat.mod_mod _ _)

/-- C8 as stated fails once the counter wraps: with a 32-bit `ArrayRef`,
creating and deleting an array `2 ^ 32` times over, the last
`CreateVertexArray` returns the handle 0, which is neither non-zero nor
greater than the handles returned before. -/
theorem handles_wrap_to_zero :
    0 ∈ (run 32 State.init (churnCalls 1 4294967296)).handles ∧
      ¬ HandlesFresh (run 32 State.init (churnCalls 1 4294967296)).handles := by
  have hmem : 0 ∈ (run 32 State.init (churnCalls 1 4294967296)).handles := by
    rw [run_churn]
    refine List.mem_map.2 ⟨4294967296, ?_, by decide⟩
    rw [List.mem_range'_1]
    show 1 ≤ 4294967296 ∧ 4294967296 < 1 + 4294967296
    omega
  exact ⟨hmem, fun hf => hf.2 0 hmem rfl⟩

/-! ## Calls on a deleted handle -/

/-- A handle without capacity entries stays so along a run that does not
return it from `CreateVertexArray`. -/
theorem run_noCapacity (w : Nat) (h : ArrayRef) :
    ∀ (cs : List Call) (s : State),
      s.nextArrayRef < 2 ^ w → NoCapacity s h → h ∉ (run w s cs).handles →
      NoCapacity (run w s cs).state h := by
  intro cs
  induction cs with
  | nil => intro s _ hd _; exact hd
  | cons c cs ih =>
    intro s hw hd hf
    cases hst : step w s c with
    | error f => rw [run_cons_error cs hst]; exact hd
    | ok r =>
      obtain ⟨s1, h1, tr⟩ := r
      rw [run_cons_ok cs hst] at hf ⊢
      simp only [List.mem_append, not_or] at hf
      rcases step_cases hst with ⟨rfl, hn, hk⟩ | ⟨rfl, hn, hk⟩
      · exact ih s1 (by rw [hn]; exact hw) (hk h hd) hf.2
      · have hne : h ≠ s.nextArrayRef := by
          intro he
          apply hf.1
          rw [Nat.mod_eq_of_lt hw, he]
          simp
        exact ih s1 (by rw [hn]; exact Nat.mod_lt _ (Nat.pos_pow_of_pos w (by decide)))
          (hk h hne hd) hf.2

theorem SetVertexData_noCapacity (s : State) (h : ArrayRef) (src first count : Nat)
    (hd : NoCapacity s h) (hsum : first + count < UINT) :
    SetVertexData s h src first count = .error .assertion := by
  unfold SetVertexData
  by_cases h1 : src = 0
  · rw [if_pos h1]
  · rw [if_neg h1]
    by_cases h2 : count = 0
    · rw [if_pos h2]
    · rw [if_neg h2, hd.1, Nat.mod_eq_of_lt hsum, if_pos (by omega)]

theorem SetIndexData_noCapacity (s : State) (h : ArrayRef) (src first count : Nat)
    (hd : NoCapacity s h) (hsum : first + count < UINT) :
    SetIndexData s h src first count = .error .assertion := by
  unfold SetIndexData
  by_cases h1 : src = 0
  · rw [if_pos h1]
  · rw [if_neg h1]
    by_cases h2 : count = 0
    · rw [if_pos h2]
    · rw [if_neg h2, hd.2, Nat.mod_eq_of_lt hsum, if_pos (by simp; omega)]

/-- Which calls reject a deleted handle.  After `DeleteVertexArray(h)`, in every
later state of a run that does not return `h` from `CreateVertexArray` again,
`SetVertexData` and `SetIndexData` with `h` fail their capacity assertion
(the capacity read for an erased key is 0) whenever `first + count` is below
`2 ^ 32`; `DrawArray` (both overloads) and `DeleteVertexArray` carry no
assertion and return, the draws issuing their draw call. -/
theorem deleted_handle_calls (w : Nat) (s : State) (h : ArrayRef) (cs : List Call)
    (src first count n : Nat) (shader : Table Nat)
    (hw : s.nextArrayRef < 2 ^ w)
    (hfresh : h ∉ (run w s (.DeleteVertexArray h :: cs)).handles)
    (hsum : first + count < UINT) :
    SetVertexData (run w s (.DeleteVertexArray h :: cs)).state h src first count
        = .error .assertion ∧
      SetIndexData (run w s (.DeleteVertexArray h :: cs)).state h src first count
        = .error .assertion ∧
      (∃ s1 tr, DrawArray (run w s (.DeleteVertexArray h :: cs)).state h n shader = .ok (s1, tr) ∧
        GLCall.glDrawElements ((n * 3) % UINT) ∈ tr) ∧
      (∃ s1 tr, DrawArrayDefault (run w s (.DeleteVertexArray h :: cs)).state h shader
          = .ok (s1, tr) ∧
        GLCall.glDrawElements 0 ∈ tr) ∧
      (∃ s1 tr, DeleteVertexArray (run w s (.DeleteVertexArray h :: cs)).state h
          = .ok (s1, tr)) := by
  obtain ⟨s0, tr0, hdel⟩ : ∃ s0 tr0, DeleteVertexArray s h = .ok (s0, tr0) := ⟨_, _, rfl⟩
  have hst : step w s (.DeleteVertexArray h) = .ok (s0, none, tr0) := by
    simp only [step, hdel]
  obtain ⟨f1, f2, f3⟩ := DeleteVertexArray_frame hdel
  have hd0 : NoCapacity s0 h := by
    rw [NoCapacity, f2, f3]
    exact ⟨Table.read_erase_self _ _ _, Table.read_erase_self _ _ _⟩
  rw [run_cons_ok cs hst] at hfresh ⊢
  simp only [Option.toList, List.nil_append] at hfresh
  have hd := run_noCapacity w h cs s0 (by rw [f1]; exact hw) hd0 hfresh
  refine ⟨SetVertexData_noCapacity _ _ _ _ _ hd hsum,
    SetIndexData_noCapacity _ _ _ _ _ hd hsum, ?_, ?_, ⟨_, _, rfl⟩⟩
  · obtain ⟨s1, htr, -⟩ := DrawArray_trace (run w s0 cs).state h n shader
    exact ⟨s1, _, htr, by simp⟩
  · unfold DrawArrayDefault
    rw [hd.2]
    obtain ⟨s1, htr, -⟩ := DrawArray_trace
      { (run w s0 cs).state with
        iboSizesInTriangles := (run w s0 cs).state.iboSizesInTriangles.touch h 0 } h 0 shader
    exact ⟨s1, _, htr, by simp⟩

/-- The lemma above at a concrete run: create an array, delete it, draw it. -/
theorem deleted_handle_calls_witness :
    (run 32 State.init [createCall]).state.nextArrayRef < 2 ^ 32 ∧
      1 ∉ (run 32 (run 32 State.init [createCall]).state
            [.DeleteVertexArray 1, .DrawArrayDefault 1 Table.empty]).handles ∧
      0 + 1 < UINT ∧
      SetVertexData (run 32 (run 32 State.init [createCall]).state
            [.DeleteVertexArray 1, .DrawArrayDefault 1 Table.empty]).state 1 1 0 1
        = .error .assertion ∧
      SetIndexData (run 32 (run 32 State.init [createCall]).state
            [.DeleteVertexArray 1, .DrawArrayDefault 1 Table.empty]).state 1 1 0 1
        = .error .assertion :=
  ⟨by decide, by decide, by decide,
    (deleted_handle_calls 32 (run 32 State.init [createCall]).state 1
      [.DrawArrayDefault 1 Table.empty] 1 0 1 2 Table.empty
      (by decide) (by decide) (by decide)).1,
    (deleted_handle_calls 32 (run 32 State.init [createCall]).state 1
      [.DrawArrayDefault 1 Table.empty] 1 0 1 2 Table.empty
      (by decide) (by decide) (by decide)).2.1⟩

/-- C10: the code does not reject every call on a deleted handle.  After
`CreateVertexArray` (returning 1) and `DeleteVertexArray(1)`, the call
`DrawArray(1, 2)` returns and issues `glDrawElements` for 6 indices with no
buffer bound, and a second `DeleteVertexArray(1)` returns and issues
`glDeleteBuffers`: the run ends without a fault.  `SetVertexData` and
`SetIndexData` reject the handle through their capacity assertion and
`DeleteTexture` checks liveness; `DrawArray` and `DeleteVertexArray` make no
check. -/
theorem deleted_handle_accepted :
    (run 32 State.init
        [createCall, .DeleteVertexArray 1, .DrawArray 1 2 Table.empty,
          .DeleteVertexArray 1]).handles = [1] ∧
      (run 32 State.init
        [createCall, .DeleteVertexArray 1, .DrawArray 1 2 Table.empty,
          .DeleteVertexArray 1]).fault = none ∧
      (run 32 State.init
        [createCall, .DeleteVertexArray 1, .DrawArray 1 2 Table.empty,
          .DeleteVertexArray 1]).trace
        = [.glGenBuffers 10, .glBindBuffer .GL_ARRAY_BUFFER 10,
            .glBufferData .GL_ARRAY_BUFFER 4 false, .glGenBuffers 11,
            .glBindBuffer .GL_ELEMENT_ARRAY_BUFFER 11,
            .glBufferData .GL_ELEMENT_ARRAY_BUFFER 12 false,
            .glDeleteBuffers 10, .glDeleteBuffers 11,
            .glDrawElements 6,
            .glDeleteBuffers 0, .glDeleteBuffers 0] := by
  decide

/-! ## CreateVertexArray with a zero capacity -/

theorem CreateVertexArrayStopped_agrees (w : Nat) (s : State) (dv di : Bool)
    (mv mt : Nat) (layout : List (HashName × ShaderDataType)) (vbo ibo : Nat) :
    (∀ f s1 tr, CreateVertexArrayStopped w s dv di mv mt layout vbo ibo = (some f, s1, tr) →
        CreateVertexArray w s dv di mv mt layout vbo ibo = .error f) ∧
      (∀ s1 tr, CreateVertexArrayStopped w s dv di mv mt layout vbo ibo = (none, s1, tr) →
        ∃ h, CreateVertexArray w s dv di mv mt layout vbo ibo = .ok (h, s1, tr)) := by
  unfold CreateVertexArrayStopped CreateVertexArray
  by_cases h1 : mv = 0
  · rw [if_pos h1, if_pos h1]
    refine ⟨fun f s1 tr h => ?_, fun s1 tr h => ?_⟩
    · simp only [Prod.mk.injEq, Option.some.injEq] at h
      rw [← h.1]
    · simp at h
  · rw [if_neg h1, if_neg h1]
    by_cases h2 : mt = 0
    · rw [if_pos h2, if_pos h2]
      refine ⟨fun f s1 tr h => ?_, fun s1 tr h => ?_⟩
      · simp only [Prod.mk.injEq, Option.some.injEq] at h
        rw [← h.1]
      · simp at h
    · rw [if_neg h2, if_neg h2]
      cases layout with
      | nil =>
        refine ⟨fun f s1 tr h => ?_, fun s1 tr h => ?_⟩
        · simp only [Prod.mk.injEq, Option.some.injEq] at h
          rw [← h.1]
        · simp at h
      | cons first rest =>
        refine ⟨fun f s1 tr h => ?_, fun s1 tr h => ?_⟩
        · simp at h
        · simp only [Prod.mk.injEq, true_and] at h
          obtain ⟨rfl, rfl⟩ := h
          exact ⟨_, rfl⟩

/-- A fault behind the first table writes keeps them: on an empty layout with
non-zero capacities the call stops at the read of the first attribute, with
both capacities and the stride 0 stored under the key `nextArrayRef`. -/
theorem CreateVertexArrayStopped_empty_layout (w : Nat) (s : State) (dv di : Bool)
    (mv mt : Nat) (vbo ibo : Nat) (h1 : mv ≠ 0) (h2 : mt ≠ 0) :
    CreateVertexArrayStopped w s dv di mv mt [] vbo ibo
        = (some .readPastEnd, layoutStart s mv mt, []) ∧
      (layoutStart s mv mt).vboSizes s.nextArrayRef = some (mv % UINT) ∧
      (layoutStart s mv mt).iboSizesInTriangles s.nextArrayRef = some (mt % UINT) ∧
      (layoutStart s mv mt).vertexStrides s.nextArrayRef = some 0 ∧
      layoutStart State.init 1 1 ≠ State.init := by
  refine ⟨?_, ?_, ?_, ?_, ?_⟩
  · unfold CreateVertexArrayStopped
    rw [if_neg h1, if_neg h2]
    rfl
  · simp [layoutStart, Table.set]
  · simp [layoutStart, Table.set]
  · simp [layoutStart, Table.set]
  · intro h
    have hk := congrArg (fun t => t.vertexStrides 1) h
    simp [layoutStart, Table.set, State.init, Table.empty] at hk

/-- C11: `CreateVertexArray` with `maxVertices = 0`, or with `maxTriangles = 0`,
fails by assertion for every state, layout and pair of backend names, and the
call stops in the state it was entered in, with no backend call issued: no
metadata table, nor the handle counter, nor the record of the active array has
been written when the assertion fails.  (A call that faults later, on an empty
layout, stops with three tables written: `CreateVertexArrayStopped_empty_layout`.) -/
theorem CreateVertexArray_zero_capacity (w : Nat) (s : State) (dv di : Bool)
    (mv mt : Nat) (layout : List (HashName × ShaderDataType)) (vbo ibo : Nat) :
    CreateVertexArray w s dv di 0 mt layout vbo ibo = .error .assertion ∧
      CreateVertexArray w s dv di mv 0 layout vbo ibo = .error .assertion ∧
      CreateVertexArrayStopped w s dv di 0 mt layout vbo ibo = (some .assertion, s, []) ∧
      CreateVertexArrayStopped w s dv di mv 0 layout vbo ibo = (some .assertion, s, []) ∧
      (run w s [.CreateVertexArray dv di 0 mt layout vbo ibo]).fault = some .assertion ∧
      (run w s [.CreateVertexArray dv di mv 0 layout vbo ibo]).fault = some .assertion := by
  have h1 : CreateVertexArray w s dv di 0 mt layout vbo ibo = .error .assertion := by
    unfold CreateVertexArray
    rw [if_pos rfl]
  have h2 : CreateVertexArray w s dv di mv 0 layout vbo ibo = .error .assertion := by
    unfold CreateVertexArray
    by_cases h : mv = 0
    · rw [if_pos h]
    · rw [if_neg h, if_pos rfl]
  have k1 : CreateVertexArrayStopped w s dv di 0 mt layout vbo ibo
      = (some .assertion, s, []) := by
    unfold CreateVertexArrayStopped
    rw [if_pos rfl]
  have k2 : CreateVertexArrayStopped w s dv di mv 0 layout vbo ibo
      = (some .assertion, s, []) := by
    unfold CreateVertexArrayStopped
    by_cases h : mv = 0
    · rw [if_pos h]
    · rw [if_neg h, if_pos rfl]
  have e1 : step w s (.CreateVertexArray dv di 0 mt layout vbo ibo) = .error .assertion := by
    simp only [step, h1]
  have e2 : step w s (.CreateVertexArray dv di mv 0 layout vbo ibo) = .error .assertion := by
    simp only [step, h2]
  rw [run_cons_error [] e1, run_cons_error [] e2]
  exact ⟨h1, h2, k1, k2, rfl, rfl⟩

/-! ## The quad-batch index buffer -/

theorem quadStep_apply (b : Nat → Nat) (i p : Nat) (hi : 6 * i + 5 < UINT) :
    quadStep b i p
      = if p = 6 * i + 5 then 4 * i
        else if p = 6 * i + 4 then 4 * i + 3
        else if p = 6 * i + 3 then 4 * i + 2
        else if p = 6 * i + 2 then 4 * i + 2
        else if p = 6 * i + 1 then 4 * i + 1
        else if p = 6 * i then 4 * i
        else b p := by
  have m0 : (i * 6) % UINT = 6 * i := by rw [Nat.mod_eq_of_lt (by omega)]; omega
  have m1 : (i * 6 + 1) % UINT = 6 * i + 1 := by rw [Nat.mod_eq_of_lt (by omega)]; omega
  have m2 : (i * 6 + 2) % UINT = 6 * i + 2 := by rw [Nat.mod_eq_of_lt (by omega)]; omega
  have m3 : (i * 6 + 3) % UINT = 6 * i + 3 := by rw [Nat.mod_eq_of_lt (by omega)]; omega
  have m4 : (i * 6 + 4) % UINT = 6 * i + 4 := by rw [Nat.mod_eq_of_lt (by omega)]; omega
  have m5 : (i * 6 + 5) % UINT = 6 * i + 5 := by rw [Nat.mod_eq_of_lt (by omega)]; omega
  have v0 : (4 * i) % UINT = 4 * i := Nat.mod_eq_of_lt (by omega)
  have v1 : (4 * i + 1) % UINT = 4 * i + 1 := Nat.mod_eq_of_lt (by omega)
  have v2 : (4 * i + 2) % UINT = 4 * i + 2 := Nat.mod_eq_of_lt (by omega)
  have v3 : (4 * i + 3) % UINT = 4 * i + 3 := Nat.mod_eq_of_lt (by omega)
  simp only [quadStep, writeIndex, m0, m1, m2, m3, m4, m5, v0, v1, v2, v3]

/-- The first `n` iterations of the loop: the quads below `n` are written, the
positions from `6 * n` on are as the array was allocated. -/
theorem quadLoop_prefix (fresh : Nat → Nat) :
    ∀ n, 6 * n ≤ UINT →
      (∀ i, i < n →
        (List.range n).foldl quadStep fresh (6 * i) = 4 * i ∧
        (List.range n).foldl quadStep fresh (6 * i + 1) = 4 * i + 1 ∧
        (List.range n).foldl quadStep fresh (6 * i + 2) = 4 * i + 2 ∧
        (List.range n).foldl quadStep fresh (6 * i + 3) = 4 * i + 2 ∧
        (List.range n).foldl quadStep fresh (6 * i + 4) = 4 * i + 3 ∧
        (List.range n).foldl quadStep fresh (6 * i + 5) = 4 * i) ∧
      ∀ p, 6 * n ≤ p → (List.range n).foldl quadStep fresh p = fresh p := by
  intro n
  induction n with
  | zero =>
    intro _
    exact ⟨fun i hi => absurd hi (Nat.not_lt_zero i), fun p _ => rfl⟩
  | succ n ih =>
    intro hn
    obtain ⟨ih1, ih2⟩ := ih (by omega)
    have hlt : 6 * n + 5 < UINT := by omega
    rw [List.range_succ, List.foldl_append]
    simp only [List.foldl_cons, List.foldl_nil]
    constructor
    · intro i hi
      by_cases hin : i = n
      · subst hin
        simp only [quadStep_apply _ _ _ hlt]
        refine ⟨?_, ?_, ?_, ?_, ?_, ?_⟩ <;> simp
      · have hi' : i < n := by omega
        obtain ⟨a0, a1, a2, a3, a4, a5⟩ := ih1 i hi'
        simp only [quadStep_apply _ _ _ hlt]
        refine ⟨?_, ?_, ?_, ?_, ?_, ?_⟩
        · rw [if_neg (by omega), if_neg (by omega), if_neg (by omega), if_neg (by omega),
            if_neg (by omega), if_neg (by omega)]; exact a0
        · rw [if_neg (by omega), if_neg (by omega), if_neg (by omega), if_neg (by omega),
            if_neg (by omega), if_neg (by omega)]; exact a1
        · rw [if_neg (by omega), if_neg (by omega), if_neg (by omega), if_neg (by omega),
            if_neg (by omega), if_neg (by omega)]; exact a2
        · rw [if_neg (by omega), if_neg (by omega), if_neg (by omega), if_neg (by omega),
            if_neg (by omega), if_neg (by omega)]; exact a3
        · rw [if_neg (by omega), if_neg (by omega), if_neg (by omega), if_neg (by omega),
            if_neg (by omega), if_neg (by omega)]; exact a4
        · rw [if_neg (by omega), if_neg (by omega), if_neg (by omega), if_neg (by omega),
            if_neg (by omega), if_neg (by omega)]; exact a5
    · intro p hp
      rw [quadStep_apply _ _ _ hlt, if_neg (by omega), if_neg (by omega), if_neg (by omega),
        if_neg (by omega), if_neg (by omega), if_neg (by omega)]
      exact ih2 p (by omega)

/-- C12: for every quad `i` below `QuadBatch_MaxQuads`, the six entries at the
positions `6 * i .. 6 * i + 5` of the index buffer that `Graphics::Init` builds
are `4 * i, 4 * i + 1, 4 * i + 2, 4 * i + 2, 4 * i + 3, 4 * i`, and every entry
of the buffer is below `4 * QuadBatch_MaxQuads`.  The constant is declared
outside the sources: it is the parameter `maxQuads`, taken such that the
`6 * maxQuads` positions of the buffer are values of the loop's
`unsigned int` counter arithmetic. -/
theorem quadbatchindices_pattern (maxQuads : Nat) (fresh : Nat → Nat)
    (hmax : 6 * maxQuads ≤ UINT) (i : Nat) (hi : i < maxQuads) :
    quadbatchindices maxQuads fresh (6 * i) = 4 * i ∧
      quadbatchindices maxQuads fresh (6 * i + 1) = 4 * i + 1 ∧
      quadbatchindices maxQuads fresh (6 * i + 2) = 4 * i + 2 ∧
      quadbatchindices maxQuads fresh (6 * i + 3) = 4 * i + 2 ∧
      quadbatchindices maxQuads fresh (6 * i + 4) = 4 * i + 3 ∧
      quadbatchindices maxQuads fresh (6 * i + 5) = 4 * i ∧
      ∀ p, p < 6 * maxQuads → quadbatchindices maxQuads fresh p < 4 * maxQuads := by
  obtain ⟨h1, -⟩ := quadLoop_prefix fresh maxQuads hmax
  obtain ⟨a0, a1, a2, a3, a4, a5⟩ := h1 i hi
  refine ⟨a0, a1, a2, a3, a4, a5, ?_⟩
  intro p hp
  obtain ⟨b0, b1, b2, b3, b4, b5⟩ := h1 (p / 6) (by omega)
  unfold quadbatchindices
  have hp6 : p % 6 = 0 ∨ p % 6 = 1 ∨ p % 6 = 2 ∨ p % 6 = 3 ∨ p % 6 = 4 ∨ p % 6 = 5 := by
    omega
  rcases hp6 with h | h | h | h | h | h
  · have e : p = 6 * (p / 6) := by omega
    rw [e, b0]; omega
  · have e : p = 6 * (p / 6) + 1 := by omega
    rw [e, b1]; omega
  · have e : p = 6 * (p / 6) + 2 := by omega
    rw [e, b2]; omega
  · have e : p = 6 * (p / 6) + 3 := by omega
    rw [e, b3]; omega
  · have e : p = 6 * (p / 6) + 4 := by omega
    rw [e, b4]; omega
  · have e : p = 6 * (p / 6) + 5 := by omega
    rw [e, b5]; omega

/-- C12 at a concrete size: a batch of 3 quads, quad number 2. -/
theorem quadbatchindices_pattern_witness :
    6 * 3 ≤ UINT ∧ 2 < 3 ∧
      (List.range 18).map (quadbatchindices 3 (fun _ => 0))
        = [0, 1, 2, 2, 3, 0, 4, 5, 6, 6, 7, 4, 8, 9, 10, 10, 11, 8] ∧
      quadbatchindices 3 (fun _ => 0) (6 * 2) = 4 * 2 ∧
      ∀ p, p < 6 * 3 → quadbatchindices 3 (fun _ => 0) p < 4 * 3 :=
  ⟨by decide, by decide, by decide,
    (quadbatchindices_pattern 3 (fun _ => 0) (by decide) 2 (by decide)).1,
    (quadbatchindices_pattern 3 (fun _ => 0) (by decide) 2 (by decide)).2.2.2.2.2.2⟩

/-! ## The end-to-end scenario -/

theorem first_handle (w : Nat) (hw : 0 < w) :
    ((1 + 1) % 2 ^ w + (2 ^ w - 1)) % 2 ^ w = 1 := by
  rw [handle_arith _ _ (Nat.pos_pow_of_pos w (by decide))]
  exact Nat.mod_eq_of_lt (Nat.one_lt_two_pow (by omega))

/-- The four calls of the scenario, from the start-up state, and everything
they pass to the backend. -/
theorem square_scenario_trace (w : Nat) (hw : 0 < w) (dv di : Bool)
    (pos vbo ibo data indices : Nat) (hdata : data ≠ 0) (hind : indices ≠ 0) :
    ∃ h s1 tr1 s2 tr2 s3 tr3 s4 tr4,
      CreateVertexArray w State.init dv di 4 2 [(pos, .Float2)] vbo ibo = .ok (h, s1, tr1) ∧
      SetVertexData s1 h data 0 4 = .ok (s2, tr2) ∧
      SetIndexData s2 h indices 0 6 = .ok (s3, tr3) ∧
      DrawArrayDefault s3 h (Table.empty.set pos 0) = .ok (s4, tr4) ∧
      tr1 ++ tr2 ++ tr3 ++ tr4
        = [.glGenBuffers vbo, .glBindBuffer .GL_ARRAY_BUFFER vbo,
            .glBufferData .GL_ARRAY_BUFFER 32 dv, .glGenBuffers ibo,
            .glBindBuffer .GL_ELEMENT_ARRAY_BUFFER ibo,
            .glBufferData .GL_ELEMENT_ARRAY_BUFFER 24 di,
            .glBufferSubData .GL_ARRAY_BUFFER 0 32,
            .glBufferSubData .GL_ELEMENT_ARRAY_BUFFER 0 24,
            .glEnableVertexAttribArray 0,
            .glVertexAttribPointer 0 2 GL_FLOAT 8 0,
            .glDrawElements 6] :=
  ⟨1, _, _, _, _, _, _, _, _,
    by
      unfold CreateVertexArray
      rw [if_neg (by decide), if_neg (by decide)]
      show Except.ok (((1 + 1) % 2 ^ w + (2 ^ w - 1)) % 2 ^ w, _, _) = _
      rw [first_handle w hw],
    by
      unfold SetVertexData
      rw [if_neg hdata, if_neg (by decide), if_neg (by
        simp [layoutLoop, layoutStep, layoutStart, Table.read, Table.set, State.init, UINT])],
    by
      unfold SetIndexData
      rw [if_neg hind, if_neg (by decide), if_neg (by
        simp [bindArray, layoutLoop, layoutStep, layoutStart, Table.read, Table.set,
          Table.touch, State.init, UINT])],
    by
      unfold DrawArrayDefault DrawArray
      rfl,
    by
      simp [bindArray, layoutLoop, layoutStep, layoutStart, Table.read, Table.set, Table.touch,
        State.init, UINT, U64, addPadding, getAttributeTypeInfo, attributeLoop, Table.empty,
        touchNames, Table.set2, Table.read2, Table.count, BIT, disableLoop, GL_FLOAT,
        touchAttribute]⟩

/-- C13: from the start-up state, creating an array with capacity 4 vertices
and 2 triangles and the layout `[(pos, Float2)]`, writing 4 vertices from 0,
writing 6 indices from 0 and drawing it under a shader that exposes `pos` at
slot 0 is accepted at every step.  In total each of the two buffers of the
array is bound once (by `CreateVertexArray`; the three later calls find the
array recorded as active and bind nothing), slot 0 is enabled once, no slot is
disabled, and there is one draw call, for 6 indices. -/
theorem square_scenario (w : Nat) (hw : 0 < w) (dv di : Bool)
    (pos vbo ibo data indices : Nat) (hdata : data ≠ 0) (hind : indices ≠ 0) :
    ∃ h s1 tr1 s2 tr2 s3 tr3 s4 tr4,
      CreateVertexArray w State.init dv di 4 2 [(pos, .Float2)] vbo ibo = .ok (h, s1, tr1) ∧
      SetVertexData s1 h data 0 4 = .ok (s2, tr2) ∧
      SetIndexData s2 h indices 0 6 = .ok (s3, tr3) ∧
      DrawArrayDefault s3 h (Table.empty.set pos 0) = .ok (s4, tr4) ∧
      bindCalls (tr1 ++ tr2 ++ tr3 ++ tr4)
        = [(.GL_ARRAY_BUFFER, vbo), (.GL_ELEMENT_ARRAY_BUFFER, ibo)] ∧
      bindCalls (tr2 ++ tr3 ++ tr4) = [] ∧
      enableCalls (tr1 ++ tr2 ++ tr3 ++ tr4) = [0] ∧
      disableCalls (tr1 ++ tr2 ++ tr3 ++ tr4) = [] ∧
      drawCalls (tr1 ++ tr2 ++ tr3 ++ tr4) = [6] := by
  obtain ⟨h, s1, tr1, s2, tr2, s3, tr3, s4, tr4, h1, h2, h3, h4, htr⟩ :=
    square_scenario_trace w hw dv di pos vbo ibo data indices hdata hind
  refine ⟨h, s1, tr1, s2, tr2, s3, tr3, s4, tr4, h1, h2, h3, h4, ?_, ?_, ?_, ?_, ?_⟩
  · rw [htr]; rfl
  · have hb : bindCalls (tr1 ++ tr2 ++ tr3 ++ tr4)
        = [(.GL_ARRAY_BUFFER, vbo), (.GL_ELEMENT_ARRAY_BUFFER, ibo)] := by rw [htr]; rfl
    have h1' := h1
    unfold CreateVertexArray at h1'
    rw [if_neg (by decide), if_neg (by decide)] at h1'
    simp only [Except.ok.injEq, Prod.mk.injEq] at h1'
    obtain ⟨-, -, rfl⟩ := h1'
    have hsplit : bindCalls
        ([GLCall.glGenBuffers vbo, .glBindBuffer .GL_ARRAY_BUFFER vbo,
          .glBufferData .GL_ARRAY_BUFFER
            ((addPadding ((layoutLoop State.init.nextArrayRef (layoutStart State.init 4 2)
              [(pos, ShaderDataType.Float2)]).vertexStrides.read State.init.nextArrayRef 0)
              (getAttributeTypeInfo (pos, ShaderDataType.Float2).2).typeSize * 4) % U64) dv,
          .glGenBuffers ibo, .glBindBuffer .GL_ELEMENT_ARRAY_BUFFER ibo,
          .glBufferData .GL_ELEMENT_ARRAY_BUFFER ((4 * 3 * 2) % U64) di]
          ++ (tr2 ++ tr3 ++ tr4))
        = [(.GL_ARRAY_BUFFER, vbo), (.GL_ELEMENT_ARRAY_BUFFER, ibo)]
          ++ bindCalls (tr2 ++ tr3 ++ tr4) := rfl
    rw [List.append_assoc, List.append_assoc, ← List.append_assoc tr2, hsplit] at hb
    exact List.append_cancel_left (hb.trans (List.append_nil _).symm)
  · rw [htr]; rfl
  · rw [htr]; rfl
  · rw [htr]; rfl

/-- C13 at concrete values: 32-bit handles, `pos` hashed to 1, buffers 10 and 11. -/
theorem square_scenario_witness :
    0 < 32 ∧ (7 : Nat) ≠ 0 ∧ (8 : Nat) ≠ 0 ∧
    ∃ h s1 tr1 s2 tr2 s3 tr3 s4 tr4,
      CreateVertexArray 32 State.init false false 4 2 [(1, .Float2)] 10 11
        = .ok (h, s1, tr1) ∧
      SetVertexData s1 h 7 0 4 = .ok (s2, tr2) ∧
      SetIndexData s2 h 8 0 6 = .ok (s3, tr3) ∧
      DrawArrayDefault s3 h (Table.empty.set 1 0) = .ok (s4, tr4) ∧
      bindCalls (tr1 ++ tr2 ++ tr3 ++ tr4)
        = [(.GL_ARRAY_BUFFER, 10), (.GL_ELEMENT_ARRAY_BUFFER, 11)] ∧
      bindCalls (tr2 ++ tr3 ++ tr4) = [] ∧
      enableCalls (tr1 ++ tr2 ++ tr3 ++ tr4) = [0] ∧
      disableCalls (tr1 ++ tr2 ++ tr3 ++ tr4) = [] ∧
      drawCalls (tr1 ++ tr2 ++ tr3 ++ tr4) = [6] :=
  ⟨by decide, by decide, by decide,
    square_scenario 32 (by decide) false false 1 10 11 7 8 (by decide) (by decide)⟩

/-! ## Textures: which deletes pass -/

theorem returnedAndNotDeleted_cons (c : TextureCall) (rest : List TextureCall) (t : Nat) :
    ReturnedAndNotDeleted (c :: rest) t ↔
      ((∃ path width height, c = .LoadTexture path width height t) ∧
          TextureCall.DeleteTexture t ∉ rest) ∨
        ReturnedAndNotDeleted rest t := by
  constructor
  · rintro ⟨pre, post, path, width, height, heq, hnd⟩
    cases pre with
    | nil =>
      simp only [List.nil_append, List.cons.injEq] at heq
      obtain ⟨rfl, rfl⟩ := heq
      exact Or.inl ⟨⟨path, width, height, rfl⟩, hnd⟩
    | cons x pre1 =>
      simp only [List.cons_append, List.cons.injEq] at heq
      exact Or.inr ⟨pre1, post, path, width, height, heq.2, hnd⟩
  · rintro (⟨⟨path, width, height, rfl⟩, hnd⟩ | ⟨pre, post, path, width, height, heq, hnd⟩)
    · exact ⟨[], rest, path, width, height, rfl, hnd⟩
    · exact ⟨c :: pre, post, path, width, height, by rw [heq]; rfl, hnd⟩

theorem returnedAndNotDeleted_nil (t : Nat) : ¬ ReturnedAndNotDeleted [] t := by
  rintro ⟨pre, post, path, width, height, heq, -⟩
  cases pre <;> cases heq

theorem DeleteTexture_ok_iff (s : TextureState) (t : Nat) :
    (∃ s1 tr, DeleteTexture s t = .ok (s1, tr)) ↔ t ≠ 0 ∧ s.isTexRefInUse.count t ≠ 0 := by
  unfold DeleteTexture
  by_cases h0 : t = 0
  · rw [if_pos h0]; simp [h0]
  · rw [if_neg h0]
    by_cases hc : s.isTexRefInUse.count t = 0
    · rw [if_pos hc]; simp [hc]
    · rw [if_neg hc]; simp [h0, hc]

theorem DeleteTexture_error (s : TextureState) (t : Nat)
    (h : ¬ (t ≠ 0 ∧ s.isTexRefInUse.count t ≠ 0)) : DeleteTexture s t = .error .assertion := by
  unfold DeleteTexture
  by_cases h0 : t = 0
  · rw [if_pos h0]
  · rw [if_neg h0]
    by_cases hc : s.isTexRefInUse.count t = 0
    · rw [if_pos hc]
    · exact absurd ⟨h0, hc⟩ h

theorem Table.count_set {α : Type} (m : Table α) (k j : Nat) (v : α) :
    (m.set k v).count j ≠ 0 ↔ j = k ∨ m.count j ≠ 0 := by
  by_cases h : j = k <;> simp [Table.count, Table.set, h]

theorem Table.count_erase {α : Type} (m : Table α) (k j : Nat) :
    (m.erase k).count j ≠ 0 ↔ j ≠ k ∧ m.count j ≠ 0 := by
  by_cases h : j = k <;> simp [Table.count, Table.erase, h]

/-- After a run without a failing assertion, the handles in the table are
those returned by a load with no later delete, and those that were in the
table at the start and have not been deleted. -/
theorem textureRun_inUse :
    ∀ (calls : List TextureCall) (s0 s : TextureState), textureRun s0 calls = .ok s →
      ∀ t, s.isTexRefInUse.count t ≠ 0 ↔
        ReturnedAndNotDeleted calls t ∨
          (s0.isTexRefInUse.count t ≠ 0 ∧ TextureCall.DeleteTexture t ∉ calls) := by
  intro calls
  induction calls with
  | nil =>
    intro s0 s hrun t
    simp only [textureRun, Except.ok.injEq] at hrun
    subst hrun
    simp [returnedAndNotDeleted_nil]
  | cons c rest ih =>
    intro s0 s hrun t
    cases c with
    | LoadTexture path width height texture =>
      simp only [textureRun] at hrun
      rw [ih _ _ hrun t, returnedAndNotDeleted_cons]
      simp only [LoadTexture, Table.count_set, TextureCall.LoadTexture.injEq, List.mem_cons,
        reduceCtorEq, false_or]
      constructor
      · rintro (h | ⟨rfl | h, hnd⟩)
        · exact Or.inl (Or.inr h)
        · exact Or.inl (Or.inl ⟨⟨path, width, height, rfl, rfl, rfl, rfl⟩, hnd⟩)
        · exact Or.inr ⟨h, hnd⟩
      · rintro ((⟨⟨_, _, _, -, -, -, rfl⟩, hnd⟩ | h) | ⟨h, hnd⟩)
        · exact Or.inr ⟨Or.inl rfl, hnd⟩
        · exact Or.inl h
        · exact Or.inr ⟨Or.inr h, hnd⟩
    | DeleteTexture texture =>
      simp only [textureRun] at hrun
      cases hd : DeleteTexture s0 texture with
      | error f => rw [hd] at hrun; cases hrun
      | ok r =>
        obtain ⟨s1, tr⟩ := r
        rw [hd] at hrun
        have hs1 : s1.isTexRefInUse = s0.isTexRefInUse.erase texture := by
          unfold DeleteTexture at hd
          split_ifs at hd
          simp only [Except.ok.injEq, Prod.mk.injEq] at hd
          rw [← hd.1]
        rw [ih _ _ hrun t, returnedAndNotDeleted_cons, hs1, Table.count_erase]
        simp only [reduceCtorEq, exists_false, false_and, false_or, List.mem_cons,
          TextureCall.DeleteTexture.injEq, not_or]
        constructor
        · rintro (h | ⟨⟨hne, h⟩, hnd⟩)
          · exact Or.inl h
          · exact Or.inr ⟨h, hne, hnd⟩
        · rintro (h | ⟨h, hne, hnd⟩)
          · exact Or.inl h
          · exact Or.inr ⟨⟨hne, h⟩, hnd⟩

theorem returnedAndNotDeleted_mem {calls : List TextureCall} {t : Nat}
    (h : ReturnedAndNotDeleted calls t) :
    ∃ path width height, TextureCall.LoadTexture path width height t ∈ calls := by
  obtain ⟨pre, post, path, width, height, heq, -⟩ := h
  exact ⟨path, width, height, by rw [heq]; simp⟩

/-- C14: in a build that keeps `isTexRefInUse`, after any sequence of
`LoadTexture` and `DeleteTexture` calls that ran from start-up without a
failing assertion, `DeleteTexture t` passes its assertions exactly when `t` is
non-zero and was returned by a `LoadTexture` with no `DeleteTexture t` after
it, and fails an assertion otherwise.  In particular a second
`DeleteTexture t`, with no `LoadTexture` returning `t` since the first, fails,
and so does the delete of a handle that no `LoadTexture` has returned. -/
theorem DeleteTexture_passes_iff (calls : List TextureCall) (s : TextureState)
    (hrun : textureRun TextureState.init calls = .ok s) (t : Nat) :
    ((∃ s1 tr, DeleteTexture s t = .ok (s1, tr)) ↔
        t ≠ 0 ∧ ReturnedAndNotDeleted calls t) ∧
      (¬ (t ≠ 0 ∧ ReturnedAndNotDeleted calls t) → DeleteTexture s t = .error .assertion) ∧
      (∀ mid s2, textureRun s (.DeleteTexture t :: mid) = .ok s2 →
        (∀ path width height, TextureCall.LoadTexture path width height t ∉ mid) →
        DeleteTexture s2 t = .error .assertion) ∧
      ((∀ path width height, TextureCall.LoadTexture path width height t ∉ calls) →
        DeleteTexture s t = .error .assertion) := by
  have hin : s.isTexRefInUse.count t ≠ 0 ↔ ReturnedAndNotDeleted calls t := by
    rw [textureRun_inUse calls _ s hrun t]
    simp [TextureState.init, Table.count, Table.empty]
  refine ⟨?_, ?_, ?_, ?_⟩
  · rw [DeleteTexture_ok_iff, hin]
  · intro h
    exact DeleteTexture_error s t (by rw [hin]; exact h)
  · intro mid s2 hmid hno
    apply DeleteTexture_error
    rintro ⟨-, hc⟩
    rw [textureRun_inUse _ _ _ hmid t, returnedAndNotDeleted_cons] at hc
    rcases hc with (⟨⟨_, _, _, hl⟩, -⟩ | hr) | ⟨-, hnd⟩
    · cases hl
    · obtain ⟨path, width, height, hm⟩ := returnedAndNotDeleted_mem hr
      exact hno path width height hm
    · exact hnd (List.mem_cons_self _ _)
  · intro hno
    apply DeleteTexture_error
    rintro ⟨-, hc⟩
    obtain ⟨path, width, height, hm⟩ := returnedAndNotDeleted_mem (hin.mp hc)
    exact hno path width height hm

/-- C14 on a run that loads handle 7, deletes it and gets 7 back from a second
load: deleting 7 passes, deleting 8 (never returned) fails. -/
theorem DeleteTexture_passes_iff_witness :
    textureRun TextureState.init
        [.LoadTexture "a.png" 2 2 7, .DeleteTexture 7, .LoadTexture "b.png" 4 4 7]
      = .ok ⟨((Table.empty.set 7 true).erase 7).set 7 true⟩ ∧
    (∃ s1 tr, DeleteTexture ⟨((Table.empty.set 7 true).erase 7).set 7 true⟩ 7 = .ok (s1, tr)) ∧
    DeleteTexture ⟨((Table.empty.set 7 true).erase 7).set 7 true⟩ 8 = .error .assertion :=
  ⟨rfl,
    (DeleteTexture_passes_iff
      [.LoadTexture "a.png" 2 2 7, .DeleteTexture 7, .LoadTexture "b.png" 4 4 7]
      ⟨((Table.empty.set 7 true).erase 7).set 7 true⟩ rfl 7).1.mpr
      ⟨by decide,
        [.LoadTexture "a.png" 2 2 7, .DeleteTexture 7], [], "b.png", 4, 4, rfl,
        List.not_mem_nil _⟩,
    (DeleteTexture_passes_iff
      [.LoadTexture "a.png" 2 2 7, .DeleteTexture 7, .LoadTexture "b.png" 4 4 7]
      ⟨((Table.empty.set 7 true).erase 7).set 7 true⟩ rfl 8).2.2.2
      (by intro path width height hm; simp at hm)⟩

/-! ## The layout pass against the specified algorithm -/

theorem nextMultiple_of_dvd (x : Nat) (h : 4 ∣ x) : nextMultiple x 4 = x := by
  unfold nextMultiple
  omega

theorem specEnd_eq :
    ∀ (layout : List (HashName × ShaderDataType)) (x : Nat), 4 ∣ x →
      specEnd x layout = x + layoutBytes layout ∧ 4 ∣ specEnd x layout := by
  intro layout
  induction layout with
  | nil => intro x h; simp [specEnd, layoutBytes, h]
  | cons a rest ih =>
    intro x h
    have hb : layoutBytes (a :: rest) = attributeBytes a.2 + layoutBytes rest := by
      simp [layoutBytes]
    have h4 : 4 ∣ x + attributeBytes a.2 := by rw [attributeBytes_eq]; omega
    obtain ⟨i1, i2⟩ := ih _ h4
    simp only [specEnd, typeSize_eq, nextMultiple_of_dvd x h]
    exact ⟨by rw [i1, hb]; omega, i2⟩

theorem specStride_eq (layout : List (HashName × ShaderDataType)) :
    specStride layout = layoutBytes layout := by
  obtain ⟨e1, e2⟩ := specEnd_eq layout 0 (Nat.dvd_zero 4)
  cases layout with
  | nil => rfl
  | cons first rest =>
    simp only [specStride, typeSize_eq]
    rw [nextMultiple_of_dvd _ e2, e1, Nat.zero_add]

/-- The layout pass while the running stride stays below `2 ^ 32` and names
are distinct: the offsets recorded are those of the specified algorithm. -/
theorem layoutLoop_refines (r : ArrayRef) :
    ∀ (layout : List (HashName × ShaderDataType)) (s : State),
      (layout.map Prod.fst).Nodup →
      s.vertexStrides.read r 0 + layoutBytes layout < UINT →
      4 ∣ s.vertexStrides.read r 0 →
      recordedOffsets (layoutLoop r s layout) r layout
        = specOffsets (s.vertexStrides.read r 0) layout := by
  intro layout
  induction layout with
  | nil => intro s _ _ _; rfl
  | cons a rest ih =>
    intro s hnd hsum h4
    have hb : layoutBytes (a :: rest) = attributeBytes a.2 + layoutBytes rest := by
      simp [layoutBytes]
    rw [hb] at hsum
    rw [List.map_cons, List.nodup_cons] at hnd
    have hst : (layoutStep r s a).vertexStrides.read r 0
        = s.vertexStrides.read r 0 + attributeBytes a.2 := by
      rw [layoutStep_stride, addPadding_of_dvd _ h4 (by omega)]
      exact Nat.mod_eq_of_lt (by omega)
    have h4s : 4 ∣ (layoutStep r s a).vertexStrides.read r 0 := by
      rw [hst, attributeBytes_eq]; omega
    have hoff : (layoutLoop r (layoutStep r s a) rest).attributeVBOOffsets.read2 r a.1 0
        = s.vertexStrides.read r 0 := by
      rw [layoutLoop_offset_notin _ _ _ _ hnd.1, layoutStep_offset_self]
    have hrest := ih (layoutStep r s a) hnd.2 (by rw [hst]; omega) h4s
    rw [layoutLoop_cons]
    unfold recordedOffsets at hrest ⊢
    simp only [List.map_cons, specOffsets, typeSize_eq, nextMultiple_of_dvd _ h4]
    rw [hoff, hrest, hst]

/-- C15 (amended): for every layout with pairwise distinct attribute names
whose attributes total fewer than `2 ^ 32` bytes, a returning
`CreateVertexArray` (the layout is then non-empty) has recorded, under the key
of the new array, the offsets and the stride of the specified algorithm. -/
theorem CreateVertexArray_refines_spec_layout (w : Nat) (s : State) (dv di : Bool)
    (mv mt : Nat) (layout : List (HashName × ShaderDataType)) (vbo ibo : Nat) (h : Nat)
    (s1 : State) (tr : List GLCall)
    (hc : CreateVertexArray w s dv di mv mt layout vbo ibo = .ok (h, s1, tr))
    (hnd : (layout.map Prod.fst).Nodup)
    (hsum : layoutBytes layout < UINT) :
    layout ≠ [] ∧ h = s.nextArrayRef % 2 ^ w ∧
      recordedOffsets s1 s.nextArrayRef layout = specOffsets 0 layout ∧
      s1.vertexStrides.read s.nextArrayRef 0 = specStride layout := by
  obtain ⟨-, -, hne, hh, -, -, -, -, -, hoff, hstr⟩ := CreateVertexArray_inv hc
  have h0 : (layoutStart s mv mt).vertexStrides.read s.nextArrayRef 0 = 0 := by
    unfold layoutStart; simp only [Table.read_set_self]
  obtain ⟨l1, -, -⟩ := layoutLoop_offsets s.nextArrayRef layout (layoutStart s mv mt) hnd
    (by rw [h0]; omega) (by rw [h0]; exact Nat.dvd_zero 4)
  have hr := layoutLoop_refines s.nextArrayRef layout (layoutStart s mv mt) hnd
    (by rw [h0]; omega) (by rw [h0]; exact Nat.dvd_zero 4)
  obtain ⟨e1, e2⟩ := specEnd_eq layout 0 (Nat.dvd_zero 4)
  refine ⟨hne, ?_, ?_, ?_⟩
  · rw [hh, handle_arith _ _ (Nat.pos_pow_of_pos w (by decide))]
  · unfold recordedOffsets at hr ⊢
    rw [hoff, hr, h0]
  · rw [hstr, l1, h0, specStride_eq, Nat.zero_add]
    rw [e1, Nat.zero_add] at e2
    exact addPadding_of_dvd _ e2 hsum

/-- C15 (amended) on the layout `[(pos, Float3), (uv, Float2)]` with `pos`
hashed to 1 and `uv` to 2: both sides give the offsets 0 and 12 and the
stride 20. -/
theorem CreateVertexArray_refines_spec_layout_witness :
    ∃ h s1 tr,
      CreateVertexArray 32 State.init false false 4 2 [(1, .Float3), (2, .Float2)] 10 11
        = .ok (h, s1, tr) ∧
      ([(1, ShaderDataType.Float3), (2, ShaderDataType.Float2)].map Prod.fst).Nodup ∧
      layoutBytes [(1, .Float3), (2, .Float2)] < UINT ∧
      recordedOffsets s1 1 [(1, .Float3), (2, .Float2)]
        = specOffsets 0 [(1, .Float3), (2, .Float2)] ∧
      s1.vertexStrides.read 1 0 = specStride [(1, .Float3), (2, .Float2)] ∧
      recordedOffsets s1 1 [(1, .Float3), (2, .Float2)] = [0, 12] ∧
      specOffsets 0 [(1, .Float3), (2, .Float2)] = [0, 12] ∧
      s1.vertexStrides.read 1 0 = 20 ∧ specStride [(1, .Float3), (2, .Float2)] = 20 :=
  ⟨_, _, _, rfl, by decide, by decide,
    (CreateVertexArray_refines_spec_layout 32 State.init false false 4 2
      [(1, .Float3), (2, .Float2)] 10 11 _ _ _ rfl (by decide) (by decide)).2.2.1,
    (CreateVertexArray_refines_spec_layout 32 State.init false false 4 2
      [(1, .Float3), (2, .Float2)] 10 11 _ _ _ rfl (by decide) (by decide)).2.2.2,
    rfl, by decide, rfl, by decide⟩

theorem layoutBytes_float4 :
    ∀ (l : List (HashName × ShaderDataType)), (∀ a ∈ l, a.2 = ShaderDataType.Float4) →
      layoutBytes l = 16 * l.length := by
  intro l
  induction l with
  | nil => intro _; rfl
  | cons a rest ih =>
    intro hall
    have hb : layoutBytes (a :: rest) = attributeBytes a.2 + layoutBytes rest := by
      simp [layoutBytes]
    have ha : attributeBytes a.2 = 16 := by
      rw [hall a (List.mem_cons_self _ _)]; rfl
    rw [hb, ha, ih (fun b hb => hall b (List.mem_cons_of_mem _ hb)), List.length_cons]
    omega

theorem float4_layout_stride (l : List (HashName × ShaderDataType)) (s : State)
    (hs : s.vertexStrides.read 1 0 = 0) (hall : ∀ a ∈ l, a.2 = ShaderDataType.Float4) :
    (layoutLoop 1 s l).vertexStrides.read 1 0 = (0 + 16 * l.length) % UINT := by
  rw [layoutLoop_stride_float4 1 l s hall (by rw [hs]; exact Nat.dvd_zero 4)
    (by rw [hs]; decide), hs]

theorem wrapped_stride (n : Nat) (hn : n = 268435455 + 1 + 1) :
    addPadding ((0 + 16 * n) % UINT) 4 = 16 ∧ 16 * n = 4294967312 := by
  subst hn
  constructor
  · unfold addPadding UINT; norm_num
  · norm_num

/-- C15 as stated fails in two ways.  When a name is declared twice the table,
keyed by name, keeps the second offset for both attributes: for
`[(1, Float3), (1, Float2)]` the code records 12 and 12, the specified
algorithm gives 0 and 12.  When the attributes total `2 ^ 32` bytes or more
the `unsigned int` stride wraps: for `2 ^ 28 + 1` attributes of type `Float4`
with distinct names the code records the stride 16, the specified algorithm
gives `2 ^ 32 + 16`. -/
theorem CreateVertexArray_differs_from_spec_layout :
    (∃ h s1 tr,
      CreateVertexArray 32 State.init false false 1 1 [(1, .Float3), (1, .Float2)] 10 11
        = .ok (h, s1, tr) ∧
      recordedOffsets s1 h [(1, .Float3), (1, .Float2)] = [12, 12] ∧
      specOffsets 0 [(1, .Float3), (1, .Float2)] = [0, 12] ∧
      recordedOffsets s1 h [(1, .Float3), (1, .Float2)]
        ≠ specOffsets 0 [(1, .Float3), (1, .Float2)]) ∧
    (∃ h s1 tr,
      CreateVertexArray 32 State.init false false 1 1 wrapLayout 10 11 = .ok (h, s1, tr) ∧
      wrapLayout ≠ [] ∧ (wrapLayout.map Prod.fst).Nodup ∧
      s1.vertexStrides.read h 0 = 16 ∧ specStride wrapLayout = 4294967312 ∧
      s1.vertexStrides.read h 0 ≠ specStride wrapLayout) := by
  constructor
  · exact ⟨_, _, _, rfl, rfl, by decide, by decide⟩
  · have hne : wrapLayout ≠ [] := by
      unfold wrapLayout
      rw [List.range'_1_concat]
      simp
    have hnd : (wrapLayout.map Prod.fst).Nodup := by
      unfold wrapLayout
      rw [List.map_map]
      exact (List.nodup_range' 0 _).map (fun a b h => h)
    have hall : ∀ a ∈ wrapLayout, a.2 = ShaderDataType.Float4 := by
      intro a ha
      unfold wrapLayout at ha
      obtain ⟨i, -, rfl⟩ := List.mem_map.1 ha
      rfl
    have hlen : wrapLayout.length = 268435455 + 1 + 1 := by
      unfold wrapLayout
      rw [List.length_map, List.length_range']
    obtain ⟨h, s1, tr, hc⟩ :=
      CreateVertexArray_ok 32 State.init false false 1 1 wrapLayout 10 11 (by decide)
        (by decide) hne
    obtain ⟨-, -, -, hh, -, -, -, -, -, -, hstr⟩ := CreateVertexArray_inv hc
    have hh1 : h = 1 := by rw [hh]; decide
    subst hh1
    have hkey : State.init.nextArrayRef = 1 := rfl
    rw [hkey] at hstr
    have hloop := float4_layout_stride wrapLayout (layoutStart State.init 1 1) rfl hall
    obtain ⟨w1, w2⟩ := wrapped_stride wrapLayout.length hlen
    have e1 : s1.vertexStrides.read 1 0 = 16 := by rw [hstr, hloop]; exact w1
    have e2 : specStride wrapLayout = 4294967312 := by
      rw [specStride_eq, layoutBytes_float4 _ hall]; exact w2
    exact ⟨1, s1, tr, hc, hne, hnd, e1, e2, by rw [e1, e2]; decide⟩

/-! ## The record of the active array along a run -/

theorem layoutLoop_buffers (r : ArrayRef) :
    ∀ (layout : List (HashName × ShaderDataType)) (s : State),
      (layoutLoop r s layout).vbos = s.vbos ∧ (layoutLoop r s layout).ibos = s.ibos := by
  intro layout
  induction layout with
  | nil => intro s; exact ⟨rfl, rfl⟩
  | cons a rest ih =>
    intro s
    rw [layoutLoop_cons]
    exact ih (layoutStep r s a)

theorem bindArray_rebound (s : State) (a : ArrayRef) : Rebound s (bindArray s a).1 a := by
  unfold Rebound bindArray
  by_cases h : a ≠ s._activeArray
  · rw [if_pos h]
    exact ⟨rfl, rfl, fun x => Table.read_touch _ _ _ _, fun x => Table.read_touch _ _ _ _,
      Or.inr ⟨h, rfl, rfl⟩⟩
  · rw [if_neg h]
    exact ⟨rfl, (not_not.1 h).symm, fun _ => rfl, fun _ => rfl, Or.inl ⟨not_not.1 h, rfl, rfl⟩⟩

theorem DrawArray_rebound {s : State} {a : ArrayRef} {n : Nat} {shader : Table Nat}
    {s1 : State} {tr : List GLCall} (hs : DrawArray s a n shader = .ok (s1, tr)) :
    Rebound s s1 a := by
  unfold DrawArray at hs
  simp only [Except.ok.injEq, Prod.mk.injEq] at hs
  obtain ⟨rfl, -⟩ := hs
  obtain ⟨f1, f2, -, f4, -, f6, -, -, f9, f10⟩ := attributeLoop_frame shader a
    ((bindArray s a).1.vertexAttributeNames.read a []) (touchNames (bindArray s a).1 a) 0
  have hb := bindArray_rebound s a
  unfold Rebound at hb ⊢
  simp only []
  rw [f1, f2, f4, f6, f9, f10]
  exact hb

theorem step_effect {w : Nat} {s : State} {c : Call} {s1 : State} {r : Option Nat}
    {tr : List GLCall} (hs : step w s c = .ok (s1, r, tr)) : StepEffect w s s1 r c := by
  cases c with
  | CreateVertexArray dv di mv mt layout vbo ibo =>
    simp only [step] at hs
    cases hc : CreateVertexArray w s dv di mv mt layout vbo ibo with
    | error f => rw [hc] at hs; cases hs
    | ok v =>
      obtain ⟨h, s2, tr2⟩ := v
      rw [hc] at hs
      simp only [Except.ok.injEq, Prod.mk.injEq] at hs
      obtain ⟨rfl, rfl, rfl⟩ := hs
      unfold CreateVertexArray at hc
      split_ifs at hc
      cases layout with
      | nil => cases hc
      | cons first rest =>
        obtain ⟨b1, b2⟩ := layoutLoop_buffers s.nextArrayRef (first :: rest) (layoutStart s mv mt)
        simp only [Except.ok.injEq, Prod.mk.injEq] at hc
        obtain ⟨rfl, rfl, -⟩ := hc
        refine ⟨?_, rfl, rfl, rfl, rfl, ?_, ?_⟩
        · rw [handle_arith _ _ (Nat.pos_pow_of_pos w (by decide))]
        · show (layoutLoop _ _ _).vbos.set _ _ = _
          rw [b1]; rfl
        · show (layoutLoop _ _ _).ibos.set _ _ = _
          rw [b2]; rfl
  | DeleteVertexArray a =>
    simp only [step, DeleteVertexArray, Except.ok.injEq, Prod.mk.injEq] at hs
    obtain ⟨rfl, rfl, -⟩ := hs
    exact ⟨rfl, rfl, rfl, rfl, rfl, rfl, rfl⟩
  | SetVertexData a src first count =>
    simp only [step] at hs
    cases hc : SetVertexData s a src first count with
    | error f => rw [hc] at hs; cases hs
    | ok v =>
      obtain ⟨s2, tr2⟩ := v
      rw [hc] at hs
      simp only [Except.ok.injEq, Prod.mk.injEq] at hs
      obtain ⟨rfl, rfl, rfl⟩ := hs
      unfold SetVertexData at hc
      split_ifs at hc
      simp only [Except.ok.injEq, Prod.mk.injEq] at hc
      obtain ⟨rfl, -⟩ := hc
      exact ⟨rfl, bindArray_rebound { s with vboSizes := s.vboSizes.touch a 0 } a⟩
  | SetIndexData a src first count =>
    simp only [step] at hs
    cases hc : SetIndexData s a src first count with
    | error f => rw [hc] at hs; cases hs
    | ok v =>
      obtain ⟨s2, tr2⟩ := v
      rw [hc] at hs
      simp only [Except.ok.injEq, Prod.mk.injEq] at hs
      obtain ⟨rfl, rfl, rfl⟩ := hs
      unfold SetIndexData at hc
      split_ifs at hc
      simp only [Except.ok.injEq, Prod.mk.injEq] at hc
      obtain ⟨rfl, -⟩ := hc
      exact ⟨rfl, bindArray_rebound
        { s with iboSizesInTriangles := s.iboSizesInTriangles.touch a 0 } a⟩
  | DrawArrayDefault a shader =>
    simp only [step] at hs
    cases hc : DrawArrayDefault s a shader with
    | error f => rw [hc] at hs; cases hs
    | ok v =>
      obtain ⟨s2, tr2⟩ := v
      rw [hc] at hs
      simp only [Except.ok.injEq, Prod.mk.injEq] at hs
      obtain ⟨rfl, rfl, rfl⟩ := hs
      unfold DrawArrayDefault at hc
      have hr : Rebound { s with iboSizesInTriangles := s.iboSizesInTriangles.touch a 0 } s2 a :=
        DrawArray_rebound hc
      exact ⟨rfl, hr⟩
  | DrawArray a n shader =>
    simp only [step] at hs
    cases hc : DrawArray s a n shader with
    | error f => rw [hc] at hs; cases hs
    | ok v =>
      obtain ⟨s2, tr2⟩ := v
      rw [hc] at hs
      simp only [Except.ok.injEq, Prod.mk.injEq] at hs
      obtain ⟨rfl, rfl, rfl⟩ := hs
      exact ⟨rfl, DrawArray_rebound hc⟩

theorem unbindDeleted_of_ne (bound name : Nat) (h : bound ≠ name ∨ name = 0) :
    unbindDeleted bound name = bound := by
  unfold unbindDeleted
  rcases h with h | h
  · rw [if_neg (fun hc => h hc.2)]
  · rw [if_neg (fun hc => hc.1 h)]

theorem read_touch_erase (m : Table Nat) (a x : Nat) :
    ((m.touch a 0).erase a).read x 0 = if x = a then 0 else m.read x 0 := by
  by_cases h : x = a
  · rw [if_pos h, h, Table.read_erase_self]
  · rw [if_neg h, Table.read_erase_ne _ _ _ _ h, Table.read_touch]

theorem BindInv_rebound {w : Nat} {s s1 : State} {live : List Nat} {a : Nat}
    (hinv : BindInv w s live) (hr : Rebound s s1 a) : BindInv w s1 live := by
  obtain ⟨i1, iA, iB, iC⟩ := hinv
  obtain ⟨n1, n2, n3, n4, n5⟩ := hr
  refine ⟨by rw [n1]; exact i1, ?_, ?_, ?_⟩
  · intro h hh hact
    rw [n2] at hact
    subst hact
    rw [n3, n4]
    rcases n5 with ⟨e, b1, b2⟩ | ⟨-, b1, b2⟩
    · rw [b1, b2]; exact iA a hh e.symm
    · exact ⟨b1, b2⟩
  · intro x hx y hy hxy
    rw [n3, n3, n4, n4]
    exact iB x hx y hy hxy
  · intro x hx
    rw [n3, n4]
    exact iC x hx

/-- Every returning call keeps the facts of `BindInv`, provided the names
`glGenBuffers` hands out are fresh. -/
theorem BindInv_step {w : Nat} {s : State} {live : List Nat} {c : Call} {s1 : State}
    {r : Option Nat} {tr : List GLCall} (hinv : BindInv w s live)
    (hfresh : FreshNames s live c) (hs : step w s c = .ok (s1, r, tr)) :
    BindInv w s1 (liveAfter live c r) := by
  have he := step_effect hs
  cases c with
  | CreateVertexArray dv di mv mt layout vbo ibo =>
    obtain ⟨i1, iA, iB, iC⟩ := hinv
    obtain ⟨rfl, e2, e3, e4, e5, e6, e7⟩ := he
    have hmod : s.nextArrayRef % 2 ^ w = s.nextArrayRef := Nat.mod_eq_of_lt i1
    have hv : ∀ x, s1.vbos.read x 0 = if x = s.nextArrayRef then vbo else s.vbos.read x 0 := by
      intro x
      rw [e6]
      by_cases h : x = s.nextArrayRef
      · rw [if_pos h, h, Table.read_set_self]
      · rw [if_neg h, Table.read_set_ne _ _ _ _ _ h]
    have hi : ∀ x, s1.ibos.read x 0 = if x = s.nextArrayRef then ibo else s.ibos.read x 0 := by
      intro x
      rw [e7]
      by_cases h : x = s.nextArrayRef
      · rw [if_pos h, h, Table.read_set_self]
      · rw [if_neg h, Table.read_set_ne _ _ _ _ _ h]
    simp only [liveAfter, hmod]
    refine ⟨by rw [e2]; exact Nat.mod_lt _ (Nat.pos_pow_of_pos w (by decide)), ?_, ?_, ?_⟩
    · intro h _ hact
      rw [e3] at hact
      subst hact
      rw [hv, hi, if_pos rfl, if_pos rfl]
      exact ⟨e4, e5⟩
    · intro x hx y hy hxy
      have newV : ∀ z, z = s.nextArrayRef → s1.vbos.read z 0 = vbo := by
        intro z hz; rw [hv, if_pos hz]
      have newI : ∀ z, z = s.nextArrayRef → s1.ibos.read z 0 = ibo := by
        intro z hz; rw [hi, if_pos hz]
      have oldV : ∀ z, z ≠ s.nextArrayRef → s1.vbos.read z 0 = s.vbos.read z 0 := by
        intro z hz; rw [hv, if_neg hz]
      have oldI : ∀ z, z ≠ s.nextArrayRef → s1.ibos.read z 0 = s.ibos.read z 0 := by
        intro z hz; rw [hi, if_neg hz]
      by_cases h1 : x = s.nextArrayRef
      · have h2 : y ≠ s.nextArrayRef := fun h2 => hxy (h1.trans h2.symm)
        have hy1 : y ∈ live := (List.mem_cons.1 hy).resolve_left h2
        rw [newV x h1, newI x h1, oldV y h2, oldI y h2]
        exact hfresh y hy1
      · have hx1 : x ∈ live := (List.mem_cons.1 hx).resolve_left h1
        rw [oldV x h1, oldI x h1]
        by_cases h2 : y = s.nextArrayRef
        · rw [newV y h2, newI y h2]
          obtain ⟨f1, f2, f3, f4⟩ := hfresh x hx1
          exact ⟨f1.symm, f3.symm, f2.symm, f4.symm⟩
        · have hy1 : y ∈ live := (List.mem_cons.1 hy).resolve_left h2
          rw [oldV y h2, oldI y h2]
          exact iB x hx1 y hy1 hxy
    · intro x hx
      rw [List.mem_cons, not_or] at hx
      rw [hv, hi, if_neg hx.1, if_neg hx.1]
      exact iC x hx.2
  | DeleteVertexArray a =>
    obtain ⟨i1, iA, iB, iC⟩ := hinv
    obtain ⟨rfl, e2, e3, e4, e5, e6, e7⟩ := he
    have hmem : ∀ x, x ∈ live.filter (fun x => decide (x ≠ a)) ↔ x ∈ live ∧ x ≠ a := by
      intro x; simp [List.mem_filter]
    have hv : ∀ x, s1.vbos.read x 0 = if x = a then 0 else s.vbos.read x 0 := by
      intro x; rw [e6]; exact read_touch_erase _ _ _
    have hi : ∀ x, s1.ibos.read x 0 = if x = a then 0 else s.ibos.read x 0 := by
      intro x; rw [e7]; exact read_touch_erase _ _ _
    simp only [liveAfter]
    refine ⟨by rw [e2]; exact i1, ?_, ?_, ?_⟩
    · intro h hh hact
      obtain ⟨hl, hne⟩ := (hmem h).1 hh
      rw [e3] at hact
      obtain ⟨b1, b2⟩ := iA h hl hact
      rw [hv, hi, if_neg hne, if_neg hne, e4, e5, b1, b2]
      by_cases ha : a ∈ live
      · obtain ⟨d1, d2, d3, d4⟩ := iB h hl a ha hne
        rw [unbindDeleted_of_ne _ _ (Or.inl d1), unbindDeleted_of_ne _ _ (Or.inl d2),
          unbindDeleted_of_ne _ _ (Or.inl d3), unbindDeleted_of_ne _ _ (Or.inl d4)]
        exact ⟨rfl, rfl⟩
      · obtain ⟨z1, z2⟩ := iC a ha
        rw [z1, z2, unbindDeleted_of_ne _ _ (Or.inr rfl), unbindDeleted_of_ne _ _ (Or.inr rfl),
          unbindDeleted_of_ne _ _ (Or.inr rfl)]
        exact ⟨rfl, rfl⟩
    · intro x hx y hy hxy
      obtain ⟨hx1, hx2⟩ := (hmem x).1 hx
      obtain ⟨hy1, hy2⟩ := (hmem y).1 hy
      rw [hv x, hv y, hi x, hi y, if_neg hx2, if_neg hx2, if_neg hy2, if_neg hy2]
      exact iB x hx1 y hy1 hxy
    · intro x hx
      rw [hv, hi]
      by_cases h : x = a
      · rw [if_pos h, if_pos h]; exact ⟨rfl, rfl⟩
      · rw [if_neg h, if_neg h]
        exact iC x (fun hl => hx ((hmem x).2 ⟨hl, h⟩))
  | SetVertexData a src first count => exact BindInv_rebound hinv he.2
  | SetIndexData a src first count => exact BindInv_rebound hinv he.2
  | DrawArrayDefault a shader => exact BindInv_rebound hinv he.2
  | DrawArray a n shader => exact BindInv_rebound hinv he.2

theorem BindInv_reachable {w : Nat} (hw : 0 < w) {s : State} {live : List Nat}
    (hr : Reachable w FreshNames s live) : BindInv w s live := by
  induction hr with
  | init =>
    refine ⟨Nat.one_lt_two_pow (by omega), ?_, ?_, ?_⟩
    · intro h hh; cases hh
    · intro a ha; cases ha
    · intro a _; exact ⟨rfl, rfl⟩
  | call _ hallowed hstep ih => exact BindInv_step ih hallowed hstep

/-- C16: bind elision is sound.  In every state reachable from the start-up
state by `CreateVertexArray`, `DeleteVertexArray`, `SetVertexData`,
`SetIndexData` and `DrawArray` calls that return (the names handed out by
`glGenBuffers` being fresh, as OpenGL guarantees), whenever the array recorded
as active is a live handle `h`, the buffers bound in the context are the ones
recorded for `h`.  So after the bind block, skipped or not, the bound buffers
are those of the live handle passed, and they are buffers of no other live
array. -/
theorem bind_elision_sound (w : Nat) (hw : 0 < w) (s : State) (live : List Nat)
    (hr : Reachable w FreshNames s live) :
    (∀ h ∈ live, s._activeArray = h →
      s.boundArrayBuffer = s.vbos.read h 0 ∧ s.boundElementArrayBuffer = s.ibos.read h 0) ∧
    (∀ h ∈ live,
      (bindArray s h).1._activeArray = h ∧
      (bindArray s h).1.boundArrayBuffer = s.vbos.read h 0 ∧
      (bindArray s h).1.boundElementArrayBuffer = s.ibos.read h 0) ∧
    (∀ a ∈ live, ∀ b ∈ live, a ≠ b →
      s.vbos.read a 0 ≠ s.vbos.read b 0 ∧ s.vbos.read a 0 ≠ s.ibos.read b 0 ∧
      s.ibos.read a 0 ≠ s.vbos.read b 0 ∧ s.ibos.read a 0 ≠ s.ibos.read b 0) := by
  obtain ⟨-, iA, iB, -⟩ := BindInv_reachable hw hr
  refine ⟨iA, ?_, iB⟩
  intro h hh
  obtain ⟨-, n2, -, -, n5⟩ := bindArray_rebound s h
  refine ⟨n2, ?_⟩
  rcases n5 with ⟨e, b1, b2⟩ | ⟨-, b1, b2⟩
  · rw [b1, b2]; exact iA h hh e.symm
  · exact ⟨b1, b2⟩

/-- C16 on a run that creates two arrays (buffers 10, 11 and 12, 13) and
uploads vertices to the first: handle 1 is recorded as active and its buffers
10 and 11 are the bound ones. -/
theorem bind_elision_sound_witness :
    0 < 32 ∧ ∃ s, Reachable 32 FreshNames s [2, 1] ∧ s._activeArray = 1 ∧
      s.vbos.read 1 0 = 10 ∧ s.ibos.read 1 0 = 11 ∧
      s.boundArrayBuffer = s.vbos.read 1 0 ∧ s.boundElementArrayBuffer = s.ibos.read 1 0 := by
  have r1 := @Reachable.call 32 FreshNames State.init []
    (.CreateVertexArray false false 1 1 [(1, .Float)] 10 11) _ _ _ Reachable.init
    (by intro a ha; cases ha) rfl
  have r2 := @Reachable.call 32 FreshNames _ _
    (.CreateVertexArray false false 1 1 [(1, .Float)] 12 13) _ _ _ r1
    (by intro a ha
        rw [liveAfter, List.mem_singleton] at ha
        subst ha
        decide) rfl
  have r3 := @Reachable.call 32 FreshNames _ _ (.SetVertexData 1 7 0 1) _ _ _ r2 trivial rfl
  exact ⟨by decide, _, r3, rfl, rfl, rfl,
    (bind_elision_sound 32 (by decide) _ _ r3).1 1
      (show (1 : Nat) ∈ [2, 1] from by decide) rfl⟩

/-! ## DeleteVertexArray and the record of the active array -/

/-- C17: `DeleteVertexArray` deletes the buffers of the array and leaves the
record of the active array alone.  After `CreateVertexArray` (returning 1) and
`DeleteVertexArray(1)` no handle is live, no buffer name is recorded for
handle 1 and both bindings of the context are 0, yet the array recorded as
active is still 1: the record is neither 0 nor a live handle.  The bind block
of the next call on handle 1 is skipped: `DrawArray(1, 1)` issues its draw
call with no `glBindBuffer` in front of it. -/
theorem DeleteVertexArray_leaves_active_record :
    (∃ s, Reachable 32 AnyCall s [] ∧
      s = (run 32 State.init [createCall, .DeleteVertexArray 1]).state ∧
      s._activeArray = 1 ∧
      s.boundArrayBuffer = 0 ∧ s.boundElementArrayBuffer = 0 ∧
      s.vbos.count 1 = 0 ∧ s.ibos.count 1 = 0 ∧
      ¬ (s._activeArray = 0 ∨ s._activeArray ∈ ([] : List Nat)) ∧
      (bindArray s 1).2 = []) ∧
    (run 32 State.init [createCall, .DeleteVertexArray 1]).fault = none ∧
    (run 32 State.init [createCall, .DeleteVertexArray 1]).handles = [1] ∧
    (run 32 State.init [createCall, .DeleteVertexArray 1, .DrawArray 1 1 Table.empty]).trace
      = [.glGenBuffers 10, .glBindBuffer .GL_ARRAY_BUFFER 10,
          .glBufferData .GL_ARRAY_BUFFER 4 false, .glGenBuffers 11,
          .glBindBuffer .GL_ELEMENT_ARRAY_BUFFER 11,
          .glBufferData .GL_ELEMENT_ARRAY_BUFFER 12 false,
          .glDeleteBuffers 10, .glDeleteBuffers 11,
          .glDrawElements 3] := by
  have r1 := @Reachable.call 32 AnyCall State.init []
    (.CreateVertexArray false false 1 1 [(1, .Float)] 10 11) _ _ _ Reachable.init trivial rfl
  have r2 := @Reachable.call 32 AnyCall _ _ (.DeleteVertexArray 1) _ _ _ r1 trivial rfl
  exact ⟨⟨_, r2, rfl, rfl, rfl, rfl, rfl, rfl, by decide, rfl⟩, by decide, by decide,
    by decide⟩

end Graphics
end Enterprise
